import Mathlib

/-!
nvme-dem: target configuration synchronisation (`src/demd/config.c`)

A shallow embedding of the wire encoders, the reconciliation passes and the
delete cascade of `config.c`, with the properties proved about them.

Conventions of the embedding

* a C string is the list of its bytes before the terminating NUL (`CStr`);
  `strcmp(a, b) == 0` is equality of those lists;
* kernel-style intrusive lists (`list_for_each_entry`, `list_del`) are Lean
  lists, in list order;
* constants, macros and record layouts that `config.c` takes from its
  headers are parameters (`Consts`, `Layout`), with one concrete instance
  each for evaluation;
* calls that leave this file (configuration store, HTTP client, in-band
  queue) are answered by an oracle and recorded in a trace;
* a `sprintf` into the fixed `char uri[128]` has a result only when the text
  and its NUL fit the buffer; a function that writes past it has no result
  (`none`), and nothing is claimed about a run from that point on.
-/

set_option linter.dupNamespace false

namespace NvmeDem

/-! ## C strings -/

/-- A C string, as the bytes that precede its terminating NUL. -/
abbrev CStr := List Nat

/-- The bytes of a string literal of the source. -/
def ascii (s : String) : CStr := s.toList.map Char.toNat

/-! ## Constants taken from headers -/

/-- Parameters: the fabric codes `NVMF_TRTYPE_*`, `NVMF_ADDR_FAMILY_*`,
the tag strings `TRTYPE_STR_*`, `ADRFAM_STR_*` and the resource tags
`URI_*`, whose `#define`s live in headers outside `config.c`.  The spec
(4.3) calls the codes and tags a closed bidirectional table of fixed
numeric codes and strings, and (6) the resources fixed tags. -/
structure Consts where
  NVMF_TRTYPE_RDMA : Nat
  NVMF_TRTYPE_FC : Nat
  NVMF_TRTYPE_TCP : Nat
  NVMF_ADDR_FAMILY_IP4 : Nat
  NVMF_ADDR_FAMILY_IP6 : Nat
  NVMF_ADDR_FAMILY_FC : Nat
  TRTYPE_STR_RDMA : CStr
  TRTYPE_STR_FC : CStr
  TRTYPE_STR_TCP : CStr
  ADRFAM_STR_IPV4 : CStr
  ADRFAM_STR_IPV6 : CStr
  ADRFAM_STR_FC : CStr
  URI_HOST : CStr
  URI_SUBSYSTEM : CStr
  URI_PORTID : CStr
  URI_NAMESPACE : CStr
  URI_TARGET : CStr
deriving DecidableEq, Repr

/-- What a `switch` over the codes and a table of tags need to make sense:
the three case labels of each `switch` are pairwise distinct, every code
is a non-zero `u8`, and the three tag strings of each table are pairwise
distinct. -/
def Consts.wf (K : Consts) : Prop :=
  (K.NVMF_TRTYPE_RDMA ≠ K.NVMF_TRTYPE_FC ∧ K.NVMF_TRTYPE_RDMA ≠ K.NVMF_TRTYPE_TCP ∧
    K.NVMF_TRTYPE_FC ≠ K.NVMF_TRTYPE_TCP) ∧
  (K.NVMF_ADDR_FAMILY_IP4 ≠ K.NVMF_ADDR_FAMILY_IP6 ∧
    K.NVMF_ADDR_FAMILY_IP4 ≠ K.NVMF_ADDR_FAMILY_FC ∧
    K.NVMF_ADDR_FAMILY_IP6 ≠ K.NVMF_ADDR_FAMILY_FC) ∧
  (0 < K.NVMF_TRTYPE_RDMA ∧ K.NVMF_TRTYPE_RDMA < 256) ∧
  (0 < K.NVMF_TRTYPE_FC ∧ K.NVMF_TRTYPE_FC < 256) ∧
  (0 < K.NVMF_TRTYPE_TCP ∧ K.NVMF_TRTYPE_TCP < 256) ∧
  (0 < K.NVMF_ADDR_FAMILY_IP4 ∧ K.NVMF_ADDR_FAMILY_IP4 < 256) ∧
  (0 < K.NVMF_ADDR_FAMILY_IP6 ∧ K.NVMF_ADDR_FAMILY_IP6 < 256) ∧
  (0 < K.NVMF_ADDR_FAMILY_FC ∧ K.NVMF_ADDR_FAMILY_FC < 256) ∧
  (K.TRTYPE_STR_RDMA ≠ K.TRTYPE_STR_FC ∧ K.TRTYPE_STR_RDMA ≠ K.TRTYPE_STR_TCP ∧
    K.TRTYPE_STR_FC ≠ K.TRTYPE_STR_TCP) ∧
  (K.ADRFAM_STR_IPV4 ≠ K.ADRFAM_STR_IPV6 ∧ K.ADRFAM_STR_IPV4 ≠ K.ADRFAM_STR_FC ∧
    K.ADRFAM_STR_IPV6 ≠ K.ADRFAM_STR_FC)

instance (K : Consts) : Decidable K.wf := by
  unfold Consts.wf; infer_instance

/-- The NVMe-over-Fabrics values of the codes (RDMA 1, FC 2, TCP 3; IPv4 1,
IPv6 2, FC 4) with lower-case tags, used wherever a statement is evaluated. -/
def nvmeConsts : Consts where
  NVMF_TRTYPE_RDMA := 1
  NVMF_TRTYPE_FC := 2
  NVMF_TRTYPE_TCP := 3
  NVMF_ADDR_FAMILY_IP4 := 1
  NVMF_ADDR_FAMILY_IP6 := 2
  NVMF_ADDR_FAMILY_FC := 4
  TRTYPE_STR_RDMA := ascii "rdma"
  TRTYPE_STR_FC := ascii "fc"
  TRTYPE_STR_TCP := ascii "tcp"
  ADRFAM_STR_IPV4 := ascii "ipv4"
  ADRFAM_STR_IPV6 := ascii "ipv6"
  ADRFAM_STR_FC := ascii "fc"
  URI_HOST := ascii "host"
  URI_SUBSYSTEM := ascii "subsystem"
  URI_PORTID := ascii "portid"
  URI_NAMESPACE := ascii "namespace"
  URI_TARGET := ascii "target"

/-! ## Code and tag conversion (`config.c` 25-73) -/

/-- `trtype_str`: the `switch` over the three transport-type codes. -/
def trtype_str (K : Consts) (trtype : Nat) : CStr :=
  if trtype = K.NVMF_TRTYPE_RDMA then K.TRTYPE_STR_RDMA
  else if trtype = K.NVMF_TRTYPE_FC then K.TRTYPE_STR_FC
  else if trtype = K.NVMF_TRTYPE_TCP then K.TRTYPE_STR_TCP
  else ascii "unknown"

/-- `adrfam_str`: the `switch` over the three address-family codes. -/
def adrfam_str (K : Consts) (adrfam : Nat) : CStr :=
  if adrfam = K.NVMF_ADDR_FAMILY_IP4 then K.ADRFAM_STR_IPV4
  else if adrfam = K.NVMF_ADDR_FAMILY_IP6 then K.ADRFAM_STR_IPV6
  else if adrfam = K.NVMF_ADDR_FAMILY_FC then K.ADRFAM_STR_FC
  else ascii "unknown"

/-- `to_trtype`: three `strcmp`s in order, `0` when none hits; the result
is returned as a `u8`. -/
def to_trtype (K : Consts) (str : CStr) : Nat :=
  if str = K.TRTYPE_STR_RDMA then K.NVMF_TRTYPE_RDMA % 256
  else if str = K.TRTYPE_STR_FC then K.NVMF_TRTYPE_FC % 256
  else if str = K.TRTYPE_STR_TCP then K.NVMF_TRTYPE_TCP % 256
  else 0

/-- `to_adrfam`: three `strcmp`s in order, `0` when none hits; the result
is returned as a `u8`. -/
def to_adrfam (K : Consts) (str : CStr) : Nat :=
  if str = K.ADRFAM_STR_IPV4 then K.NVMF_ADDR_FAMILY_IP4 % 256
  else if str = K.ADRFAM_STR_IPV6 then K.NVMF_ADDR_FAMILY_IP6 % 256
  else if str = K.ADRFAM_STR_FC then K.NVMF_ADDR_FAMILY_FC % 256
  else 0

/-! ## Entity model (the records of `common.h` that `config.c` walks) -/

/-- `struct host`: one ACL membership record of a subsystem. -/
structure host where
  nqn : CStr
deriving DecidableEq, Repr

/-- `struct ns`: a namespace of a subsystem. -/
structure ns where
  nsid : Int
  devid : Int
  devns : Int
deriving DecidableEq, Repr

/-- `struct port_id`; `valid` is the transient reconciliation flag (a C
`int` used as a truth value). -/
structure port_id where
  portid : Int
  type : CStr
  family : CStr
  address : CStr
  port : CStr
  port_num : Int
  valid : Bool
deriving DecidableEq, Repr

/-- `struct nsdev`; `valid` is the transient reconciliation flag. -/
structure nsdev where
  nsdev : Int
  nsid : Int
  valid : Bool
deriving DecidableEq, Repr

/-- `struct subsystem`.  The back pointer `subsys->target` is not stored:
the owning target is passed along. -/
structure subsystem where
  nqn : CStr
  access : Nat
  host_list : List host
  ns_list : List ns
deriving DecidableEq, Repr

/-- Modelled from the spec: the value of `target->mgmt_mode`, whose
enumeration is declared outside `config.c`.  The code compares it with
`IN_BAND_MGMT` and then with `OUT_OF_BAND_MGMT` and does nothing for any
other value; the spec (3) knows the two modes only. -/
inductive mgmt_mode_t where
  | IN_BAND_MGMT
  | OUT_OF_BAND_MGMT
  | other_mgmt (code : Nat)
deriving DecidableEq, Repr

/-- `target->oob_iface`. -/
structure oob_iface_t where
  address : CStr
  port : Int
deriving DecidableEq, Repr

/-- `struct target` (`alias_` is the member `alias`). -/
structure target where
  alias_ : CStr
  mgmt_mode : mgmt_mode_t
  oob_iface : oob_iface_t
  portid_list : List port_id
  subsys_list : List subsystem
  device_list : List nsdev
deriving DecidableEq, Repr

/-! ## Record layouts of the in-band pages -/

/-- Parameters: sizes and member offsets of the in-band page records
(`struct nvmf_port_config_page_*`, `struct nvmf_subsys_config_page_*`) and
`NVMF_NQN_FIELD_LEN`, declared outside `config.c`.  `ptr_size` is
`sizeof(hdr)`, `hdr` being a pointer; `sh_*` are the size of the subsystem
page header and the offsets of its members, `se_*` those of the subsystem
entry.  A count or flag member (`num_entries`, `status`, `allowallhosts`,
`numhosts`) is one cell of the buffer holding a value below `num_mod`
(`256` for a `u8`); storing an `int` into it keeps the value modulo
`num_mod`. -/
structure Layout where
  ptr_size : Nat
  NVMF_NQN_FIELD_LEN : Nat
  num_mod : Nat
  port_entry_size : Nat
  sh_size : Nat
  sh_num_entries : Nat
  sh_data : Nat
  se_size : Nat
  se_status : Nat
  se_allowallhosts : Nat
  se_subnqn : Nat
  se_numhosts : Nat
  se_data : Nat
deriving DecidableEq, Repr

/-- The layout the `sizeof(...) - 1` / `&...->data` idiom of the encoders
presupposes: `data` is the last byte of the header and of the entry, the
count member of the header lies before `data`, and in the entry the
one-cell members `status`, `allowallhosts`, `numhosts` and the
`NVMF_NQN_FIELD_LEN` bytes of `subnqn` are disjoint and lie before `data`. -/
def Layout.wf (L : Layout) : Prop :=
  0 < L.num_mod ∧ 0 < L.NVMF_NQN_FIELD_LEN ∧
  L.sh_data + 1 = L.sh_size ∧ L.sh_num_entries < L.sh_data ∧
  L.se_data + 1 = L.se_size ∧
  L.se_status < L.se_data ∧ L.se_allowallhosts < L.se_data ∧ L.se_numhosts < L.se_data ∧
  L.se_subnqn + L.NVMF_NQN_FIELD_LEN ≤ L.se_data ∧
  L.se_status ≠ L.se_allowallhosts ∧ L.se_status ≠ L.se_numhosts ∧
  L.se_allowallhosts ≠ L.se_numhosts ∧
  (L.se_status < L.se_subnqn ∨ L.se_subnqn + L.NVMF_NQN_FIELD_LEN ≤ L.se_status) ∧
  (L.se_allowallhosts < L.se_subnqn ∨
    L.se_subnqn + L.NVMF_NQN_FIELD_LEN ≤ L.se_allowallhosts) ∧
  (L.se_numhosts < L.se_subnqn ∨ L.se_subnqn + L.NVMF_NQN_FIELD_LEN ≤ L.se_numhosts)

instance (L : Layout) : Decidable L.wf := by
  unfold Layout.wf; infer_instance

/-- An LP64 build with byte-wide members: header `{u8 num_entries; u8
data}`, entry `{u8 status; u8 allowallhosts; char subnqn[256]; u8
numhosts; u8 data}`, and a 292-byte port entry. -/
def nvmeLayout : Layout where
  ptr_size := 8
  NVMF_NQN_FIELD_LEN := 256
  num_mod := 256
  port_entry_size := 292
  sh_size := 2
  sh_num_entries := 0
  sh_data := 1
  se_size := 260
  se_status := 0
  se_allowallhosts := 1
  se_subnqn := 2
  se_numhosts := 258
  se_data := 259

/-! ## Binary port table (`build_set_port_inb`, `config.c` 83-123) -/

/-- One `struct nvmf_port_config_page_entry` with the values assigned to
its members. -/
structure port_config_entry where
  status : Nat
  portid : Int
  trtype : Nat
  adrfam : Nat
  traddr : CStr
  trsvcid : CStr
deriving DecidableEq, Repr

/-- The port page: the header member and the entries written through
`entry++`, in the order written. -/
structure port_config_page where
  num_entries : Nat
  entries : List port_config_entry
deriving DecidableEq, Repr

/-- The body of the second loop for one `port_id`: nothing for an entry
whose `valid` is clear (`continue`), else the filled entry. -/
def port_entry_of (K : Consts) (p : port_id) : List port_config_entry :=
  if !p.valid then []
  else [{ status := 0, portid := p.portid, trtype := to_trtype K p.type,
          adrfam := to_adrfam K p.family, traddr := p.address, trsvcid := p.port }]

/-- The second loop of `build_set_port_inb`. -/
def write_port_entries (K : Consts) : List port_id → List port_config_entry
  | [] => []
  | p :: ps => port_entry_of K p ++ write_port_entries K ps

/-- The first loop of `build_set_port_inb`: `count++` for every list
member. -/
def count_port_ids : List port_id → Nat
  | [] => 0
  | _ :: ps => count_port_ids ps + 1

/-- `build_set_port_inb`: returns `len` and what `*_hdr` is set to.
`alloc_ok` is whether `posix_memalign` succeeds. -/
def build_set_port_inb (K : Consts) (L : Layout) (alloc_ok : Bool) (t : target) :
    Nat × Option port_config_page :=
  let count := count_port_ids t.portid_list
  let len := L.ptr_size - 1 + count * L.port_entry_size
  if !alloc_ok then (0, none)
  else (len, some { num_entries := count % L.num_mod,
                    entries := write_port_entries K t.portid_list })

/-! ## Binary subsystem table (`build_set_subsys_inb`, `config.c` 125-174) -/

/-- The page buffer, byte offset to cell content; offset `0` is `ptr`. -/
abbrev Mem := Nat → Nat

/-- A store of one cell. -/
def Mem.set (m : Mem) (a v : Nat) : Mem := fun i => if i = a then v else m i

/-- `strcpy(dst, s)`: the bytes of `s`, then the terminating NUL. -/
def strcpy (m : Mem) (dst : Nat) : CStr → Mem
  | [] => m.set dst 0
  | c :: cs => strcpy (m.set dst c) (dst + 1) cs

/-- The inner loop of the length pass: `len += NVMF_NQN_FIELD_LEN` per
host. -/
def len_hosts (L : Layout) (len : Nat) : List host → Nat
  | [] => len
  | _ :: hs => len_hosts L (len + L.NVMF_NQN_FIELD_LEN) hs

/-- The length pass: per subsystem `len += sizeof(*entry) - 1; count++`
and the inner loop.  Returns `(len, count)`. -/
def len_subsys (L : Layout) (len count : Nat) : List subsystem → Nat × Nat
  | [] => (len, count)
  | s :: ss => len_subsys L (len_hosts L (len + (L.se_size - 1)) s.host_list) (count + 1) ss

/-- The inner loop of the write pass: `strcpy(hostnqn, host->nqn);
count++; hostnqn += NVMF_NQN_FIELD_LEN`.  Returns the buffer, `hostnqn`
and `count`. -/
def write_hosts (L : Layout) (m : Mem) (hostnqn count : Nat) : List host → Mem × Nat × Nat
  | [] => (m, hostnqn, count)
  | h :: hs => write_hosts L (strcpy m hostnqn h.nqn) (hostnqn + L.NVMF_NQN_FIELD_LEN)
      (count + 1) hs

/-- The write pass; `entry` is the offset of the current entry.  Returns
the buffer and the final value of `entry`. -/
def write_subsys (L : Layout) (m : Mem) (entry : Nat) : List subsystem → Mem × Nat
  | [] => (m, entry)
  | s :: ss =>
    let m1 := m.set (entry + L.se_status) 0
    let m2 := m1.set (entry + L.se_allowallhosts) (s.access % L.num_mod)
    let m3 := strcpy m2 (entry + L.se_subnqn) s.nqn
    let r := write_hosts L m3 (entry + L.se_data) 0 s.host_list
    let m5 := r.1.set (entry + L.se_numhosts) (r.2.2 % L.num_mod)
    write_subsys L m5 r.2.1 ss

/-- What a run of `build_set_subsys_inb` yields: the returned `len`, the
buffer `*_hdr` points to, and the last value of the `entry` cursor. -/
structure subsys_build where
  len : Nat
  page : Option Mem
  cursor : Nat

/-- `build_set_subsys_inb`.  `alloc` is the outcome of `posix_memalign`:
`none` on failure, else the (uninitialised) content of the new buffer. -/
def build_set_subsys_inb (L : Layout) (alloc : Option Mem) (t : target) : subsys_build :=
  let lc := len_subsys L (L.ptr_size - 1) 0 t.subsys_list
  match alloc with
  | none => { len := 0, page := none, cursor := 0 }
  | some m0 =>
    let m1 := m0.set L.sh_num_entries (lc.2 % L.num_mod)
    let r := write_subsys L m1 L.sh_data t.subsys_list
    { len := lc.1, page := some r.1, cursor := r.2 }

/-! ### Reading a subsystem page back -/

/-- A NUL-terminated string read from a field of `n` bytes at `off`. -/
def read_cstr (m : Mem) (off : Nat) : Nat → CStr
  | 0 => []
  | n + 1 => if m off = 0 then [] else m off :: read_cstr m (off + 1) n

/-- The `n` host fields of `NVMF_NQN_FIELD_LEN` bytes from `p` on. -/
def read_hosts (L : Layout) (m : Mem) (p : Nat) : Nat → List CStr
  | 0 => []
  | n + 1 => read_cstr m p L.NVMF_NQN_FIELD_LEN ::
      read_hosts L m (p + L.NVMF_NQN_FIELD_LEN) n

/-- A decoded subsystem entry. -/
structure subsys_record where
  status : Nat
  allowallhosts : Nat
  subnqn : CStr
  hosts : List CStr
deriving DecidableEq, Repr

/-- Reads `n` entries from offset `p`: `status`, `allowallhosts`,
`subnqn`, `numhosts` and that many host fields; the next entry starts
right after the last host field. -/
def read_entries (L : Layout) (m : Mem) (p : Nat) : Nat → List subsys_record
  | 0 => []
  | n + 1 =>
    let k := m (p + L.se_numhosts)
    { status := m (p + L.se_status), allowallhosts := m (p + L.se_allowallhosts),
      subnqn := read_cstr m (p + L.se_subnqn) L.NVMF_NQN_FIELD_LEN,
      hosts := read_hosts L m (p + L.se_data) k } ::
      read_entries L m (p + L.se_data + k * L.NVMF_NQN_FIELD_LEN) n

/-- The decoder of the subsystem page: `num_entries` from the header, then
that many entries from `data` on. -/
def decode_subsys_page (L : Layout) (m : Mem) : List subsys_record :=
  read_entries L m L.sh_data (m L.sh_num_entries)

/-- What decoding is expected to recover from a subsystem. -/
def subsys_record_of (s : subsystem) : subsys_record :=
  { status := 0, allowallhosts := s.access, subnqn := s.nqn,
    hosts := s.host_list.map host.nqn }

/-- A `CStr` stands for a C string only if no byte of it is NUL (and each
is a byte). -/
def cstr_ok (s : CStr) : Prop := ∀ c ∈ s, 0 < c ∧ c < 256

instance (s : CStr) : Decidable (cstr_ok s) := by
  unfold cstr_ok; infer_instance

/-! ## Diagnostics (`print_err`) -/

/-- One `print_err` of the reconciliation passes, by format string, with
the arguments passed to it. -/
inductive diag where
  /-- Format `send get nsdevs INB failed for %s`. -/
  | get_nsdevs_failed (al : CStr)
  /-- Format `No NS devices defined for %s`. -/
  | no_ns_devices (al : CStr)
  /-- Format `New nsdev on %s - nullb0`. -/
  | new_nsdev_nullb0 (al : CStr)
  /-- Format `New nsdev on %s - dev id %d nsid %d`. -/
  | new_nsdev (al : CStr) (dev_id ns_id : Int)
  /-- Format `Nsdev not on %s - nullb0`. -/
  | nsdev_not_on_nullb0 (al : CStr)
  /-- Format `Nsdev not on %s - dev id %d nsid %d`. -/
  | nsdev_not_on (al : CStr) (dev_id ns_id : Int)
  /-- Format `send get xports INB failed for %s`. -/
  | get_xports_failed (al : CStr)
  /-- Format `No transports defined for %s`. -/
  | no_transports (al : CStr)
  /-- Format `New transport on %s - %s %s %s`. -/
  | new_transport (al trtype adrfam traddr : CStr)
  /-- Format `Transport not on %s - %s %s %s`. -/
  | transport_not_on (al type family address : CStr)
deriving DecidableEq, Repr

/-! ## Device reconciliation (`get_inb_nsdevs`, `config.c` 370-424) -/

/-- `struct nvmf_ns_devices_rsp_page_entry`. -/
structure ns_devices_rsp_page_entry where
  dev_id : Int
  ns_id : Int
deriving DecidableEq, Repr

/-- The response page `send_get_nsdevs` hands back: the header count and
the memory that follows the header read as an array of entries, `data i`
being what the cursor `nsdev` points to after `i` increments (for
`i ≥ num_entries` that is whatever the buffer holds past the last entry). -/
structure ns_devices_rsp_page where
  num_entries : Nat
  data : Nat → ns_devices_rsp_page_entry

/-- The loop `ns_dev->valid = 0` over `device_list`. -/
def clear_nsdev_valid : List nsdev → List nsdev
  | [] => []
  | d :: ds => { d with valid := false } :: clear_nsdev_valid ds

/-- The inner loop for one reported entry: the first configured device with
the same device id and namespace id gets `valid = 1` and the loop is left
(`goto found`).  Returns the list and whether `found` was reached. -/
def match_nsdev (e : ns_devices_rsp_page_entry) : List nsdev → List nsdev × Bool
  | [] => ([], false)
  | d :: ds =>
    if d.nsdev = e.dev_id ∧ d.nsid = e.ns_id then ({ d with valid := true } :: ds, true)
    else ((d :: (match_nsdev e ds).1), (match_nsdev e ds).2)

/-- The `print_err` after an inner loop that ran to its end. -/
def new_nsdev_diag (al : CStr) (e : ns_devices_rsp_page_entry) : diag :=
  if e.dev_id = 255 then diag.new_nsdev_nullb0 al else diag.new_nsdev al e.dev_id e.ns_id

/-- The loop `for (i = num_entries; i > 0; i--, nsdev++)`; `idx` is how
often `nsdev` has been incremented, `i` the loop counter. -/
def scan_nsdevs (al : CStr) (data : Nat → ns_devices_rsp_page_entry) :
    Nat → Nat → List nsdev → List diag → List nsdev × List diag
  | _, 0, devs, log => (devs, log)
  | idx, i + 1, devs, log =>
    let r := match_nsdev (data idx) devs
    scan_nsdevs al data (idx + 1) i r.1
      (if r.2 then log else log ++ [new_nsdev_diag al (data idx)])

/-- The last loop: one `print_err` per device whose `valid` is clear.  The
test for the `nullb0` label reads `nsdev->dev_id`, the cursor of the
finished `for` loop (`cur`), not the configured device. -/
def missing_nsdevs (al : CStr) (cur : ns_devices_rsp_page_entry) : List nsdev → List diag
  | [] => []
  | d :: ds =>
    (if !d.valid then
      [if cur.dev_id = 255 then diag.nsdev_not_on_nullb0 al
       else diag.nsdev_not_on al d.nsdev d.nsid]
     else []) ++ missing_nsdevs al cur ds

/-- `get_inb_nsdevs`.  `ret` and `page` are what `send_get_nsdevs` returns
and stores through its second argument.  Returns the function result, the
target and the diagnostics printed. -/
def get_inb_nsdevs (t : target) (ret : Int) (page : ns_devices_rsp_page) :
    Int × target × List diag :=
  if ret ≠ 0 then (ret, t, [diag.get_nsdevs_failed t.alias_])
  else if page.num_entries = 0 then (ret, t, [diag.no_ns_devices t.alias_])
  else
    let r := scan_nsdevs t.alias_ page.data 0 page.num_entries
      (clear_nsdev_valid t.device_list) []
    (ret, { t with device_list := r.1 },
      r.2 ++ missing_nsdevs t.alias_ (page.data page.num_entries) r.1)

/-! ## Transport reconciliation (`get_inb_xports`, `config.c` 426-491) -/

/-- `struct nvmf_transports_rsp_page_entry`. -/
structure transports_rsp_page_entry where
  trtype : Nat
  adrfam : Nat
  traddr : CStr
deriving DecidableEq, Repr

/-- The response page of `send_get_xports`: header count and the entry
array after the header. -/
structure transports_rsp_page where
  num_entries : Nat
  data : Nat → transports_rsp_page_entry

/-- The loop `port_id->valid = 0` over `portid_list`. -/
def clear_port_valid : List port_id → List port_id
  | [] => []
  | p :: ps => { p with valid := false } :: clear_port_valid ps

/-- The condition of the first `if` of the inner loop. -/
def xport_rule1 (K : Consts) (x : transports_rsp_page_entry) (p : port_id) : Bool :=
  decide (x.traddr = p.address) && decide (x.adrfam = to_adrfam K p.family) &&
    decide (x.trtype = to_trtype K p.type)

/-- The condition of the second `if` of the inner loop. -/
def xport_rule2 (K : Consts) (x : transports_rsp_page_entry) (p : port_id) : Bool :=
  decide (x.traddr = p.address) && decide (x.adrfam = to_adrfam K p.family) &&
    (decide (x.trtype = K.NVMF_TRTYPE_RDMA) &&
      decide (to_trtype K p.type = K.NVMF_TRTYPE_TCP))

/-- The body of the inner loop for one configured `port_id`, given
`rdma_found`.  Returns the `port_id`, `rdma_found` and whether the body
left through `goto found`.  The first `if` tests `xport->adrfam ==
NVMF_TRTYPE_RDMA`, as the source does. -/
def xport_body (K : Consts) (x : transports_rsp_page_entry) (p : port_id)
    (rdma_found : Bool) : port_id × Bool × Bool :=
  let c1 := xport_rule1 K x p
  let p1 : port_id := if c1 then { p with valid := true } else p
  if c1 && !decide (x.adrfam = K.NVMF_TRTYPE_RDMA) then (p1, rdma_found, true)
  else
    let rf1 := if c1 then true else rdma_found
    let c2 := xport_rule2 K x p
    let p2 : port_id := if c2 then { p1 with valid := true } else p1
    if c2 && rf1 then (p2, rf1, true)
    else (p2, (if c2 then true else rf1), false)

/-- The inner loop over `portid_list` for one reported entry.  Returns the
list, `rdma_found` and whether `found` was reached by a `goto`. -/
def scan_port_ids (K : Consts) (x : transports_rsp_page_entry) :
    Bool → List port_id → List port_id × Bool × Bool
  | rdma_found, [] => ([], rdma_found, false)
  | rdma_found, p :: ps =>
    let b := xport_body K x p rdma_found
    if b.2.2 then (b.1 :: ps, b.2.1, true)
    else
      let r := scan_port_ids K x b.2.1 ps
      (b.1 :: r.1, r.2.1, r.2.2)

/-- One iteration of the outer `for` loop: `rdma_found = 0`, the inner
loop, and the "New transport" `print_err` when the inner loop ran through
with `rdma_found` clear. -/
def scan_xport (K : Consts) (al : CStr) (x : transports_rsp_page_entry)
    (ports : List port_id) : List port_id × List diag :=
  let r := scan_port_ids K x false ports
  (r.1, if !r.2.2 && !r.2.1 then
      [diag.new_transport al (trtype_str K x.trtype) (adrfam_str K x.adrfam) x.traddr]
    else [])

/-- The loop `for (i = num_entries; i > 0; i--, xport++)`. -/
def scan_xports (K : Consts) (al : CStr) (data : Nat → transports_rsp_page_entry) :
    Nat → Nat → List port_id → List diag → List port_id × List diag
  | _, 0, ports, log => (ports, log)
  | idx, i + 1, ports, log =>
    let r := scan_xport K al (data idx) ports
    scan_xports K al data (idx + 1) i r.1 (log ++ r.2)

/-- The last loop: one `print_err` per `port_id` whose `valid` is clear. -/
def missing_xports (al : CStr) : List port_id → List diag
  | [] => []
  | p :: ps =>
    (if !p.valid then [diag.transport_not_on al p.type p.family p.address] else []) ++
      missing_xports al ps

/-- `get_inb_xports`.  `ret` and `page` are what `send_get_xports` returns
and stores through its second argument. -/
def get_inb_xports (K : Consts) (t : target) (ret : Int) (page : transports_rsp_page) :
    Int × target × List diag :=
  if ret ≠ 0 then (ret, t, [diag.get_xports_failed t.alias_])
  else if page.num_entries = 0 then (ret, t, [diag.no_transports t.alias_])
  else
    let r := scan_xports K t.alias_ page.data 0 page.num_entries
      (clear_port_valid t.portid_list) []
    (ret, { t with portid_list := r.1 }, r.2 ++ missing_xports t.alias_ r.1)

/-! ## Calls that leave `config.c` -/

/-- The six delete paths, used to tag what a path sends. -/
inductive del_op where
  | host | acl | subsys | portid | ns | target
deriving DecidableEq, Repr

/-- What the delete engine does towards its collaborators: a call of a
`del_json_*` function of the configuration store, a call of one of the
in-band `send_del_*_inb` placeholders (which send nothing), or an
`exec_delete(uri)` issued by the `send_del_*_oob` function of the tagged
path. -/
inductive event where
  | del_json_host (hostnqn : CStr)
  | del_json_subsys (al nqn : CStr)
  | del_json_portid (al : CStr) (id : Int)
  | del_json_ns (al nqn : CStr) (nsid : Int)
  | del_json_target (al : CStr)
  | del_json_acl (al nqn hostnqn : CStr)
  | send_del_inb (op : del_op)
  | exec_delete (op : del_op) (uri : CStr)
deriving DecidableEq, Repr

/-- The collaborators: the `int` a call returns, given everything that
was called before it. -/
abbrev Oracle := List event → event → Int

/-- A call of the configuration store. -/
def event.is_store : event → Bool
  | .del_json_host _ => true
  | .del_json_subsys _ _ => true
  | .del_json_portid _ _ => true
  | .del_json_ns _ _ _ => true
  | .del_json_target _ => true
  | .del_json_acl _ _ _ => true
  | _ => false

/-- A remote transport call dispatched on path `op`, through either
backend. -/
def event.is_dispatch (op : del_op) : event → Bool
  | .send_del_inb o => decide (o = op)
  | .exec_delete o _ => decide (o = op)
  | _ => false

/-- A remote transport call, through either backend. -/
def event.is_remote : event → Bool
  | .send_del_inb _ => true
  | .exec_delete _ _ => true
  | _ => false

/-- The conversion `%d` of `sprintf`. -/
def fmt_d (i : Int) : CStr := ascii (toString i)

/-! ### The URI buffers -/

/-- The size of the `char uri[128]` every `send_*_oob` composes its URI
in. -/
def URI_BUF_SIZE : Nat := 128

/-- Whether `sprintf` of the string `s` and its terminating NUL stays
inside a `uri` buffer. -/
def fits_uri_buf (s : CStr) : Bool := decide (s.length + 1 ≤ URI_BUF_SIZE)

/-- What `sprintf` leaves in a `char uri[128]` after the text `s` has been
written from its start on: `s`, when `s` and its NUL fit; when they do
not, `sprintf` writes past the end of the buffer, which is undefined
behaviour, and there is no result (`none`). -/
def sprintf_uri (s : CStr) : Option CStr := if fits_uri_buf s then some s else none

/-- The text the format `"http://%s:%d/"` yields for the out-of-band
interface of a target. -/
def uri_root (t : target) : CStr :=
  ascii "http://" ++ t.oob_iface.address ++ ascii ":" ++ fmt_d t.oob_iface.port ++ ascii "/"

/-- `get_uri`: `sprintf(uri, "http://%s:%d/", addr, port)` into the caller's
`uri[128]`.  The result is what the buffer holds (the source returns its
length, which is never negative, so the callers' `if (len < 0)` is not
taken), or `none` when the write overruns the buffer. -/
def get_uri (t : target) : Option CStr := sprintf_uri (uri_root t)

/-- The body of every `send_del_*_oob` up to `exec_delete`: `get_uri`,
`p += len`, and `sprintf(p, ...)` of the text `rest` behind what `get_uri`
wrote.  The result is the URI in the buffer, or `none` when one of the
two writes overruns it. -/
def compose_uri (t : target) (rest : CStr) : Option CStr :=
  match get_uri t with
  | none => none
  | some root => sprintf_uri (root ++ rest)

/-- The mode dispatch every delete path repeats, `rest` being the text the
out-of-band function formats behind `get_uri`: the in-band placeholder
returns `0`; the out-of-band function composes the URI and returns what
`exec_delete(uri)` returns; for any other mode nothing is called and `ret`
keeps its value.  Returns `ret` and the trace, or `none` when composing
the URI overruns `uri[128]`. -/
def send_del (O : Oracle) (t : target) (op : del_op) (rest : CStr) (ret : Int)
    (tr : List event) : Option (Int × List event) :=
  match t.mgmt_mode with
  | .IN_BAND_MGMT => some (0, tr ++ [event.send_del_inb op])
  | .OUT_OF_BAND_MGMT =>
    match compose_uri t rest with
    | none => none
    | some uri => some (O tr (event.exec_delete op uri), tr ++ [event.exec_delete op uri])
  | .other_mgmt _ => some (ret, tr)

/-- The text `send_del_host_oob` formats behind `get_uri`: `URI_HOST
"/%s"`. -/
def path_del_host (K : Consts) (hostnqn : CStr) : CStr :=
  K.URI_HOST ++ ascii "/" ++ hostnqn

/-- The text `send_del_acl_oob` formats behind `get_uri`: `URI_SUBSYSTEM
"/%s/" URI_HOST "/%s"`. -/
def path_del_acl (K : Consts) (s : subsystem) (h : host) : CStr :=
  K.URI_SUBSYSTEM ++ ascii "/" ++ s.nqn ++ ascii "/" ++ K.URI_HOST ++ ascii "/" ++ h.nqn

/-- The text `send_del_subsys_oob` formats behind `get_uri`:
`URI_SUBSYSTEM "/%s"`. -/
def path_del_subsys (K : Consts) (s : subsystem) : CStr :=
  K.URI_SUBSYSTEM ++ ascii "/" ++ s.nqn

/-- The text `send_del_portid_oob` formats behind `get_uri`: `URI_PORTID
"/%d"`. -/
def path_del_portid (K : Consts) (p : port_id) : CStr :=
  K.URI_PORTID ++ ascii "/" ++ fmt_d p.portid

/-- The text `send_del_ns_oob` formats behind `get_uri`: `URI_SUBSYSTEM
"/%s/" URI_NAMESPACE "/%d"`. -/
def path_del_ns (K : Consts) (s : subsystem) (n : ns) : CStr :=
  K.URI_SUBSYSTEM ++ ascii "/" ++ s.nqn ++ ascii "/" ++ K.URI_NAMESPACE ++ ascii "/" ++
    fmt_d n.nsid

/-- The text `send_del_target_oob` formats behind `get_uri`: `URI_TARGET
"/%s"`. -/
def path_del_target (K : Consts) (t : target) : CStr :=
  K.URI_TARGET ++ ascii "/" ++ t.alias_

/-- The string `send_del_host_oob` composes. -/
def uri_del_host (K : Consts) (t : target) (hostnqn : CStr) : CStr :=
  uri_root t ++ path_del_host K hostnqn

/-- The string `send_del_acl_oob` composes. -/
def uri_del_acl (K : Consts) (t : target) (s : subsystem) (h : host) : CStr :=
  uri_root t ++ path_del_acl K s h

/-- The string `send_del_subsys_oob` composes. -/
def uri_del_subsys (K : Consts) (t : target) (s : subsystem) : CStr :=
  uri_root t ++ path_del_subsys K s

/-- The string `send_del_portid_oob` composes. -/
def uri_del_portid (K : Consts) (t : target) (p : port_id) : CStr :=
  uri_root t ++ path_del_portid K p

/-- The string `send_del_ns_oob` composes. -/
def uri_del_ns (K : Consts) (t : target) (s : subsystem) (n : ns) : CStr :=
  uri_root t ++ path_del_ns K s n

/-- The string `send_del_target_oob` composes. -/
def uri_del_target (K : Consts) (t : target) : CStr :=
  uri_root t ++ path_del_target K t

/-! ## Delete cascade (`config.c` 637-679, 714-743, 801-829, 869-903, 936-958, 992-1020)

Every operation returns its result, `target_list` and the trace, or `none`
when an out-of-band send on its way overruns `uri[128]`: the send comes
before `list_del`, and the model says nothing about a run past that
point. -/

/-- The search idiom of the delete paths, `list_for_each_entry(x, list,
node) if (<x matches>) goto next; goto out;`, together with what happens
at `next`: `f x` yields what replaces `x` in the list (nothing after a
`list_del`) and a result; when no member matches the list is unchanged and
the result is `miss`. -/
def first_match {α β : Type} (p : α → Bool) (f : α → List α × β) (miss : β) :
    List α → List α × β
  | [] => ([], miss)
  | x :: xs =>
    if p x then ((f x).1 ++ xs, (f x).2)
    else (x :: (first_match p f miss xs).1, (first_match p f miss xs).2)

/-- `_del_acl`: the mode dispatch (result dropped), then `list_del` of the
host record, which the caller's `first_match` performs.  Returns the
trace. -/
def _del_acl (K : Consts) (O : Oracle) (t : target) (s : subsystem) (h : host)
    (tr : List event) : Option (List event) :=
  (send_del O t del_op.acl (path_del_acl K s h) 0 tr).map Prod.snd

/-- `_del_host`: the mode dispatch, result dropped. -/
def _del_host (K : Consts) (O : Oracle) (t : target) (hostnqn : CStr)
    (tr : List event) : Option (List event) :=
  (send_del O t del_op.host (path_del_host K hostnqn) 0 tr).map Prod.snd

/-- The host loop of `del_host` for one subsystem: the first record whose
NQN is `hostnqn` goes through `_del_acl` and the loop `break`s. -/
def del_acl_in_subsys (K : Consts) (O : Oracle) (t : target) (hostnqn : CStr)
    (s : subsystem) (tr : List event) : Option (subsystem × List event) :=
  let r := first_match (fun h : host => decide (h.nqn = hostnqn))
    (fun h => ([], _del_acl K O t s h tr)) (some tr) s.host_list
  r.2.map (fun tr1 => ({ s with host_list := r.1 }, tr1))

/-- The loop of `del_host` over the subsystems of one target. -/
def del_host_subsystems (K : Consts) (O : Oracle) (t : target) (hostnqn : CStr) :
    List subsystem → List event → Option (List subsystem × List event)
  | [], tr => some ([], tr)
  | s :: ss, tr =>
    match del_acl_in_subsys K O t hostnqn s tr with
    | none => none
    | some r =>
      match del_host_subsystems K O t hostnqn ss r.2 with
      | none => none
      | some r2 => some (r.1 :: r2.1, r2.2)

/-- The loop of `del_host` over `target_list`: the subsystem loop, then
`_del_host`, for every target. -/
def del_host_targets (K : Consts) (O : Oracle) (hostnqn : CStr) :
    List target → List event → Option (List target × List event)
  | [], tr => some ([], tr)
  | t :: ts, tr =>
    match del_host_subsystems K O t hostnqn t.subsys_list tr with
    | none => none
    | some r =>
      match _del_host K O t hostnqn r.2 with
      | none => none
      | some tr2 =>
        match del_host_targets K O hostnqn ts tr2 with
        | none => none
        | some r3 => some ({ t with subsys_list := r.1 } :: r3.1, r3.2)

/-- `del_host`.  Returns the result, `target_list` and the trace. -/
def del_host (K : Consts) (O : Oracle) (target_list : List target) (hostnqn : CStr)
    (tr : List event) : Option (Int × List target × List event) :=
  let e := event.del_json_host hostnqn
  let ret := O tr e
  if ret ≠ 0 then some (ret, target_list, tr ++ [e])
  else (del_host_targets K O hostnqn target_list (tr ++ [e])).map (fun r => (0, r.1, r.2))

/-- `del_subsys`. -/
def del_subsys (K : Consts) (O : Oracle) (target_list : List target) (al nqn : CStr)
    (tr : List event) : Option (Int × List target × List event) :=
  let e := event.del_json_subsys al nqn
  let ret := O tr e
  let tr1 := tr ++ [e]
  if ret ≠ 0 then some (ret, target_list, tr1)
  else
    let r := first_match (fun t : target => decide (t.alias_ = al))
      (fun t =>
        let r2 := first_match (fun s : subsystem => decide (s.nqn = nqn))
          (fun s => ([], send_del O t del_op.subsys (path_del_subsys K s) ret tr1))
          (some (ret, tr1)) t.subsys_list
        ([{ t with subsys_list := r2.1 }], r2.2))
      (some (ret, tr1)) target_list
    r.2.map (fun x => (x.1, r.1, x.2))

/-- `del_portid`. -/
def del_portid (K : Consts) (O : Oracle) (target_list : List target) (al : CStr) (id : Int)
    (tr : List event) : Option (Int × List target × List event) :=
  let e := event.del_json_portid al id
  let ret := O tr e
  let tr1 := tr ++ [e]
  if ret ≠ 0 then some (ret, target_list, tr1)
  else
    let r := first_match (fun t : target => decide (t.alias_ = al))
      (fun t =>
        let r2 := first_match (fun p : port_id => decide (p.portid = id))
          (fun p => ([], send_del O t del_op.portid (path_del_portid K p) ret tr1))
          (some (ret, tr1)) t.portid_list
        ([{ t with portid_list := r2.1 }], r2.2))
      (some (ret, tr1)) target_list
    r.2.map (fun x => (x.1, r.1, x.2))

/-- `del_ns`. -/
def del_ns (K : Consts) (O : Oracle) (target_list : List target) (al nqn : CStr) (nsid : Int)
    (tr : List event) : Option (Int × List target × List event) :=
  let e := event.del_json_ns al nqn nsid
  let ret := O tr e
  let tr1 := tr ++ [e]
  if ret ≠ 0 then some (ret, target_list, tr1)
  else
    let r := first_match (fun t : target => decide (t.alias_ = al))
      (fun t =>
        let r2 := first_match (fun s : subsystem => decide (s.nqn = nqn))
          (fun s =>
            let r3 := first_match (fun n : ns => decide (n.nsid = nsid))
              (fun n => ([], send_del O t del_op.ns (path_del_ns K s n) ret tr1))
              (some (ret, tr1)) s.ns_list
            ([{ s with ns_list := r3.1 }], r3.2))
          (some (ret, tr1)) t.subsys_list
        ([{ t with subsys_list := r2.1 }], r2.2))
      (some (ret, tr1)) target_list
    r.2.map (fun x => (x.1, r.1, x.2))

/-- `del_target`. -/
def del_target (K : Consts) (O : Oracle) (target_list : List target) (al : CStr)
    (tr : List event) : Option (Int × List target × List event) :=
  let e := event.del_json_target al
  let ret := O tr e
  let tr1 := tr ++ [e]
  if ret ≠ 0 then some (ret, target_list, tr1)
  else
    let r := first_match (fun t : target => decide (t.alias_ = al))
      (fun t => ([], send_del O t del_op.target (path_del_target K t) ret tr1))
      (some (ret, tr1)) target_list
    r.2.map (fun x => (x.1, r.1, x.2))

/-- `del_acl`: the result of `_del_acl` is dropped, so `ret` stays what
the store returned. -/
def del_acl (K : Consts) (O : Oracle) (target_list : List target) (al nqn hostnqn : CStr)
    (tr : List event) : Option (Int × List target × List event) :=
  let e := event.del_json_acl al nqn hostnqn
  let ret := O tr e
  let tr1 := tr ++ [e]
  if ret ≠ 0 then some (ret, target_list, tr1)
  else
    let r := first_match (fun t : target => decide (t.alias_ = al))
      (fun t =>
        let r2 := first_match (fun s : subsystem => decide (s.nqn = nqn))
          (fun s =>
            let r3 := first_match (fun h : host => decide (h.nqn = hostnqn))
              (fun h => ([], _del_acl K O t s h tr1)) (some tr1) s.host_list
            ([{ s with host_list := r3.1 }], r3.2))
          (some tr1) t.subsys_list
        ([{ t with subsys_list := r2.1 }], r2.2))
      (some tr1) target_list
    r.2.map (fun tr2 => (ret, r.1, tr2))

/-! ## Inputs used for evaluation -/

/-- A `port_id` whose `valid` flag is clear. -/
def stale_port : port_id :=
  { portid := 1, type := ascii "tcp", family := ascii "ipv4", address := ascii "10.0.0.1",
    port := ascii "4420", port_num := 4420, valid := false }

/-- An in-band target whose only `port_id` has `valid` clear. -/
def stale_port_target : target :=
  { alias_ := ascii "t1", mgmt_mode := mgmt_mode_t.IN_BAND_MGMT,
    oob_iface := { address := [], port := 0 },
    portid_list := [stale_port], subsys_list := [], device_list := [] }

/-- An in-band target without ports, subsystems or devices. -/
def bare_target : target :=
  { alias_ := ascii "t1", mgmt_mode := mgmt_mode_t.IN_BAND_MGMT,
    oob_iface := { address := [], port := 0 },
    portid_list := [], subsys_list := [], device_list := [] }

/-- The length the spec asks for: header size plus, per subsystem, the
fixed entry size and one NQN field per host. -/
def subsys_table_len (L : Layout) (hdr : Nat) (ss : List subsystem) : Nat :=
  hdr + (ss.map (fun s => (L.se_size - 1) + s.host_list.length * L.NVMF_NQN_FIELD_LEN)).sum

/-! ### Inputs for the reconciliation passes -/

/-- A configured TCP/IPv4 `port_id` at `10.0.0.1`. -/
def tcp_port : port_id :=
  { portid := 1, type := ascii "tcp", family := ascii "ipv4", address := ascii "10.0.0.1",
    port := ascii "4420", port_num := 4420, valid := false }

/-- An in-band target whose only `port_id` is `tcp_port`. -/
def tcp_target : target :=
  { alias_ := ascii "t1", mgmt_mode := mgmt_mode_t.IN_BAND_MGMT,
    oob_iface := { address := [], port := 0 },
    portid_list := [tcp_port], subsys_list := [], device_list := [] }

/-- A transport report of two entries at `10.0.0.1`/IPv4: RDMA, then TCP;
the memory behind them reads as zeroes. -/
def rdma_tcp_page : transports_rsp_page :=
  { num_entries := 2,
    data := fun i =>
      if i = 0 then { trtype := 1, adrfam := 1, traddr := ascii "10.0.0.1" }
      else if i = 1 then { trtype := 3, adrfam := 1, traddr := ascii "10.0.0.1" }
      else { trtype := 0, adrfam := 0, traddr := [] } }

/-- An in-band target whose only configured device is `nullb0`
(device id 255, namespace id 0). -/
def nullb0_target : target :=
  { alias_ := ascii "t1", mgmt_mode := mgmt_mode_t.IN_BAND_MGMT,
    oob_iface := { address := [], port := 0 },
    portid_list := [], subsys_list := [],
    device_list := [{ nsdev := 255, nsid := 0, valid := false }] }

/-- A device report without entries; the memory behind the header reads as
a `nullb0` entry. -/
def empty_nsdev_page : ns_devices_rsp_page :=
  { num_entries := 0, data := fun _ => { dev_id := 255, ns_id := 0 } }

/-! ### Lookups and inputs for the delete cascade -/

/-- Lookup of a target by alias: the first list member with that alias. -/
def lookup_target (target_list : List target) (al : CStr) : Option target :=
  target_list.find? (fun t => decide (t.alias_ = al))

/-- Lookup of a subsystem of a target by NQN. -/
def lookup_subsys (t : target) (nqn : CStr) : Option subsystem :=
  t.subsys_list.find? (fun s => decide (s.nqn = nqn))

/-- Lookup of a `port_id` of a target by id. -/
def lookup_portid (t : target) (id : Int) : Option port_id :=
  t.portid_list.find? (fun p => decide (p.portid = id))

/-- Lookup of a namespace of a subsystem by id. -/
def lookup_ns (s : subsystem) (nsid : Int) : Option ns :=
  s.ns_list.find? (fun n => decide (n.nsid = nsid))

/-- Lookup of a host record of a subsystem by NQN. -/
def lookup_host (s : subsystem) (hostnqn : CStr) : Option host :=
  s.host_list.find? (fun h => decide (h.nqn = hostnqn))

/-- The list with its first member satisfying `p` replaced by `g` of it. -/
def update_first {α : Type} (p : α → Bool) (g : α → α) : List α → List α
  | [] => []
  | x :: xs => if p x then g x :: xs else x :: update_first p g xs

/-- A store that rejects every deletion with `-22`; remote calls succeed. -/
def rejecting_store : Oracle := fun _ e => if e.is_store then -22 else 0

/-- A store that accepts every deletion; every remote call fails with
`-5`. -/
def failing_remote : Oracle := fun _ e => if e.is_store then 0 else -5

/-- An out-of-band target `t1` with port 1 and the subsystem `nqn1`, which
has namespace 1 and the hosts `h1`, `h2`. -/
def oob_target : target :=
  { alias_ := ascii "t1", mgmt_mode := mgmt_mode_t.OUT_OF_BAND_MGMT,
    oob_iface := { address := ascii "10.0.0.9", port := 22345 },
    portid_list := [tcp_port],
    subsys_list := [{ nqn := ascii "nqn1", access := 0,
                      host_list := [{ nqn := ascii "h1" }, { nqn := ascii "h2" }],
                      ns_list := [{ nsid := 1, devid := 0, devns := 1 }] }],
    device_list := [] }

/-- The uniqueness invariants of the data model (spec 3, a-c): per target
the subsystem NQNs and the port ids are pairwise distinct, per subsystem
the namespace ids. -/
def uniqueness_invariants (tl : List target) : Prop :=
  ∀ t ∈ tl, (t.subsys_list.map subsystem.nqn).Nodup ∧
    (t.portid_list.map port_id.portid).Nodup ∧
    ∀ s ∈ t.subsys_list, (s.ns_list.map ns.nsid).Nodup

instance (tl : List target) : Decidable (uniqueness_invariants tl) := by
  unfold uniqueness_invariants; infer_instance

/-- Whether a subsystem has a host record with the NQN `hostnqn`. -/
def has_host (hostnqn : CStr) (s : subsystem) : Bool :=
  s.host_list.any (fun x => decide (x.nqn = hostnqn))

/-- Whether the URI text a delete dispatch composes for the target fits
`uri[128]`; only the out-of-band functions compose one. -/
def oob_fits (t : target) (uri : CStr) : Bool :=
  match t.mgmt_mode with
  | .OUT_OF_BAND_MGMT => fits_uri_buf uri
  | _ => true

/-- What the mode dispatch of a delete path returns and appends to the
trace once the URI `uri` is in the buffer. -/
def dispatch_del (O : Oracle) (t : target) (op : del_op) (uri : CStr) (ret : Int)
    (tr : List event) : Int × List event :=
  match t.mgmt_mode with
  | .IN_BAND_MGMT => (0, tr ++ [event.send_del_inb op])
  | .OUT_OF_BAND_MGMT => (O tr (event.exec_delete op uri), tr ++ [event.exec_delete op uri])
  | .other_mgmt _ => (ret, tr)

/-- Whether the URI `del_target` composes, if it finds the target, fits
`uri[128]`. -/
def del_target_fits (K : Consts) (tl : List target) (al : CStr) : Bool :=
  match lookup_target tl al with
  | none => true
  | some t => oob_fits t (uri_del_target K t)

/-- Whether the URI `del_subsys` composes, if it finds the subsystem, fits
`uri[128]`. -/
def del_subsys_fits (K : Consts) (tl : List target) (al nqn : CStr) : Bool :=
  match lookup_target tl al with
  | none => true
  | some t =>
    match lookup_subsys t nqn with
    | none => true
    | some s => oob_fits t (uri_del_subsys K t s)

/-- Whether the URI `del_portid` composes, if it finds the `port_id`, fits
`uri[128]`. -/
def del_portid_fits (K : Consts) (tl : List target) (al : CStr) (id : Int) : Bool :=
  match lookup_target tl al with
  | none => true
  | some t =>
    match lookup_portid t id with
    | none => true
    | some p => oob_fits t (uri_del_portid K t p)

/-- Whether the URI `del_ns` composes, if it finds the namespace, fits
`uri[128]`. -/
def del_ns_fits (K : Consts) (tl : List target) (al nqn : CStr) (nsid : Int) : Bool :=
  match lookup_target tl al with
  | none => true
  | some t =>
    match lookup_subsys t nqn with
    | none => true
    | some s =>
      match lookup_ns s nsid with
      | none => true
      | some n => oob_fits t (uri_del_ns K t s n)

/-- Whether the URI `_del_acl` composes for the subsystem `s` of `t`, if
`s` has a record for `hostnqn`, fits `uri[128]`. -/
def acl_fits (K : Consts) (t : target) (hostnqn : CStr) (s : subsystem) : Bool :=
  match lookup_host s hostnqn with
  | none => true
  | some h => oob_fits t (uri_del_acl K t s h)

/-- Whether the URI `del_acl` composes, if it finds the host record, fits
`uri[128]`. -/
def del_acl_fits (K : Consts) (tl : List target) (al nqn hostnqn : CStr) : Bool :=
  match lookup_target tl al with
  | none => true
  | some t =>
    match lookup_subsys t nqn with
    | none => true
    | some s => acl_fits K t hostnqn s

/-- Whether every URI `del_host` composes fits `uri[128]`: per target the
one of `_del_host` and, per subsystem with a record for `hostnqn`, the one
of `_del_acl`. -/
def del_host_fits (K : Consts) (hostnqn : CStr) (tl : List target) : Bool :=
  tl.all (fun t => oob_fits t (uri_del_host K t hostnqn) &&
    t.subsys_list.all (acl_fits K t hostnqn))

/-- What `_del_acl` appends to the trace for one subsystem of `t`, if the
subsystem has a record for `hostnqn`. -/
def acl_events (K : Consts) (t : target) (hostnqn : CStr) (s : subsystem) : List event :=
  match lookup_host s hostnqn with
  | none => []
  | some h =>
    match t.mgmt_mode with
    | .IN_BAND_MGMT => [event.send_del_inb del_op.acl]
    | .OUT_OF_BAND_MGMT => [event.exec_delete del_op.acl (uri_del_acl K t s h)]
    | .other_mgmt _ => []

/-- What `_del_host` appends to the trace for the target `t`. -/
def host_events (K : Consts) (t : target) (hostnqn : CStr) : List event :=
  match t.mgmt_mode with
  | .IN_BAND_MGMT => [event.send_del_inb del_op.host]
  | .OUT_OF_BAND_MGMT => [event.exec_delete del_op.host (uri_del_host K t hostnqn)]
  | .other_mgmt _ => []

/-- The events of the subsystem loop of `del_host` for one target. -/
def subsys_acl_events (K : Consts) (t : target) (hostnqn : CStr) : List subsystem → List event
  | [] => []
  | s :: ss => acl_events K t hostnqn s ++ subsys_acl_events K t hostnqn ss

/-- The events of the target loop of `del_host`. -/
def del_host_events (K : Consts) (hostnqn : CStr) : List target → List event
  | [] => []
  | t :: ts => subsys_acl_events K t hostnqn t.subsys_list ++ host_events K t hostnqn ++
      del_host_events K hostnqn ts

/-- A store that accepts every deletion; every remote call succeeds. -/
def accepting_all : Oracle := fun _ _ => 0

/-- An in-band target whose subsystem `nqn1` lists the host `h1` twice. -/
def dup_host_target : target :=
  { alias_ := ascii "t1", mgmt_mode := mgmt_mode_t.IN_BAND_MGMT,
    oob_iface := { address := [], port := 0 },
    portid_list := [],
    subsys_list := [{ nqn := ascii "nqn1", access := 0,
                      host_list := [{ nqn := ascii "h1" }, { nqn := ascii "h1" }],
                      ns_list := [] }],
    device_list := [] }

/-- An out-of-band target with the host `h1` in two subsystems. -/
def two_subsys_target : target :=
  { alias_ := ascii "t1", mgmt_mode := mgmt_mode_t.OUT_OF_BAND_MGMT,
    oob_iface := { address := ascii "10.0.0.9", port := 22345 },
    portid_list := [],
    subsys_list := [{ nqn := ascii "nqn1", access := 0,
                      host_list := [{ nqn := ascii "h1" }, { nqn := ascii "h2" }],
                      ns_list := [] },
                    { nqn := ascii "nqn2", access := 0,
                      host_list := [{ nqn := ascii "h2" }, { nqn := ascii "h1" }],
                      ns_list := [] }],
    device_list := [] }

/-- What the read-back theorem asks of a subsystem: its NQN and the NQNs
of its hosts are C strings shorter than `NVMF_NQN_FIELD_LEN`, and its
access flag and its number of hosts are values the flag and count members
of the entry can hold. -/
def subsys_fits (L : Layout) (s : subsystem) : Prop :=
  cstr_ok s.nqn ∧ s.nqn.length < L.NVMF_NQN_FIELD_LEN ∧
  s.access < L.num_mod ∧ s.host_list.length < L.num_mod ∧
  ∀ h ∈ s.host_list, cstr_ok h.nqn ∧ h.nqn.length < L.NVMF_NQN_FIELD_LEN

instance (L : Layout) (s : subsystem) : Decidable (subsys_fits L s) := by
  unfold subsys_fits; infer_instance

/-- A subsystem with 256 hosts of pairwise distinct three-byte NQNs. -/
def crowded_subsys : subsystem :=
  { nqn := ascii "nqn1", access := 1,
    host_list := (List.range 256).map (fun i => { nqn := [104, 48 + i / 16, 97 + i % 16] }),
    ns_list := [] }

/-- An in-band target whose only subsystem is `crowded_subsys`. -/
def crowded_target : target :=
  { alias_ := ascii "t1", mgmt_mode := mgmt_mode_t.IN_BAND_MGMT,
    oob_iface := { address := [], port := 0 },
    portid_list := [], subsys_list := [crowded_subsys], device_list := [] }

/-- An in-band target with the subsystems `nqn1` (hosts `h1`, `h2`) and
`nqn2` (no host). -/
def two_subsys_inb_target : target :=
  { alias_ := ascii "t1", mgmt_mode := mgmt_mode_t.IN_BAND_MGMT,
    oob_iface := { address := [], port := 0 },
    portid_list := [],
    subsys_list := [{ nqn := ascii "nqn1", access := 1,
                      host_list := [{ nqn := ascii "h1" }, { nqn := ascii "h2" }],
                      ns_list := [] },
                    { nqn := ascii "nqn2", access := 0, host_list := [], ns_list := [] }],
    device_list := [] }

/-- A fresh buffer whose cells all hold `0xaa`. -/
def junk_mem : Mem := fun _ => 170

/-! ### Inputs for the scan order and label questions -/

/-- A second configured TCP/IPv4 `port_id` at `10.0.0.1`, service id 4421. -/
def tcp_port2 : port_id :=
  { portid := 2, type := ascii "tcp", family := ascii "ipv4", address := ascii "10.0.0.1",
    port := ascii "4421", port_num := 4421, valid := false }

/-- A reported TCP/IPv4 transport at `10.0.0.1`. -/
def tcp_ipv4_entry : transports_rsp_page_entry :=
  { trtype := 3, adrfam := 1, traddr := ascii "10.0.0.1" }

/-- A configured RDMA/IPv6 `port_id` at `fe80::1` with the given id. -/
def rdma6_port (id : Int) : port_id :=
  { portid := id, type := ascii "rdma", family := ascii "ipv6", address := ascii "fe80::1",
    port := ascii "4420", port_num := 4420, valid := false }

/-- A reported RDMA/IPv6 transport at `fe80::1`. -/
def rdma_ipv6_entry : transports_rsp_page_entry :=
  { trtype := 1, adrfam := 2, traddr := ascii "fe80::1" }

/-- A device report of the one entry (1, 1); `past` is what the buffer
holds behind that entry, read as an entry. -/
def one_nsdev_page (past : ns_devices_rsp_page_entry) : ns_devices_rsp_page :=
  { num_entries := 1, data := fun i => if i = 0 then { dev_id := 1, ns_id := 1 } else past }

/-- An in-band target whose only configured device is (3, 1). -/
def dev3_target : target :=
  { alias_ := ascii "t1", mgmt_mode := mgmt_mode_t.IN_BAND_MGMT,
    oob_iface := { address := [], port := 0 },
    portid_list := [], subsys_list := [],
    device_list := [{ nsdev := 3, nsid := 1, valid := false }] }


/-! ### Vocabulary of the reconciliation theorems -/

/-- Whether the configured device `d` has the device id and namespace id
of the reported entry `e`. -/
def nsdev_hit (e : ns_devices_rsp_page_entry) (d : nsdev) : Bool :=
  decide (d.nsdev = e.dev_id ∧ d.nsid = e.ns_id)

/-- Whether some of the `num_entries` reported entries has the ids of the
configured device `d`. -/
def nsdev_reported (page : ns_devices_rsp_page) (d : nsdev) : Bool :=
  (List.range page.num_entries).any (fun i => nsdev_hit (page.data i) d)

/-- The reported entries (by index) that match no configured device. -/
def unknown_nsdevs (page : ns_devices_rsp_page) (devs : List nsdev) : List Nat :=
  (List.range page.num_entries).filter (fun i => devs.all (fun d => !nsdev_hit (page.data i) d))

/-- A device report of the entries (255, 0), (7, 1), (3, 1); zeroes follow. -/
def three_nsdev_page : ns_devices_rsp_page :=
  { num_entries := 3,
    data := fun i =>
      if i = 0 then { dev_id := 255, ns_id := 0 }
      else if i = 1 then { dev_id := 7, ns_id := 1 }
      else if i = 2 then { dev_id := 3, ns_id := 1 }
      else { dev_id := 0, ns_id := 0 } }

/-- An in-band target with the configured devices (3, 1) and (4, 1). -/
def two_dev_target : target :=
  { alias_ := ascii "t1", mgmt_mode := mgmt_mode_t.IN_BAND_MGMT,
    oob_iface := { address := [], port := 0 },
    portid_list := [], subsys_list := [],
    device_list := [{ nsdev := 3, nsid := 1, valid := true },
                    { nsdev := 4, nsid := 1, valid := true }] }


/-- Whether the configured `port_id` matches the reported entry under the
first rule (same address, family and type) or the second (same address
and family, reported type RDMA, configured type TCP). -/
def xport_match (K : Consts) (x : transports_rsp_page_entry) (p : port_id) : Bool :=
  xport_rule1 K x p || xport_rule2 K x p

/-- The reported transports (by index) that no configured `port_id`
matches under either rule. -/
def unknown_xports (K : Consts) (page : transports_rsp_page) (ports : List port_id) :
    List Nat :=
  (List.range page.num_entries).filter
    (fun i => ports.all (fun p => !xport_match K (page.data i) p))

/-- By position, whether the scan of the reported entry `x` sets the
`valid` flag of the configured `port_id`: the flags after the inner loop
has run on the list with all flags clear. -/
def confirmed_by (K : Consts) (x : transports_rsp_page_entry) (ports : List port_id) :
    List Bool :=
  (scan_port_ids K x false (clear_port_valid ports)).1.map port_id.valid

/-- An in-band target with the TCP ports 1 and 2 at `10.0.0.1` and the
RDMA/IPv6 port 3 at `fe80::1`. -/
def three_port_target : target :=
  { alias_ := ascii "t1", mgmt_mode := mgmt_mode_t.IN_BAND_MGMT,
    oob_iface := { address := [], port := 0 },
    portid_list := [tcp_port, tcp_port2, rdma6_port 3], subsys_list := [],
    device_list := [] }

/-- A transport report of two entries: TCP/IPv4 at `10.0.0.1` and FC/FC at
`nn-1`; zeroes follow. -/
def tcp_fc_page : transports_rsp_page :=
  { num_entries := 2,
    data := fun i =>
      if i = 0 then tcp_ipv4_entry
      else if i = 1 then { trtype := 2, adrfam := 4, traddr := ascii "nn-1" }
      else { trtype := 0, adrfam := 0, traddr := [] } }


/-! ### Inputs with long NQNs -/

/-- A subsystem whose NQN has 200 bytes. -/
def long_nqn_subsys : subsystem :=
  { nqn := ascii "nqn.2018-01.io.dem:" ++ List.replicate 181 97, access := 0,
    host_list := [{ nqn := ascii "nqn.2018-01.io.dem:" ++ List.replicate 181 98 }],
    ns_list := [{ nsid := 1, devid := 0, devns := 1 }] }

/-- The host record of `long_nqn_subsys`, with an NQN of 200 bytes. -/
def long_nqn_host : host :=
  { nqn := ascii "nqn.2018-01.io.dem:" ++ List.replicate 181 98 }

/-- An out-of-band target at `10.0.0.9:22345` with `long_nqn_subsys`. -/
def long_nqn_target : target :=
  { alias_ := ascii "t1", mgmt_mode := mgmt_mode_t.OUT_OF_BAND_MGMT,
    oob_iface := { address := ascii "10.0.0.9", port := 22345 },
    portid_list := [], subsys_list := [long_nqn_subsys], device_list := [] }


/-! ## In-band configuration push (`config_target_inb`, `config.c` 504-540) -/

/-- What `config_target_inb` does towards the in-band queue and the log:
the two sends, recorded with the length passed, and the four `print_err`s,
by format string. -/
inductive inb_event where
  /-- Format `build set port INB failed for %s`. -/
  | build_port_failed (al : CStr)
  /-- Call `send_set_port_config(&target->dq, len, port_hdr)`. -/
  | send_set_port_config (len : Nat)
  /-- Format `send set port INB failed for %s`. -/
  | send_port_failed (al : CStr)
  /-- Format `build set subsys INB failed for %s`. -/
  | build_subsys_failed (al : CStr)
  /-- Call `send_set_subsys_config(&target->dq, len, subsys_hdr)`. -/
  | send_set_subsys_config (len : Nat)
  /-- Format `send set subsys INB failed for %s`. -/
  | send_subsys_failed (al : CStr)
deriving DecidableEq, Repr

/-- A send of the port table. -/
def inb_event.is_port_send : inb_event → Bool
  | .send_set_port_config _ => true
  | _ => false

/-- A send of the subsystem table. -/
def inb_event.is_subsys_send : inb_event → Bool
  | .send_set_subsys_config _ => true
  | _ => false

/-- `config_target_inb`.  `port_alloc_ok` and `subsys_alloc` are the
outcomes of the two `posix_memalign` calls, `send_port` and `send_subsys`
what the two sends return for a length and buffer.  `ret` starts as `0`;
a failed build is logged and leaves `ret` alone; a failed port send leaves
through `out` before the subsystem table is built.  Returns `ret` and the
events; the `free` calls are not recorded. -/
def config_target_inb (K : Consts) (L : Layout) (port_alloc_ok : Bool)
    (subsys_alloc : Option Mem) (send_port : Nat → Option port_config_page → Int)
    (send_subsys : Nat → Option Mem → Int) (t : target) : Int × List inb_event :=
  let rp := build_set_port_inb K L port_alloc_ok t
  let ret1 : Int := if rp.1 = 0 then 0 else send_port rp.1 rp.2
  let ev1 : List inb_event :=
    if rp.1 = 0 then [inb_event.build_port_failed t.alias_]
    else if ret1 ≠ 0 then
      [inb_event.send_set_port_config rp.1, inb_event.send_port_failed t.alias_]
    else [inb_event.send_set_port_config rp.1]
  if rp.1 ≠ 0 ∧ ret1 ≠ 0 then (ret1, ev1)
  else
    let rs := build_set_subsys_inb L subsys_alloc t
    if rs.len = 0 then (ret1, ev1 ++ [inb_event.build_subsys_failed t.alias_])
    else
      let ret2 := send_subsys rs.len rs.page
      (ret2, ev1 ++ [inb_event.send_set_subsys_config rs.len] ++
        (if ret2 ≠ 0 then [inb_event.send_subsys_failed t.alias_] else []))


/-! ## Out-of-band configuration push (`config.c` 176-242, 295-368) -/

/-- Parameters: the text each `build_set_*_oob` formats into `buf[256]`;
the format macros `JSSTR`, `JSINDX` and the `TAG_*` strings are defined
outside `config.c`. -/
structure Fragments where
  build_set_port_oob : port_id → CStr
  build_set_host_oob : CStr → CStr
  build_set_subsys_oob : subsystem → CStr
  build_set_ns_oob : ns → CStr
  build_set_portid_oob : Int → CStr

/-- The six places of the fan-out that call `exec_post`. -/
inductive oob_step where
  | set_port | set_subsys | set_ns | set_host | set_acl | set_portid
deriving DecidableEq, Repr

/-- One `exec_post(uri, buf, strlen(buf))`, tagged with the place of the
fan-out that issues it. -/
structure post_event where
  step : oob_step
  uri : CStr
  body : CStr
deriving DecidableEq, Repr

/-- The HTTP collaborator: the `int` a POST returns, given the POSTs
before it. -/
abbrev PostOracle := List post_event → post_event → Int

/-- The POST of `send_set_port_oob` for a `port_id`: the text the format
`"http://%s:%d/" URI_PORTID "/%d"` yields, and the body. -/
def port_post (K : Consts) (F : Fragments) (t : target) (p : port_id) : post_event :=
  { step := oob_step.set_port,
    uri := uri_root t ++ K.URI_PORTID ++ ascii "/" ++ fmt_d p.portid,
    body := F.build_set_port_oob p }

/-- The POST of `send_set_config_oob(addr, port, URI_SUBSYSTEM, buf)`: the
text the format `"http://%s:%d/%s"` yields, and the body. -/
def subsys_post (K : Consts) (F : Fragments) (t : target) (s : subsystem) : post_event :=
  { step := oob_step.set_subsys, uri := uri_root t ++ K.URI_SUBSYSTEM,
    body := F.build_set_subsys_oob s }

/-- The POST of `send_update_subsys_oob(addr, port, nqn, URI_NAMESPACE,
buf)`: the text the format `"http://%s:%d/" URI_SUBSYSTEM "/%s/%s"` yields,
and the body. -/
def ns_post (K : Consts) (F : Fragments) (t : target) (s : subsystem) (n : ns) : post_event :=
  { step := oob_step.set_ns,
    uri := uri_root t ++ K.URI_SUBSYSTEM ++ ascii "/" ++ s.nqn ++ ascii "/" ++ K.URI_NAMESPACE,
    body := F.build_set_ns_oob n }

/-- The POST of `send_set_config_oob(addr, port, URI_HOST, buf)`. -/
def host_post (K : Consts) (F : Fragments) (t : target) (h : host) : post_event :=
  { step := oob_step.set_host, uri := uri_root t ++ K.URI_HOST,
    body := F.build_set_host_oob h.nqn }

/-- The POST of `send_update_subsys_oob(addr, port, nqn, URI_HOST, buf)`,
with the buffer the host POST used. -/
def acl_post (K : Consts) (F : Fragments) (t : target) (s : subsystem) (h : host) :
    post_event :=
  { step := oob_step.set_acl,
    uri := uri_root t ++ K.URI_SUBSYSTEM ++ ascii "/" ++ s.nqn ++ ascii "/" ++ K.URI_HOST,
    body := F.build_set_host_oob h.nqn }

/-- The POST of `send_update_subsys_oob(addr, port, nqn, URI_PORTID,
buf)`. -/
def portid_post (K : Consts) (F : Fragments) (t : target) (s : subsystem) (p : port_id) :
    post_event :=
  { step := oob_step.set_portid,
    uri := uri_root t ++ K.URI_SUBSYSTEM ++ ascii "/" ++ s.nqn ++ ascii "/" ++ K.URI_PORTID,
    body := F.build_set_portid_oob p.portid }

/-- The body `send_set_port_oob`, `send_set_config_oob` and
`send_update_subsys_oob` share (`config.c` 215-242): `sprintf` of the URI
text of `e` into `char uri[128]`, then `exec_post(uri, buf, strlen(buf))`.
Returns what `exec_post` returns and the trace, or `none` when the
`sprintf` overruns the buffer. -/
def send_post (O : PostOracle) (e : post_event) (tr : List post_event) :
    Option (Int × List post_event) :=
  match sprintf_uri e.uri with
  | none => none
  | some uri => some (O tr { e with uri := uri }, tr ++ [{ e with uri := uri }])

/-- A loop that POSTs once per list member and only logs a failure (the
`print_err`s are not recorded). -/
def post_each {α : Type} (O : PostOracle) (mk : α → post_event) :
    List α → List post_event → Option (List post_event)
  | [], tr => some tr
  | x :: xs, tr =>
    match send_post O (mk x) tr with
    | none => none
    | some r => post_each O mk xs r.2

/-- The host loop of `config_subsys_oob`: the host POST, `continue` when it
fails, else the ACL POST. -/
def oob_set_hosts (K : Consts) (F : Fragments) (O : PostOracle) (t : target) (s : subsystem) :
    List host → List post_event → Option (List post_event)
  | [], tr => some tr
  | h :: hs, tr =>
    match send_post O (host_post K F t h) tr with
    | none => none
    | some r =>
      if r.1 ≠ 0 then oob_set_hosts K F O t s hs r.2
      else
        match send_post O (acl_post K F t s h) r.2 with
        | none => none
        | some r2 => oob_set_hosts K F O t s hs r2.2

/-- `config_subsys_oob`: the subsystem POST, `return` when it fails, else
the namespace loop, the host loop and the loop over the target's
`port_id`s. -/
def config_subsys_oob (K : Consts) (F : Fragments) (O : PostOracle) (t : target)
    (s : subsystem) (tr : List post_event) : Option (List post_event) :=
  match send_post O (subsys_post K F t s) tr with
  | none => none
  | some r =>
    if r.1 ≠ 0 then some r.2
    else
      match post_each O (ns_post K F t s) s.ns_list r.2 with
      | none => none
      | some tr1 =>
        match oob_set_hosts K F O t s s.host_list tr1 with
        | none => none
        | some tr2 => post_each O (portid_post K F t s) t.portid_list tr2

/-- The loop of `config_target_oob` over `subsys_list`. -/
def oob_subsystems (K : Consts) (F : Fragments) (O : PostOracle) (t : target) :
    List subsystem → List post_event → Option (List post_event)
  | [], tr => some tr
  | s :: ss, tr =>
    match config_subsys_oob K F O t s tr with
    | none => none
    | some tr1 => oob_subsystems K F O t ss tr1

/-- `config_target_oob`: the set-port loop, the subsystem loop, `return
0`. -/
def config_target_oob (K : Consts) (F : Fragments) (O : PostOracle) (t : target)
    (tr : List post_event) : Option (Int × List post_event) :=
  match post_each O (port_post K F t) t.portid_list tr with
  | none => none
  | some tr1 =>
    match oob_subsystems K F O t t.subsys_list tr1 with
    | none => none
    | some tr2 => some (0, tr2)

/-- The host part of the full fan-out: host POST and ACL POST per host. -/
def fan_out_hosts (K : Consts) (F : Fragments) (t : target) (s : subsystem) :
    List host → List post_event
  | [] => []
  | h :: hs => host_post K F t h :: acl_post K F t s h :: fan_out_hosts K F t s hs

/-- The full fan-out for one subsystem: the subsystem POST, a namespace
POST per namespace, host and ACL POST per host, a portid-reference POST
per `port_id` of the target. -/
def fan_out_subsys (K : Consts) (F : Fragments) (t : target) (s : subsystem) :
    List post_event :=
  subsys_post K F t s :: (s.ns_list.map (ns_post K F t s) ++
    fan_out_hosts K F t s s.host_list ++ t.portid_list.map (portid_post K F t s))

/-- The full fan-out over a list of subsystems. -/
def fan_out_subsystems (K : Consts) (F : Fragments) (t : target) :
    List subsystem → List post_event
  | [] => []
  | s :: ss => fan_out_subsys K F t s ++ fan_out_subsystems K F t ss

/-- The full fan-out of the claim: a set-port POST per `port_id`, then
every subsystem's steps. -/
def fan_out (K : Consts) (F : Fragments) (t : target) : List post_event :=
  t.portid_list.map (port_post K F t) ++ fan_out_subsystems K F t t.subsys_list

/-- Whether the URI of every POST of the full fan-out fits `uri[128]`. -/
def fan_out_fits (K : Consts) (F : Fragments) (t : target) : Bool :=
  (fan_out K F t).all (fun e => fits_uri_buf e.uri)

/-- The remote accepts every subsystem POST and every host POST of the
sequence `l` when the POSTs of `l` are issued in order after the trace
`tr`; what it returns for the other POSTs is left open. -/
def gates_accepted (O : PostOracle) (tr l : List post_event) : Prop :=
  ∀ pre e suf, l = pre ++ e :: suf →
    e.step = oob_step.set_subsys ∨ e.step = oob_step.set_host → O (tr ++ pre) e = 0

/-- Fragments for evaluation: the identifying attribute of each entity. -/
def keyFragments : Fragments where
  build_set_port_oob := fun p => p.address
  build_set_host_oob := fun nqn => nqn
  build_set_subsys_oob := fun s => s.nqn
  build_set_ns_oob := fun n => fmt_d n.nsid
  build_set_portid_oob := fun id => fmt_d id

/-- An HTTP collaborator that fails every POST with `-5`. -/
def failing_posts : PostOracle := fun _ _ => -5

/-- An HTTP collaborator that accepts subsystem and host POSTs and fails
every other POST with `-5`. -/
def picky_posts : PostOracle := fun _ e =>
  if e.step = oob_step.set_subsys ∨ e.step = oob_step.set_host then 0 else -5


/-! # Theorems -/

/-! ## Code and tag conversion -/

/-- C4: for pairwise distinct non-zero `u8` codes and pairwise distinct
tag strings, `trtype_str`/`to_trtype` and `adrfam_str`/`to_adrfam` are
inverse to each other on the three tags and the three codes of each table;
every other string maps to code `0`, and code `0` and every other
unrecognised code map to `"unknown"`. -/
theorem code_tag_roundtrip (K : Consts) (hK : K.wf) :
    (∀ s ∈ [K.TRTYPE_STR_RDMA, K.TRTYPE_STR_FC, K.TRTYPE_STR_TCP],
      trtype_str K (to_trtype K s) = s) ∧
    (∀ c ∈ [K.NVMF_TRTYPE_RDMA, K.NVMF_TRTYPE_FC, K.NVMF_TRTYPE_TCP],
      to_trtype K (trtype_str K c) = c) ∧
    (∀ s ∈ [K.ADRFAM_STR_IPV4, K.ADRFAM_STR_IPV6, K.ADRFAM_STR_FC],
      adrfam_str K (to_adrfam K s) = s) ∧
    (∀ c ∈ [K.NVMF_ADDR_FAMILY_IP4, K.NVMF_ADDR_FAMILY_IP6, K.NVMF_ADDR_FAMILY_FC],
      to_adrfam K (adrfam_str K c) = c) ∧
    (∀ s, s ∉ [K.TRTYPE_STR_RDMA, K.TRTYPE_STR_FC, K.TRTYPE_STR_TCP] → to_trtype K s = 0) ∧
    (∀ s, s ∉ [K.ADRFAM_STR_IPV4, K.ADRFAM_STR_IPV6, K.ADRFAM_STR_FC] → to_adrfam K s = 0) ∧
    trtype_str K 0 = ascii "unknown" ∧ adrfam_str K 0 = ascii "unknown" ∧
    (∀ c, c ∉ [K.NVMF_TRTYPE_RDMA, K.NVMF_TRTYPE_FC, K.NVMF_TRTYPE_TCP] →
      trtype_str K c = ascii "unknown") ∧
    (∀ c, c ∉ [K.NVMF_ADDR_FAMILY_IP4, K.NVMF_ADDR_FAMILY_IP6, K.NVMF_ADDR_FAMILY_FC] →
      adrfam_str K c = ascii "unknown") := by
  obtain ⟨⟨c1, c2, c3⟩, ⟨a1, a2, a3⟩, ⟨r0, r1⟩, ⟨f0, f1⟩, ⟨t0, t1⟩, ⟨i0, i1⟩, ⟨j0, j1⟩,
    ⟨g0, g1⟩, ⟨s1, s2, s3⟩, ⟨u1, u2, u3⟩⟩ := hK
  have er := Nat.mod_eq_of_lt r1
  have ef := Nat.mod_eq_of_lt f1
  have et := Nat.mod_eq_of_lt t1
  have ei := Nat.mod_eq_of_lt i1
  have ej := Nat.mod_eq_of_lt j1
  have eg := Nat.mod_eq_of_lt g1
  refine ⟨?_, ?_, ?_, ?_, ?_, ?_, ?_, ?_, ?_, ?_⟩
  · intro s hs
    simp only [List.mem_cons, List.mem_singleton, List.not_mem_nil, or_false] at hs
    rcases hs with rfl | rfl | rfl <;>
      simp [to_trtype, trtype_str, er, ef, et, c1, c2, c3, s1, s2, s3, Ne.symm c1, Ne.symm c2,
        Ne.symm c3, Ne.symm s1, Ne.symm s2, Ne.symm s3]
  · intro c hc
    simp only [List.mem_cons, List.mem_singleton, List.not_mem_nil, or_false] at hc
    rcases hc with rfl | rfl | rfl <;>
      simp [to_trtype, trtype_str, er, ef, et, c1, c2, c3, s1, s2, s3, Ne.symm c1, Ne.symm c2,
        Ne.symm c3, Ne.symm s1, Ne.symm s2, Ne.symm s3]
  · intro s hs
    simp only [List.mem_cons, List.mem_singleton, List.not_mem_nil, or_false] at hs
    rcases hs with rfl | rfl | rfl <;>
      simp [to_adrfam, adrfam_str, ei, ej, eg, a1, a2, a3, u1, u2, u3, Ne.symm a1, Ne.symm a2,
        Ne.symm a3, Ne.symm u1, Ne.symm u2, Ne.symm u3]
  · intro c hc
    simp only [List.mem_cons, List.mem_singleton, List.not_mem_nil, or_false] at hc
    rcases hc with rfl | rfl | rfl <;>
      simp [to_adrfam, adrfam_str, ei, ej, eg, a1, a2, a3, u1, u2, u3, Ne.symm a1, Ne.symm a2,
        Ne.symm a3, Ne.symm u1, Ne.symm u2, Ne.symm u3]
  · intro s hs
    simp only [List.mem_cons, List.mem_singleton, List.not_mem_nil, or_false, not_or] at hs
    simp [to_trtype, hs.1, hs.2.1, hs.2.2]
  · intro s hs
    simp only [List.mem_cons, List.mem_singleton, List.not_mem_nil, or_false, not_or] at hs
    simp [to_adrfam, hs.1, hs.2.1, hs.2.2]
  · simp [trtype_str, Nat.ne_of_lt r0, Nat.ne_of_lt f0, Nat.ne_of_lt t0]
  · simp [adrfam_str, Nat.ne_of_lt i0, Nat.ne_of_lt j0, Nat.ne_of_lt g0]
  · intro c hc
    simp only [List.mem_cons, List.mem_singleton, List.not_mem_nil, or_false, not_or] at hc
    simp [trtype_str, hc.1, hc.2.1, hc.2.2]
  · intro c hc
    simp only [List.mem_cons, List.mem_singleton, List.not_mem_nil, or_false, not_or] at hc
    simp [adrfam_str, hc.1, hc.2.1, hc.2.2]

/-- C4 at the NVMe-over-Fabrics codes: `"tcp"` and code `3` map to each
other. -/
theorem code_tag_roundtrip_witness :
    nvmeConsts.wf ∧
    trtype_str nvmeConsts (to_trtype nvmeConsts nvmeConsts.TRTYPE_STR_TCP) =
      nvmeConsts.TRTYPE_STR_TCP ∧
    to_trtype nvmeConsts (trtype_str nvmeConsts nvmeConsts.NVMF_TRTYPE_TCP) =
      nvmeConsts.NVMF_TRTYPE_TCP :=
  ⟨by decide,
   (code_tag_roundtrip nvmeConsts (by decide)).1 _ (by simp),
   (code_tag_roundtrip nvmeConsts (by decide)).2.1 _ (by simp)⟩

/-! ## Binary port table -/

theorem count_port_ids_eq (ps : List port_id) : count_port_ids ps = ps.length := by
  induction ps with
  | nil => rfl
  | cons p ps ih => simp [count_port_ids, ih]

theorem write_port_entries_eq (K : Consts) (ps : List port_id) :
    write_port_entries K ps =
      (ps.filter (fun p => p.valid)).map (fun p =>
        { status := 0, portid := p.portid, trtype := to_trtype K p.type,
          adrfam := to_adrfam K p.family, traddr := p.address, trsvcid := p.port }) := by
  induction ps with
  | nil => rfl
  | cons p ps ih =>
    cases hv : p.valid <;> simp [write_port_entries, port_entry_of, hv, ih]

/-- C1: what `build_set_port_inb` writes.  The entries are exactly those
of the `port_id`s whose `valid` is set, in list order, with status `0`,
the port id, `to_trtype(type)`, `to_adrfam(family)`, address and service
id; but `num_entries` is the number of all list members (as far as the
member holds it), valid or not.  For a target whose single `port_id` has
`valid` clear the header says `1` and no entry follows. -/
theorem build_set_port_inb_counts_all :
    (∀ (K : Consts) (L : Layout) (t : target),
      build_set_port_inb K L true t =
        (L.ptr_size - 1 + t.portid_list.length * L.port_entry_size,
         some { num_entries := t.portid_list.length % L.num_mod,
                entries := (t.portid_list.filter (fun p => p.valid)).map (fun p =>
                  { status := 0, portid := p.portid, trtype := to_trtype K p.type,
                    adrfam := to_adrfam K p.family, traddr := p.address,
                    trsvcid := p.port }) })) ∧
    build_set_port_inb nvmeConsts nvmeLayout true stale_port_target =
      (299, some { num_entries := 1, entries := [] }) ∧
    (stale_port_target.portid_list.filter (fun p => p.valid)).length = 0 := by
  refine ⟨?_, by decide, by decide⟩
  intro K L t
  simp [build_set_port_inb, count_port_ids_eq, write_port_entries_eq]

/-! ## Binary subsystem table: length -/

theorem len_hosts_eq (L : Layout) (len : Nat) (hs : List host) :
    len_hosts L len hs = len + hs.length * L.NVMF_NQN_FIELD_LEN := by
  induction hs generalizing len with
  | nil => simp [len_hosts]
  | cons h hs ih => simp [len_hosts, ih, Nat.add_mul]; omega

theorem len_subsys_eq (L : Layout) (len count : Nat) (ss : List subsystem) :
    len_subsys L len count ss = (subsys_table_len L len ss, count + ss.length) := by
  induction ss generalizing len count with
  | nil => simp [len_subsys, subsys_table_len]
  | cons s ss ih =>
    simp [len_subsys, ih, len_hosts_eq, subsys_table_len]
    omega

theorem write_hosts_cursor (L : Layout) (m : Mem) (p c : Nat) (hs : List host) :
    (write_hosts L m p c hs).2 = (p + hs.length * L.NVMF_NQN_FIELD_LEN, c + hs.length) := by
  induction hs generalizing m p c with
  | nil => simp [write_hosts]
  | cons h hs ih => simp [write_hosts, ih, Nat.add_mul]; omega

theorem write_subsys_cursor (L : Layout) (m : Mem) (p : Nat) (ss : List subsystem) :
    (write_subsys L m p ss).2 =
      p + (ss.map (fun s => L.se_data + s.host_list.length * L.NVMF_NQN_FIELD_LEN)).sum := by
  induction ss generalizing m p with
  | nil => simp [write_subsys]
  | cons s ss ih =>
    simp [write_subsys, ih, write_hosts_cursor]
    omega

/-- C2: the length `build_set_subsys_inb` returns is `sizeof(hdr) - 1`,
the size of a pointer less one, plus per subsystem `sizeof(*entry) - 1`
and one NQN field per host, while the write cursor ends at the offset of
the header's `data` plus per subsystem the offset of the entry's `data`
and one NQN field per host.  With a two-byte header on an LP64 build and
no subsystem at all the function returns `7`, the header size and the
final cursor being `1`. -/
theorem build_set_subsys_inb_len :
    (∀ (L : Layout) (m0 : Mem) (t : target),
      (build_set_subsys_inb L (some m0) t).len =
        subsys_table_len L (L.ptr_size - 1) t.subsys_list ∧
      (build_set_subsys_inb L (some m0) t).cursor =
        L.sh_data + (t.subsys_list.map
          (fun s => L.se_data + s.host_list.length * L.NVMF_NQN_FIELD_LEN)).sum) ∧
    (∀ m0 : Mem, (build_set_subsys_inb nvmeLayout (some m0) bare_target).len = 7 ∧
      (build_set_subsys_inb nvmeLayout (some m0) bare_target).cursor = 1 ∧
      subsys_table_len nvmeLayout (nvmeLayout.sh_size - 1) bare_target.subsys_list = 1) := by
  refine ⟨?_, ?_⟩
  · intro L m0 t
    simp [build_set_subsys_inb, len_subsys_eq, write_subsys_cursor]
  · intro m0
    refine ⟨?_, ?_, ?_⟩ <;> rfl

/-! ## Transport reconciliation -/

theorem to_adrfam_ipv4 (K : Consts) (hK : K.wf) :
    to_adrfam K K.ADRFAM_STR_IPV4 = K.NVMF_ADDR_FAMILY_IP4 := by
  have h := hK.2.2.2.2.2.1
  simp [to_adrfam, Nat.mod_eq_of_lt h.2]

theorem to_trtype_tcp (K : Consts) (hK : K.wf) :
    to_trtype K K.TRTYPE_STR_TCP = K.NVMF_TRTYPE_TCP := by
  obtain ⟨-, -, -, -, ⟨-, t1⟩, -, -, -, ⟨-, s2, s3⟩, -⟩ := hK
  simp [to_trtype, Nat.mod_eq_of_lt t1, Ne.symm s2, Ne.symm s3]

/-- The RDMA report entry is confirmed against a configured TCP port at the
same address and family by the second rule, without a `goto found`. -/
theorem scan_port_ids_rdma_on_tcp (K : Consts) (hK : K.wf) (p : port_id)
    (htype : p.type = K.TRTYPE_STR_TCP) (hfam : p.family = K.ADRFAM_STR_IPV4) (v : Bool) :
    scan_port_ids K
        { trtype := K.NVMF_TRTYPE_RDMA, adrfam := K.NVMF_ADDR_FAMILY_IP4, traddr := p.address }
        false [{ p with valid := v }] =
      ([{ p with valid := true }], true, false) := by
  have hne : K.NVMF_TRTYPE_RDMA ≠ K.NVMF_TRTYPE_TCP := hK.1.2.1
  simp [scan_port_ids, xport_body, xport_rule1, xport_rule2, htype, hfam, to_adrfam_ipv4 K hK,
    to_trtype_tcp K hK, hne]

/-- The TCP report entry is confirmed against a configured TCP port at the
same address and family by the first rule; no diagnostic follows either
way the source's `adrfam == NVMF_TRTYPE_RDMA` test goes. -/
theorem scan_port_ids_tcp_on_tcp (K : Consts) (hK : K.wf) (p : port_id)
    (htype : p.type = K.TRTYPE_STR_TCP) (hfam : p.family = K.ADRFAM_STR_IPV4) (v : Bool) :
    ∃ rf fnd, scan_port_ids K
        { trtype := K.NVMF_TRTYPE_TCP, adrfam := K.NVMF_ADDR_FAMILY_IP4, traddr := p.address }
        false [{ p with valid := v }] =
      ([{ p with valid := true }], rf, fnd) ∧ (!fnd && !rf) = false := by
  have hne : K.NVMF_TRTYPE_TCP ≠ K.NVMF_TRTYPE_RDMA := Ne.symm hK.1.2.1
  by_cases hq : K.NVMF_ADDR_FAMILY_IP4 = K.NVMF_TRTYPE_RDMA
  · refine ⟨true, false, ?_, rfl⟩
    simp [scan_port_ids, xport_body, xport_rule1, xport_rule2, htype, hfam,
      to_adrfam_ipv4 K hK, to_trtype_tcp K hK, hne, hq]
  · refine ⟨false, true, ?_, rfl⟩
    simp [scan_port_ids, xport_body, xport_rule1, xport_rule2, htype, hfam,
      to_adrfam_ipv4 K hK, to_trtype_tcp K hK, hne, hq]

theorem scan_xport_rdma_on_tcp (K : Consts) (hK : K.wf) (al : CStr) (p : port_id)
    (htype : p.type = K.TRTYPE_STR_TCP) (hfam : p.family = K.ADRFAM_STR_IPV4) (v : Bool) :
    scan_xport K al
        { trtype := K.NVMF_TRTYPE_RDMA, adrfam := K.NVMF_ADDR_FAMILY_IP4, traddr := p.address }
        [{ p with valid := v }] = ([{ p with valid := true }], []) := by
  simp [scan_xport, scan_port_ids_rdma_on_tcp K hK p htype hfam v]

theorem scan_xport_tcp_on_tcp (K : Consts) (hK : K.wf) (al : CStr) (p : port_id)
    (htype : p.type = K.TRTYPE_STR_TCP) (hfam : p.family = K.ADRFAM_STR_IPV4) (v : Bool) :
    scan_xport K al
        { trtype := K.NVMF_TRTYPE_TCP, adrfam := K.NVMF_ADDR_FAMILY_IP4, traddr := p.address }
        [{ p with valid := v }] = ([{ p with valid := true }], []) := by
  obtain ⟨rf, fnd, h, hd⟩ := scan_port_ids_tcp_on_tcp K hK p htype hfam v
  simp [scan_xport, h, hd]

/-- C5: one configured `port_id` of type TCP and family IPv4, and a
successful report of two entries at that port's address and IPv4, one RDMA
and one TCP, in either order.  Each reported entry, scanned against the
port with its flag cleared, sets the flag and prints nothing; the pass
returns the fetch result `0`, leaves the port with `valid` set and prints
no diagnostic at all. -/
theorem get_inb_xports_rdma_and_tcp (K : Consts) (hK : K.wf) (t : target) (p : port_id)
    (page : transports_rsp_page)
    (hports : t.portid_list = [p])
    (htype : p.type = K.TRTYPE_STR_TCP) (hfam : p.family = K.ADRFAM_STR_IPV4)
    (hn : page.num_entries = 2)
    (hdata :
      (page.data 0 = { trtype := K.NVMF_TRTYPE_RDMA, adrfam := K.NVMF_ADDR_FAMILY_IP4,
                       traddr := p.address } ∧
       page.data 1 = { trtype := K.NVMF_TRTYPE_TCP, adrfam := K.NVMF_ADDR_FAMILY_IP4,
                       traddr := p.address }) ∨
      (page.data 0 = { trtype := K.NVMF_TRTYPE_TCP, adrfam := K.NVMF_ADDR_FAMILY_IP4,
                       traddr := p.address } ∧
       page.data 1 = { trtype := K.NVMF_TRTYPE_RDMA, adrfam := K.NVMF_ADDR_FAMILY_IP4,
                       traddr := p.address })) :
    get_inb_xports K t 0 page = (0, { t with portid_list := [{ p with valid := true }] }, []) ∧
    (∀ i, i < 2 → scan_xport K t.alias_ (page.data i) [{ p with valid := false }] =
      ([{ p with valid := true }], [])) := by
  have hr := fun v => scan_xport_rdma_on_tcp K hK t.alias_ p htype hfam v
  have ht := fun v => scan_xport_tcp_on_tcp K hK t.alias_ p htype hfam v
  constructor
  · have h2 : page.num_entries = 1 + 1 := hn
    rcases hdata with ⟨h0, h1⟩ | ⟨h0, h1⟩
    · simp [get_inb_xports, h2, scan_xports, hports, clear_port_valid, h0, h1, hr, ht,
        missing_xports]
    · simp [get_inb_xports, h2, scan_xports, hports, clear_port_valid, h0, h1, hr, ht,
        missing_xports]
  · intro i hi
    have hi01 : i = 0 ∨ i = 1 := by omega
    rcases hdata with ⟨h0, h1⟩ | ⟨h0, h1⟩ <;> rcases hi01 with rfl | rfl <;>
      simp [h0, h1, hr, ht]

/-- C5 at the NVMe-over-Fabrics codes, port `10.0.0.1`, report RDMA then
TCP. -/
theorem get_inb_xports_rdma_and_tcp_witness :
    nvmeConsts.wf ∧ rdma_tcp_page.num_entries = 2 ∧
    get_inb_xports nvmeConsts tcp_target 0 rdma_tcp_page =
      (0, { tcp_target with portid_list := [{ tcp_port with valid := true }] }, []) :=
  ⟨by decide, rfl,
   (get_inb_xports_rdma_and_tcp nvmeConsts (by decide) tcp_target tcp_port rdma_tcp_page
      rfl (by decide) (by decide) rfl (Or.inl ⟨by decide, by decide⟩)).1⟩

/-! ## Device reconciliation -/

/-- C6, as the code has it: when the fetch succeeds and the report has no
entry, `get_inb_nsdevs` prints the single diagnostic "No NS devices defined"
and no "Nsdev not on" diagnostic, whatever the configured devices are,
leaves the target as it was and returns the fetch result `0`. -/
theorem get_inb_nsdevs_empty_report (t : target) (page : ns_devices_rsp_page)
    (hn : page.num_entries = 0) :
    get_inb_nsdevs t 0 page = (0, t, [diag.no_ns_devices t.alias_]) := by
  simp [get_inb_nsdevs, hn]

/-- C6 amended, at the target whose only configured device is `nullb0`. -/
theorem get_inb_nsdevs_empty_report_witness :
    empty_nsdev_page.num_entries = 0 ∧
    get_inb_nsdevs nullb0_target 0 empty_nsdev_page =
      (0, nullb0_target, [diag.no_ns_devices nullb0_target.alias_]) :=
  ⟨rfl, get_inb_nsdevs_empty_report nullb0_target empty_nsdev_page rfl⟩

/-- C6 as stated fails: with the single configured device (255, 0) and an
empty report no "Nsdev not on ... nullb0" diagnostic is printed. -/
theorem get_inb_nsdevs_empty_report_no_missing :
    ¬ (diag.no_ns_devices nullb0_target.alias_ ∈
          (get_inb_nsdevs nullb0_target 0 empty_nsdev_page).2.2 ∧
       diag.nsdev_not_on_nullb0 nullb0_target.alias_ ∈
          (get_inb_nsdevs nullb0_target 0 empty_nsdev_page).2.2) := by
  decide

/-! ## The URI buffers: when a send has a result -/

theorem fits_uri_buf_of_append (a b : CStr) (h : fits_uri_buf (a ++ b) = true) :
    fits_uri_buf a = true := by
  simp only [fits_uri_buf, decide_eq_true_eq, List.length_append] at *
  omega

theorem compose_uri_eq (t : target) (rest : CStr) :
    compose_uri t rest = sprintf_uri (uri_root t ++ rest) := by
  unfold compose_uri get_uri sprintf_uri
  by_cases h1 : fits_uri_buf (uri_root t) = true
  · simp [h1]
  · have h2 : ¬ fits_uri_buf (uri_root t ++ rest) = true :=
      fun h => h1 (fits_uri_buf_of_append _ _ h)
    simp [h1, h2]

theorem send_del_of_fits (O : Oracle) (t : target) (op : del_op) (rest : CStr) (ret : Int)
    (tr : List event) (h : oob_fits t (uri_root t ++ rest) = true) :
    send_del O t op rest ret tr = some (dispatch_del O t op (uri_root t ++ rest) ret tr) := by
  unfold send_del dispatch_del
  unfold oob_fits at h
  cases hm : t.mgmt_mode with
  | IN_BAND_MGMT => rfl
  | OUT_OF_BAND_MGMT =>
    rw [hm] at h
    simp only [] at h
    simp [compose_uri_eq, sprintf_uri, h]
  | other_mgmt k => rfl

theorem send_del_overrun (O : Oracle) (t : target) (op : del_op) (rest : CStr) (ret : Int)
    (tr : List event) (hm : t.mgmt_mode = mgmt_mode_t.OUT_OF_BAND_MGMT)
    (h : fits_uri_buf (uri_root t ++ rest) = false) :
    send_del O t op rest ret tr = none := by
  unfold send_del
  simp [hm, compose_uri_eq, sprintf_uri, h]

/-! ## Delete cascade -/

theorem first_match_none {α β : Type} (p : α → Bool) (f : α → List α × β) (miss : β)
    (l : List α) (h : l.find? p = none) : first_match p f miss l = (l, miss) := by
  induction l with
  | nil => rfl
  | cons x xs ih =>
    cases hp : p x
    · rw [List.find?_cons, hp] at h
      simp [first_match, hp, ih h]
    · rw [List.find?_cons, hp] at h
      cases h

theorem first_match_erase {α β : Type} (p : α → Bool) (r : α → β) (miss : β) (l : List α) :
    (first_match p (fun x => ([], r x)) miss l).1 = l.eraseP p := by
  induction l with
  | nil => rfl
  | cons x xs ih =>
    cases hp : p x <;> simp [first_match, hp, List.eraseP_cons, ih]

theorem first_match_update {α β : Type} (p : α → Bool) (g : α → α) (r : α → β) (miss : β)
    (l : List α) :
    (first_match p (fun x => ([g x], r x)) miss l).1 = update_first p g l := by
  induction l with
  | nil => rfl
  | cons x xs ih =>
    cases hp : p x <;> simp [first_match, hp, update_first, ih]

theorem first_match_snd {α β : Type} (p : α → Bool) (f : α → List α × β) (miss : β)
    (l : List α) :
    (first_match p f miss l).2 =
      (match l.find? p with
       | none => miss
       | some x => (f x).2) := by
  induction l with
  | nil => rfl
  | cons x xs ih =>
    cases hp : p x <;> simp [first_match, hp, List.find?_cons, ih]

theorem update_first_id {α : Type} (p : α → Bool) (g : α → α) (l : List α)
    (h : ∀ x, l.find? p = some x → g x = x) : update_first p g l = l := by
  induction l with
  | nil => rfl
  | cons x xs ih =>
    cases hp : p x
    · have := ih (fun y hy => h y (by rw [List.find?_cons, hp]; exact hy))
      simp [update_first, hp, this]
    · have := h x (by rw [List.find?_cons, hp])
      simp [update_first, hp, this]

theorem eraseP_of_find_none {α : Type} (p : α → Bool) (l : List α) (h : l.find? p = none) :
    l.eraseP p = l := by
  apply List.eraseP_of_forall_not
  intro a ha hpa
  rw [List.find?_eq_none] at h
  exact h a ha hpa

/-- What `del_target` returns once the store has accepted: the dispatch for
the first target with the alias, and the list without that target. -/
theorem del_target_eq (K : Consts) (O : Oracle) (tl : List target) (tr : List event)
    (al : CStr) (h0 : O tr (event.del_json_target al) = 0) :
    del_target K O tl al tr =
      (match lookup_target tl al with
       | none => some (0, tr ++ [event.del_json_target al])
       | some t =>
         send_del O t del_op.target (path_del_target K t) 0
           (tr ++ [event.del_json_target al])).map
        (fun x : Int × List event => (x.1, tl.eraseP (fun t => decide (t.alias_ = al)), x.2)) := by
  simp only [del_target, h0, ne_eq, not_true_eq_false, if_false]
  rw [first_match_erase, first_match_snd]
  unfold lookup_target
  cases tl.find? (fun t => decide (t.alias_ = al)) <;> rfl

/-- What `del_subsys` returns once the store has accepted. -/
theorem del_subsys_eq (K : Consts) (O : Oracle) (tl : List target) (tr : List event)
    (al nqn : CStr) (h0 : O tr (event.del_json_subsys al nqn) = 0) :
    del_subsys K O tl al nqn tr =
      (match lookup_target tl al with
       | none => some (0, tr ++ [event.del_json_subsys al nqn])
       | some t =>
         match lookup_subsys t nqn with
         | none => some (0, tr ++ [event.del_json_subsys al nqn])
         | some s =>
           send_del O t del_op.subsys (path_del_subsys K s) 0
             (tr ++ [event.del_json_subsys al nqn])).map
        (fun x : Int × List event => (x.1,
          update_first (fun t => decide (t.alias_ = al))
            (fun t => { t with subsys_list :=
              (t.subsys_list.eraseP (fun s => decide (s.nqn = nqn))) }) tl, x.2)) := by
  simp only [del_subsys, h0, ne_eq, not_true_eq_false, if_false]
  rw [first_match_update, first_match_snd]
  simp only [first_match_erase, first_match_snd]
  unfold lookup_target
  cases tl.find? (fun t => decide (t.alias_ = al)) with
  | none => rfl
  | some t =>
    simp only [lookup_subsys]
    cases t.subsys_list.find? (fun s => decide (s.nqn = nqn)) <;> rfl

/-- What `del_portid` returns once the store has accepted. -/
theorem del_portid_eq (K : Consts) (O : Oracle) (tl : List target) (tr : List event)
    (al : CStr) (id : Int) (h0 : O tr (event.del_json_portid al id) = 0) :
    del_portid K O tl al id tr =
      (match lookup_target tl al with
       | none => some (0, tr ++ [event.del_json_portid al id])
       | some t =>
         match lookup_portid t id with
         | none => some (0, tr ++ [event.del_json_portid al id])
         | some p =>
           send_del O t del_op.portid (path_del_portid K p) 0
             (tr ++ [event.del_json_portid al id])).map
        (fun x : Int × List event => (x.1,
          update_first (fun t => decide (t.alias_ = al))
            (fun t => { t with portid_list :=
              (t.portid_list.eraseP (fun p => decide (p.portid = id))) }) tl, x.2)) := by
  simp only [del_portid, h0, ne_eq, not_true_eq_false, if_false]
  rw [first_match_update, first_match_snd]
  simp only [first_match_erase, first_match_snd]
  unfold lookup_target
  cases tl.find? (fun t => decide (t.alias_ = al)) with
  | none => rfl
  | some t =>
    simp only [lookup_portid]
    cases t.portid_list.find? (fun p => decide (p.portid = id)) <;> rfl

/-- What `del_ns` returns once the store has accepted. -/
theorem del_ns_eq (K : Consts) (O : Oracle) (tl : List target) (tr : List event)
    (al nqn : CStr) (nsid : Int) (h0 : O tr (event.del_json_ns al nqn nsid) = 0) :
    del_ns K O tl al nqn nsid tr =
      (match lookup_target tl al with
       | none => some (0, tr ++ [event.del_json_ns al nqn nsid])
       | some t =>
         match lookup_subsys t nqn with
         | none => some (0, tr ++ [event.del_json_ns al nqn nsid])
         | some s =>
           match lookup_ns s nsid with
           | none => some (0, tr ++ [event.del_json_ns al nqn nsid])
           | some n =>
             send_del O t del_op.ns (path_del_ns K s n) 0
               (tr ++ [event.del_json_ns al nqn nsid])).map
        (fun x : Int × List event => (x.1,
          update_first (fun t => decide (t.alias_ = al))
            (fun t => { t with subsys_list :=
              (update_first (fun s => decide (s.nqn = nqn))
                (fun s => { s with ns_list :=
                  (s.ns_list.eraseP (fun n => decide (n.nsid = nsid))) })
                t.subsys_list) }) tl, x.2)) := by
  simp only [del_ns, h0, ne_eq, not_true_eq_false, if_false]
  rw [first_match_update, first_match_snd]
  simp only [first_match_update, first_match_erase, first_match_snd]
  unfold lookup_target
  cases tl.find? (fun t => decide (t.alias_ = al)) with
  | none => rfl
  | some t =>
    simp only [lookup_subsys]
    cases t.subsys_list.find? (fun s => decide (s.nqn = nqn)) with
    | none => rfl
    | some s =>
      simp only [lookup_ns]
      cases s.ns_list.find? (fun n => decide (n.nsid = nsid)) <;> rfl

/-- What `del_acl` returns once the store has accepted. -/
theorem del_acl_eq (K : Consts) (O : Oracle) (tl : List target) (tr : List event)
    (al nqn hostnqn : CStr) (h0 : O tr (event.del_json_acl al nqn hostnqn) = 0) :
    del_acl K O tl al nqn hostnqn tr =
      (match lookup_target tl al with
       | none => some (tr ++ [event.del_json_acl al nqn hostnqn])
       | some t =>
         match lookup_subsys t nqn with
         | none => some (tr ++ [event.del_json_acl al nqn hostnqn])
         | some s =>
           match lookup_host s hostnqn with
           | none => some (tr ++ [event.del_json_acl al nqn hostnqn])
           | some h => _del_acl K O t s h (tr ++ [event.del_json_acl al nqn hostnqn])).map
        (fun tr2 : List event => ((0 : Int),
          update_first (fun t => decide (t.alias_ = al))
            (fun t => { t with subsys_list :=
              (update_first (fun s => decide (s.nqn = nqn))
                (fun s => { s with host_list :=
                  (s.host_list.eraseP (fun h => decide (h.nqn = hostnqn))) })
                t.subsys_list) }) tl, tr2)) := by
  simp only [del_acl, h0, ne_eq, not_true_eq_false, if_false]
  rw [first_match_update, first_match_snd]
  simp only [first_match_update, first_match_erase, first_match_snd]
  unfold lookup_target
  cases tl.find? (fun t => decide (t.alias_ = al)) with
  | none => rfl
  | some t =>
    simp only [lookup_subsys]
    cases t.subsys_list.find? (fun s => decide (s.nqn = nqn)) with
    | none => rfl
    | some s =>
      simp only [lookup_host]
      cases s.host_list.find? (fun h => decide (h.nqn = hostnqn)) <;> rfl

/-- With the store accepting, the target found and its URI fitting,
`del_target` returns what the dispatch returns, whatever that is, and the
list without the target. -/
theorem del_target_of_found (K : Consts) (O : Oracle) (tl : List target) (tr : List event)
    (al : CStr) (t : target) (h0 : O tr (event.del_json_target al) = 0)
    (ht : lookup_target tl al = some t) (hf : oob_fits t (uri_del_target K t) = true) :
    del_target K O tl al tr =
      some ((dispatch_del O t del_op.target (uri_del_target K t) 0
              (tr ++ [event.del_json_target al])).1,
            tl.eraseP (fun t => decide (t.alias_ = al)),
            (dispatch_del O t del_op.target (uri_del_target K t) 0
              (tr ++ [event.del_json_target al])).2) := by
  rw [del_target_eq K O tl tr al h0, ht]
  simp only []
  rw [send_del_of_fits O t del_op.target (path_del_target K t) 0 _ hf]
  rfl

/-- With the store accepting, the subsystem found and its URI fitting,
`del_subsys` returns what the dispatch returns, whatever that is, and the
model without the subsystem. -/
theorem del_subsys_of_found (K : Consts) (O : Oracle) (tl : List target) (tr : List event)
    (al nqn : CStr) (t : target) (s : subsystem)
    (h0 : O tr (event.del_json_subsys al nqn) = 0)
    (ht : lookup_target tl al = some t) (hs : lookup_subsys t nqn = some s)
    (hf : oob_fits t (uri_del_subsys K t s) = true) :
    del_subsys K O tl al nqn tr =
      some ((dispatch_del O t del_op.subsys (uri_del_subsys K t s) 0
              (tr ++ [event.del_json_subsys al nqn])).1,
            update_first (fun t => decide (t.alias_ = al))
              (fun t => { t with subsys_list :=
                (t.subsys_list.eraseP (fun s => decide (s.nqn = nqn))) }) tl,
            (dispatch_del O t del_op.subsys (uri_del_subsys K t s) 0
              (tr ++ [event.del_json_subsys al nqn])).2) := by
  rw [del_subsys_eq K O tl tr al nqn h0, ht]
  simp only [hs]
  rw [send_del_of_fits O t del_op.subsys (path_del_subsys K s) 0 _ hf]
  rfl

/-- With the store accepting, the `port_id` found and its URI fitting,
`del_portid` returns what the dispatch returns, whatever that is, and the
model without the `port_id`. -/
theorem del_portid_of_found (K : Consts) (O : Oracle) (tl : List target) (tr : List event)
    (al : CStr) (id : Int) (t : target) (p : port_id)
    (h0 : O tr (event.del_json_portid al id) = 0)
    (ht : lookup_target tl al = some t) (hp : lookup_portid t id = some p)
    (hf : oob_fits t (uri_del_portid K t p) = true) :
    del_portid K O tl al id tr =
      some ((dispatch_del O t del_op.portid (uri_del_portid K t p) 0
              (tr ++ [event.del_json_portid al id])).1,
            update_first (fun t => decide (t.alias_ = al))
              (fun t => { t with portid_list :=
                (t.portid_list.eraseP (fun p => decide (p.portid = id))) }) tl,
            (dispatch_del O t del_op.portid (uri_del_portid K t p) 0
              (tr ++ [event.del_json_portid al id])).2) := by
  rw [del_portid_eq K O tl tr al id h0, ht]
  simp only [hp]
  rw [send_del_of_fits O t del_op.portid (path_del_portid K p) 0 _ hf]
  rfl

/-- With the store accepting, the namespace found and its URI fitting,
`del_ns` returns what the dispatch returns, whatever that is, and the model
without the namespace. -/
theorem del_ns_of_found (K : Consts) (O : Oracle) (tl : List target) (tr : List event)
    (al nqn : CStr) (nsid : Int) (t : target) (s : subsystem) (n : ns)
    (h0 : O tr (event.del_json_ns al nqn nsid) = 0)
    (ht : lookup_target tl al = some t) (hs : lookup_subsys t nqn = some s)
    (hn : lookup_ns s nsid = some n) (hf : oob_fits t (uri_del_ns K t s n) = true) :
    del_ns K O tl al nqn nsid tr =
      some ((dispatch_del O t del_op.ns (uri_del_ns K t s n) 0
              (tr ++ [event.del_json_ns al nqn nsid])).1,
            update_first (fun t => decide (t.alias_ = al))
              (fun t => { t with subsys_list :=
                (update_first (fun s => decide (s.nqn = nqn))
                  (fun s => { s with ns_list :=
                    (s.ns_list.eraseP (fun n => decide (n.nsid = nsid))) })
                  t.subsys_list) }) tl,
            (dispatch_del O t del_op.ns (uri_del_ns K t s n) 0
              (tr ++ [event.del_json_ns al nqn nsid])).2) := by
  rw [del_ns_eq K O tl tr al nqn nsid h0, ht]
  simp only [hs, hn]
  rw [send_del_of_fits O t del_op.ns (path_del_ns K s n) 0 _ hf]
  rfl

/-- With the store accepting, the host record found and its URI fitting,
`del_acl` returns `0`, the model without the record, and the trace of the
dispatch. -/
theorem del_acl_of_found (K : Consts) (O : Oracle) (tl : List target) (tr : List event)
    (al nqn hostnqn : CStr) (t : target) (s : subsystem) (h : host)
    (h0 : O tr (event.del_json_acl al nqn hostnqn) = 0)
    (ht : lookup_target tl al = some t) (hs : lookup_subsys t nqn = some s)
    (hh : lookup_host s hostnqn = some h) (hf : oob_fits t (uri_del_acl K t s h) = true) :
    del_acl K O tl al nqn hostnqn tr =
      some (0,
            update_first (fun t => decide (t.alias_ = al))
              (fun t => { t with subsys_list :=
                (update_first (fun s => decide (s.nqn = nqn))
                  (fun s => { s with host_list :=
                    (s.host_list.eraseP (fun h => decide (h.nqn = hostnqn))) })
                  t.subsys_list) }) tl,
            (dispatch_del O t del_op.acl (uri_del_acl K t s h) 0
              (tr ++ [event.del_json_acl al nqn hostnqn])).2) := by
  rw [del_acl_eq K O tl tr al nqn hostnqn h0, ht]
  simp only [hs, hh, _del_acl]
  rw [send_del_of_fits O t del_op.acl (path_del_acl K s h) 0 _ hf]
  rfl

/-- C8: when the configuration store returns a non-zero result, each of
`del_target`, `del_subsys`, `del_ns`, `del_portid`, `del_acl` and
`del_host` returns exactly that result, leaves `target_list` as it was,
and adds nothing but the store call to the trace (no remote call, no URI
composed). -/
theorem del_store_rejection (K : Consts) (O : Oracle) (tl : List target) (tr : List event)
    (al nqn hostnqn : CStr) (id nsid : Int) :
    (O tr (event.del_json_target al) ≠ 0 →
      del_target K O tl al tr =
        some (O tr (event.del_json_target al), tl, tr ++ [event.del_json_target al])) ∧
    (O tr (event.del_json_subsys al nqn) ≠ 0 →
      del_subsys K O tl al nqn tr =
        some (O tr (event.del_json_subsys al nqn), tl,
          tr ++ [event.del_json_subsys al nqn])) ∧
    (O tr (event.del_json_ns al nqn nsid) ≠ 0 →
      del_ns K O tl al nqn nsid tr =
        some (O tr (event.del_json_ns al nqn nsid), tl,
          tr ++ [event.del_json_ns al nqn nsid])) ∧
    (O tr (event.del_json_portid al id) ≠ 0 →
      del_portid K O tl al id tr =
        some (O tr (event.del_json_portid al id), tl,
          tr ++ [event.del_json_portid al id])) ∧
    (O tr (event.del_json_acl al nqn hostnqn) ≠ 0 →
      del_acl K O tl al nqn hostnqn tr =
        some (O tr (event.del_json_acl al nqn hostnqn), tl,
          tr ++ [event.del_json_acl al nqn hostnqn])) ∧
    (O tr (event.del_json_host hostnqn) ≠ 0 →
      del_host K O tl hostnqn tr =
        some (O tr (event.del_json_host hostnqn), tl,
          tr ++ [event.del_json_host hostnqn])) := by
  refine ⟨?_, ?_, ?_, ?_, ?_, ?_⟩ <;> intro h
  · simp [del_target, h]
  · simp [del_subsys, h]
  · simp [del_ns, h]
  · simp [del_portid, h]
  · simp [del_acl, h]
  · simp [del_host, h]

/-- C8 at a store that rejects with `-22`, for `del_target` of the
out-of-band target `t1`. -/
theorem del_store_rejection_witness :
    rejecting_store [] (event.del_json_target (ascii "t1")) ≠ 0 ∧
    del_target nvmeConsts rejecting_store [oob_target] (ascii "t1") [] =
      some (-22, [oob_target], [event.del_json_target (ascii "t1")]) :=
  ⟨by decide,
   (del_store_rejection nvmeConsts rejecting_store [oob_target] [] (ascii "t1") [] [] 0 0).1
     (by decide)⟩

/-- C9: when the store accepts the deletion (returns `0`) and the lookup
chain of the operation ends without a match (no target with the alias;
or, in the first target with the alias, no subsystem with the NQN or no
`port_id` with the id; or, in the first such subsystem, no namespace with
the id or no host record with the NQN), each of `del_target`, `del_subsys`,
`del_portid`, `del_ns` and `del_acl` returns `0`, leaves `target_list` as it
was and adds nothing but the store call to the trace. -/
theorem del_unknown_entity (K : Consts) (O : Oracle) (tl : List target) (tr : List event)
    (al nqn hostnqn : CStr) (id nsid : Int) :
    (O tr (event.del_json_target al) = 0 → lookup_target tl al = none →
      del_target K O tl al tr = some (0, tl, tr ++ [event.del_json_target al])) ∧
    (O tr (event.del_json_subsys al nqn) = 0 →
      (∀ t, lookup_target tl al = some t → lookup_subsys t nqn = none) →
      del_subsys K O tl al nqn tr = some (0, tl, tr ++ [event.del_json_subsys al nqn])) ∧
    (O tr (event.del_json_portid al id) = 0 →
      (∀ t, lookup_target tl al = some t → lookup_portid t id = none) →
      del_portid K O tl al id tr = some (0, tl, tr ++ [event.del_json_portid al id])) ∧
    (O tr (event.del_json_ns al nqn nsid) = 0 →
      (∀ t, lookup_target tl al = some t →
        ∀ s, lookup_subsys t nqn = some s → lookup_ns s nsid = none) →
      del_ns K O tl al nqn nsid tr = some (0, tl, tr ++ [event.del_json_ns al nqn nsid])) ∧
    (O tr (event.del_json_acl al nqn hostnqn) = 0 →
      (∀ t, lookup_target tl al = some t →
        ∀ s, lookup_subsys t nqn = some s → lookup_host s hostnqn = none) →
      del_acl K O tl al nqn hostnqn tr =
        some (0, tl, tr ++ [event.del_json_acl al nqn hostnqn])) := by
  refine ⟨?_, ?_, ?_, ?_, ?_⟩
  · intro h0 hl
    rw [del_target_eq K O tl tr al h0, hl, eraseP_of_find_none _ _ hl]
    rfl
  · intro h0 hl
    rw [del_subsys_eq K O tl tr al nqn h0, update_first_id]
    · cases ht : lookup_target tl al with
      | none => rfl
      | some t => simp only [hl t ht]; rfl
    · intro t ht
      rw [eraseP_of_find_none _ _ (hl t ht)]
  · intro h0 hl
    rw [del_portid_eq K O tl tr al id h0, update_first_id]
    · cases ht : lookup_target tl al with
      | none => rfl
      | some t => simp only [hl t ht]; rfl
    · intro t ht
      rw [eraseP_of_find_none _ _ (hl t ht)]
  · intro h0 hl
    rw [del_ns_eq K O tl tr al nqn nsid h0, update_first_id]
    · cases ht : lookup_target tl al with
      | none => rfl
      | some t =>
        cases hs : lookup_subsys t nqn with
        | none => simp [hs]
        | some s => simp [hs, hl t ht s hs]
    · intro t ht
      rw [update_first_id]
      intro s hs
      rw [eraseP_of_find_none _ _ (hl t ht s hs)]
  · intro h0 hl
    rw [del_acl_eq K O tl tr al nqn hostnqn h0, update_first_id]
    · cases ht : lookup_target tl al with
      | none => rfl
      | some t =>
        cases hs : lookup_subsys t nqn with
        | none => simp [hs]
        | some s => simp [hs, hl t ht s hs]
    · intro t ht
      rw [update_first_id]
      intro s hs
      rw [eraseP_of_find_none _ _ (hl t ht s hs)]

/-- C9 for `del_subsys` of an NQN the target `t1` does not have, the store
accepting. -/
theorem del_unknown_entity_witness :
    failing_remote [] (event.del_json_subsys (ascii "t1") (ascii "nqn9")) = 0 ∧
    del_subsys nvmeConsts failing_remote [oob_target] (ascii "t1") (ascii "nqn9") [] =
      some (0, [oob_target], [event.del_json_subsys (ascii "t1") (ascii "nqn9")]) :=
  ⟨by decide,
   (del_unknown_entity nvmeConsts failing_remote [oob_target] [] (ascii "t1") (ascii "nqn9")
      [] 0 0).2.1 (by decide)
      (by
        intro t ht
        have h1 : lookup_target [oob_target] (ascii "t1") = some oob_target := by decide
        rw [h1] at ht
        cases ht
        decide)⟩

set_option maxRecDepth 100000 in
/-- C10 on the code: `list_del` comes after the mode dispatch, and the
out-of-band dispatch composes its URI with `sprintf` into `uri[128]`.  For
the out-of-band target `t1` at `10.0.0.9:22345` with a subsystem NQN of 200
bytes (which fits its 256-byte field) the store accepts, the lookups find
the subsystem and its namespace 1, the URI of `send_del_subsys_oob` has 232
bytes, and `del_subsys` and `del_ns` write past the buffer before they
reach `list_del`, whether the remote would succeed or fail: the run has no
result and no unlink is established.  At the target `t1` with the short
NQN `nqn1` the subsystem is unlinked although the remote call fails. -/
theorem del_overruns_uri_before_unlink :
    failing_remote [] (event.del_json_subsys (ascii "t1") long_nqn_subsys.nqn) = 0 ∧
    lookup_target [long_nqn_target] (ascii "t1") = some long_nqn_target ∧
    lookup_subsys long_nqn_target long_nqn_subsys.nqn = some long_nqn_subsys ∧
    lookup_ns long_nqn_subsys 1 = some { nsid := 1, devid := 0, devns := 1 } ∧
    long_nqn_target.mgmt_mode = mgmt_mode_t.OUT_OF_BAND_MGMT ∧
    long_nqn_subsys.nqn.length = 200 ∧ 200 < nvmeLayout.NVMF_NQN_FIELD_LEN ∧
    (uri_del_subsys nvmeConsts long_nqn_target long_nqn_subsys).length = 232 ∧
    URI_BUF_SIZE = 128 ∧
    del_subsys nvmeConsts failing_remote [long_nqn_target] (ascii "t1") long_nqn_subsys.nqn
      [] = none ∧
    del_subsys nvmeConsts accepting_all [long_nqn_target] (ascii "t1") long_nqn_subsys.nqn
      [] = none ∧
    del_ns nvmeConsts failing_remote [long_nqn_target] (ascii "t1") long_nqn_subsys.nqn 1
      [] = none ∧
    del_subsys nvmeConsts failing_remote [oob_target] (ascii "t1") (ascii "nqn1") [] =
      some (-5, [{ oob_target with subsys_list := [] }],
        [event.del_json_subsys (ascii "t1") (ascii "nqn1"),
         event.exec_delete del_op.subsys (ascii "http://10.0.0.9:22345/subsystem/nqn1")]) := by
  refine ⟨by decide, by decide, by decide, by decide, by decide, by decide, by decide, ?_⟩
  exact ⟨by decide, by decide, by decide, by decide, by decide, by decide⟩

/-! ### `del_host` -/

theorem del_acl_in_subsys_eq (K : Consts) (O : Oracle) (t : target) (hostnqn : CStr)
    (s : subsystem) (tr : List event) (hf : acl_fits K t hostnqn s = true) :
    del_acl_in_subsys K O t hostnqn s tr =
      some ({ s with host_list := s.host_list.eraseP (fun h => decide (h.nqn = hostnqn)) },
       tr ++ acl_events K t hostnqn s) := by
  unfold del_acl_in_subsys
  simp only [first_match_erase]
  rw [first_match_snd]
  unfold acl_fits at hf
  unfold acl_events
  unfold lookup_host at hf ⊢
  cases hfind : s.host_list.find? (fun h => decide (h.nqn = hostnqn)) with
  | none => simp
  | some h =>
    rw [hfind] at hf
    simp only [] at hf
    simp only [_del_acl]
    rw [send_del_of_fits O t del_op.acl (path_del_acl K s h) 0 tr hf]
    unfold dispatch_del
    cases t.mgmt_mode <;> simp [uri_del_acl]

theorem del_host_subsystems_eq (K : Consts) (O : Oracle) (t : target) (hostnqn : CStr)
    (ss : List subsystem) (tr : List event) (hf : ss.all (acl_fits K t hostnqn) = true) :
    del_host_subsystems K O t hostnqn ss tr =
      some (ss.map (fun s =>
          { s with host_list := s.host_list.eraseP (fun h => decide (h.nqn = hostnqn)) }),
       tr ++ subsys_acl_events K t hostnqn ss) := by
  induction ss generalizing tr with
  | nil => simp [del_host_subsystems, subsys_acl_events]
  | cons s ss ih =>
    rw [List.all_cons, Bool.and_eq_true] at hf
    simp [del_host_subsystems, subsys_acl_events, del_acl_in_subsys_eq K O t hostnqn s tr hf.1,
      ih _ hf.2]

theorem _del_host_eq (K : Consts) (O : Oracle) (t : target) (hostnqn : CStr)
    (tr : List event) (hf : oob_fits t (uri_del_host K t hostnqn) = true) :
    _del_host K O t hostnqn tr = some (tr ++ host_events K t hostnqn) := by
  unfold _del_host
  rw [send_del_of_fits O t del_op.host (path_del_host K hostnqn) 0 tr hf]
  unfold dispatch_del host_events
  cases t.mgmt_mode <;> simp [uri_del_host]

theorem del_host_targets_eq (K : Consts) (O : Oracle) (hostnqn : CStr) (tl : List target)
    (tr : List event) (hf : del_host_fits K hostnqn tl = true) :
    del_host_targets K O hostnqn tl tr =
      some (tl.map (fun t => { t with subsys_list := t.subsys_list.map (fun s =>
          { s with host_list := s.host_list.eraseP (fun h => decide (h.nqn = hostnqn)) }) }),
       tr ++ del_host_events K hostnqn tl) := by
  induction tl generalizing tr with
  | nil => simp [del_host_targets, del_host_events]
  | cons t ts ih =>
    unfold del_host_fits at hf ih
    rw [List.all_cons, Bool.and_eq_true, Bool.and_eq_true] at hf
    simp [del_host_targets, del_host_events, del_host_subsystems_eq K O t hostnqn _ _ hf.1.2,
      _del_host_eq K O t hostnqn _ hf.1.1, ih _ hf.2]

theorem eraseP_eq_filter_of_nodup (hostnqn : CStr) (l : List host)
    (hnd : (l.map host.nqn).Nodup) :
    l.eraseP (fun h => decide (h.nqn = hostnqn)) =
      l.filter (fun h => !decide (h.nqn = hostnqn)) := by
  induction l with
  | nil => rfl
  | cons x xs ih =>
    rw [List.map_cons, List.nodup_cons] at hnd
    by_cases hx : x.nqn = hostnqn
    · have hnot : ∀ y ∈ xs, y.nqn ≠ hostnqn := by
        intro y hy hyq
        exact hnd.1 (by rw [hx, ← hyq]; exact List.mem_map_of_mem _ hy)
      have hfil : xs.filter (fun h => !decide (h.nqn = hostnqn)) = xs := by
        rw [List.filter_eq_self]
        intro y hy
        simp [hnot y hy]
      simp [List.eraseP_cons, hx, hfil]
    · simp [List.eraseP_cons, hx, ih hnd.2]

theorem acl_events_not_store (K : Consts) (t : target) (hostnqn : CStr) (s : subsystem) :
    ∀ e ∈ acl_events K t hostnqn s, e.is_store = false ∧
      e.is_dispatch del_op.host = false := by
  intro e he
  unfold acl_events at he
  cases hl : lookup_host s hostnqn with
  | none => simp [hl] at he
  | some h =>
    cases hm : t.mgmt_mode <;> simp [hl, hm] at he <;> subst he <;>
      simp [event.is_store, event.is_dispatch]

theorem acl_events_count (K : Consts) (t : target) (hostnqn : CStr) (s : subsystem)
    (hm : t.mgmt_mode = mgmt_mode_t.IN_BAND_MGMT ∨
      t.mgmt_mode = mgmt_mode_t.OUT_OF_BAND_MGMT) :
    ((acl_events K t hostnqn s).filter (event.is_dispatch del_op.acl)).length =
      if has_host hostnqn s then 1 else 0 := by
  unfold acl_events lookup_host has_host
  cases hf : s.host_list.find? (fun h => decide (h.nqn = hostnqn)) with
  | none =>
    have : s.host_list.any (fun x => decide (x.nqn = hostnqn)) = false := by
      rw [List.find?_eq_none] at hf
      rw [List.any_eq_false]
      intro x hx
      simpa using hf x hx
    simp [this]
  | some h =>
    have : s.host_list.any (fun x => decide (x.nqn = hostnqn)) = true := by
      rw [List.any_eq_true]
      exact ⟨h, List.mem_of_find?_eq_some hf,
        List.find?_some (p := fun x : host => decide (x.nqn = hostnqn)) hf⟩
    rcases hm with hm | hm <;> simp [hm, this, event.is_dispatch]

theorem subsys_acl_events_facts (K : Consts) (t : target) (hostnqn : CStr)
    (hm : t.mgmt_mode = mgmt_mode_t.IN_BAND_MGMT ∨
      t.mgmt_mode = mgmt_mode_t.OUT_OF_BAND_MGMT) (ss : List subsystem) :
    (∀ e ∈ subsys_acl_events K t hostnqn ss, e.is_store = false ∧
      e.is_dispatch del_op.host = false) ∧
    ((subsys_acl_events K t hostnqn ss).filter (event.is_dispatch del_op.acl)).length =
      (ss.filter (has_host hostnqn)).length := by
  induction ss with
  | nil => simp [subsys_acl_events]
  | cons s ss ih =>
    refine ⟨?_, ?_⟩
    · intro e he
      simp only [subsys_acl_events, List.mem_append] at he
      rcases he with he | he
      · exact acl_events_not_store K t hostnqn s e he
      · exact ih.1 e he
    · simp only [subsys_acl_events, List.filter_append, List.length_append, ih.2,
        acl_events_count K t hostnqn s hm, List.filter_cons]
      cases has_host hostnqn s
      · simp
      · simp
        omega

theorem host_events_facts (K : Consts) (t : target) (hostnqn : CStr)
    (hm : t.mgmt_mode = mgmt_mode_t.IN_BAND_MGMT ∨
      t.mgmt_mode = mgmt_mode_t.OUT_OF_BAND_MGMT) :
    (∀ e ∈ host_events K t hostnqn, e.is_store = false) ∧
    (host_events K t hostnqn).filter (event.is_dispatch del_op.acl) = [] ∧
    ((host_events K t hostnqn).filter (event.is_dispatch del_op.host)).length = 1 := by
  unfold host_events
  rcases hm with hm | hm <;> simp [hm, event.is_store, event.is_dispatch]

theorem del_host_events_facts (K : Consts) (hostnqn : CStr) (tl : List target)
    (hm : ∀ t ∈ tl, t.mgmt_mode = mgmt_mode_t.IN_BAND_MGMT ∨
      t.mgmt_mode = mgmt_mode_t.OUT_OF_BAND_MGMT) :
    (∀ e ∈ del_host_events K hostnqn tl, e.is_store = false) ∧
    ((del_host_events K hostnqn tl).filter (event.is_dispatch del_op.acl)).length =
      (tl.map (fun t => (t.subsys_list.filter (has_host hostnqn)).length)).sum ∧
    ((del_host_events K hostnqn tl).filter (event.is_dispatch del_op.host)).length =
      tl.length := by
  induction tl with
  | nil => simp [del_host_events]
  | cons t ts ih =>
    have hmt := hm t (List.mem_cons_self _ _)
    have iht := ih (fun x hx => hm x (List.mem_cons_of_mem _ hx))
    have hs := subsys_acl_events_facts K t hostnqn hmt t.subsys_list
    have hh := host_events_facts K t hostnqn hmt
    refine ⟨?_, ?_, ?_⟩
    · intro e he
      simp only [del_host_events, List.mem_append] at he
      rcases he with (he | he) | he
      · exact (hs.1 e he).1
      · exact hh.1 e he
      · exact iht.1 e he
    · simp only [del_host_events, List.filter_append, List.length_append, hs.2, hh.2.1,
        iht.2.1, List.map_cons, List.sum_cons, List.length_nil]
      omega
    · have h0 : (subsys_acl_events K t hostnqn t.subsys_list).filter
          (event.is_dispatch del_op.host) = [] := by
        rw [List.filter_eq_nil_iff]
        intro e he
        simp [(hs.1 e he).2]
      simp only [del_host_events, List.filter_append, List.length_append, h0, hh.2.2,
        iht.2.2, List.length_cons, List.length_nil]
      omega

/-- C7, amended: when the store accepts the deletion, every target is
in-band or out-of-band, no subsystem lists a host NQN twice and every URI
composed for an out-of-band target fits `uri[128]`, `del_host(h)` returns
`0`; the model afterwards is the model before with the records of NQN `h`
filtered out of every host list (every other record in place and in
order), so no subsystem contains `h`; and the trace is extended by the one
store call followed by remote calls only, among them one ACL-delete per
subsystem that contained `h` and one delete-host per target. -/
theorem del_host_cascade (K : Consts) (O : Oracle) (tl : List target) (hostnqn : CStr)
    (tr : List event)
    (hstore : O tr (event.del_json_host hostnqn) = 0)
    (hmode : ∀ t ∈ tl, t.mgmt_mode = mgmt_mode_t.IN_BAND_MGMT ∨
      t.mgmt_mode = mgmt_mode_t.OUT_OF_BAND_MGMT)
    (huniq : ∀ t ∈ tl, ∀ s ∈ t.subsys_list, (s.host_list.map host.nqn).Nodup)
    (hfit : del_host_fits K hostnqn tl = true) :
    ∃ tl1 tr1, del_host K O tl hostnqn tr = some (0, tl1, tr1) ∧
      tl1 = tl.map (fun t => { t with subsys_list := t.subsys_list.map (fun s =>
        { s with host_list :=
          s.host_list.filter (fun h => !decide (h.nqn = hostnqn)) }) }) ∧
      (∀ t ∈ tl1, ∀ s ∈ t.subsys_list, ∀ h ∈ s.host_list, h.nqn ≠ hostnqn) ∧
      ∃ rest, tr1 = tr ++ event.del_json_host hostnqn :: rest ∧
        (∀ e ∈ rest, e.is_store = false) ∧
        (rest.filter (event.is_dispatch del_op.acl)).length =
          (tl.map (fun t => (t.subsys_list.filter (has_host hostnqn)).length)).sum ∧
        (rest.filter (event.is_dispatch del_op.host)).length = tl.length := by
  have hmodel : tl.map (fun t : target => { t with subsys_list :=
        (t.subsys_list.map (fun s : subsystem =>
          { s with host_list :=
            (s.host_list.eraseP (fun h => decide (h.nqn = hostnqn))) })) }) =
      tl.map (fun t : target => { t with subsys_list :=
        (t.subsys_list.map (fun s : subsystem =>
          { s with host_list :=
            (s.host_list.filter (fun h => !decide (h.nqn = hostnqn))) })) }) := by
    apply List.map_congr_left
    intro t ht
    congr 1
    apply List.map_congr_left
    intro s hs
    rw [eraseP_eq_filter_of_nodup hostnqn s.host_list (huniq t ht s hs)]
  refine ⟨_, tr ++ event.del_json_host hostnqn :: del_host_events K hostnqn tl, ?_, rfl, ?_,
    del_host_events K hostnqn tl, rfl, del_host_events_facts K hostnqn tl hmode⟩
  · simp [del_host, hstore, del_host_targets_eq K O hostnqn tl _ hfit, hmodel]
  · intro t ht s hs h hh
    simp only [List.mem_map] at ht
    obtain ⟨t0, -, rfl⟩ := ht
    simp only [List.mem_map] at hs
    obtain ⟨s0, -, rfl⟩ := hs
    simp only [List.mem_filter] at hh
    simpa using hh.2

/-- C7 amended, at an out-of-band target with `h1` in two subsystems and
every remote call failing: the URIs fit, the result is `0`, two
ACL-deletes and one delete-host are dispatched and `h1` is gone. -/
theorem del_host_cascade_witness :
    failing_remote [] (event.del_json_host (ascii "h1")) = 0 ∧
    del_host_fits nvmeConsts (ascii "h1") [two_subsys_target] = true ∧
    ∃ tl1 tr1,
      del_host nvmeConsts failing_remote [two_subsys_target] (ascii "h1") [] =
        some (0, tl1, tr1) ∧
      (∀ t ∈ tl1, ∀ s ∈ t.subsys_list, ∀ h ∈ s.host_list, h.nqn ≠ ascii "h1") ∧
      ∃ rest, tr1 = [] ++ event.del_json_host (ascii "h1") :: rest ∧
        (rest.filter (event.is_dispatch del_op.acl)).length = 2 ∧
        (rest.filter (event.is_dispatch del_op.host)).length = 1 := by
  refine ⟨by decide, by decide, ?_⟩
  obtain ⟨tl1, tr1, h1, -, h3, rest, h4, -, h6, h7⟩ :=
    del_host_cascade nvmeConsts failing_remote [two_subsys_target] (ascii "h1") []
      (by decide) (by decide) (by decide) (by decide)
  exact ⟨tl1, tr1, h1, h3, rest, h4, h6.trans (by decide), h7⟩

/-- C7 as stated fails: the model satisfies the uniqueness invariants, the
store accepts, no URI is composed (the target is in-band), `del_host(h1)`
returns `0`, and in the model it leaves the subsystem that listed `h1`
twice still contains it. -/
theorem del_host_leaves_duplicate :
    uniqueness_invariants [dup_host_target] ∧
    accepting_all [] (event.del_json_host (ascii "h1")) = 0 ∧
    del_host nvmeConsts accepting_all [dup_host_target] (ascii "h1") [] =
      some (0,
        [{ dup_host_target with
            subsys_list := [{ nqn := ascii "nqn1", access := 0,
                              host_list := [{ nqn := ascii "h1" }], ns_list := [] }] }],
        [event.del_json_host (ascii "h1"), event.send_del_inb del_op.acl,
         event.send_del_inb del_op.host]) ∧
    ¬ (∀ t ∈ [{ dup_host_target with
            subsys_list := [{ nqn := ascii "nqn1", access := 0,
                              host_list := [{ nqn := ascii "h1" }], ns_list := [] }] }],
        ∀ s ∈ t.subsys_list, ∀ h ∈ s.host_list, h.nqn ≠ ascii "h1") := by
  decide

/-! ## Binary subsystem table: reading it back -/

theorem Mem.set_same (m : Mem) (a v : Nat) : (m.set a v) a = v := by
  simp [Mem.set]

theorem Mem.set_other (m : Mem) (a v i : Nat) (h : i ≠ a) : (m.set a v) i = m i := by
  simp [Mem.set, h]

/-- `strcpy` writes the cells `dst .. dst + strlen(s)` only. -/
theorem strcpy_frame (s : CStr) (m : Mem) (dst i : Nat)
    (h : i < dst ∨ dst + s.length < i) : strcpy m dst s i = m i := by
  induction s generalizing m dst with
  | nil =>
    simp only [strcpy, List.length_nil, Nat.add_zero] at h ⊢
    exact Mem.set_other _ _ _ _ (by omega)
  | cons c cs ih =>
    simp only [strcpy, List.length_cons] at h ⊢
    rw [ih _ _ (by omega)]
    exact Mem.set_other _ _ _ _ (by omega)

/-- A string copied to `dst` is read back from any buffer that agrees with
the copy on the cells the copy wrote, if it fits the field. -/
theorem read_cstr_strcpy (s : CStr) (m m' : Mem) (dst n : Nat)
    (hok : cstr_ok s) (hlen : s.length < n)
    (hagree : ∀ i, dst ≤ i → i ≤ dst + s.length → m' i = strcpy m dst s i) :
    read_cstr m' dst n = s := by
  induction s generalizing m dst n with
  | nil =>
    cases n with
    | zero => simp at hlen
    | succ n =>
      have h0 : m' dst = 0 := by
        rw [hagree dst (Nat.le_refl _) (by simp)]
        simp [strcpy, Mem.set_same]
      simp [read_cstr, h0]
  | cons c cs ih =>
    cases n with
    | zero => simp at hlen
    | succ n =>
      have hc : m' dst = c := by
        rw [hagree dst (Nat.le_refl _) (by simp)]
        simp only [strcpy]
        rw [strcpy_frame _ _ _ _ (by omega)]
        exact Mem.set_same _ _ _
      have hc0 : c ≠ 0 := Nat.pos_iff_ne_zero.mp (hok c (List.mem_cons_self _ _)).1
      have htail : read_cstr m' (dst + 1) n = cs := by
        apply ih (m.set dst c) (dst + 1) n
        · intro x hx
          exact hok x (List.mem_cons_of_mem _ hx)
        · simpa using hlen
        · intro i h1 h2
          have := hagree i (by omega) (by simp only [List.length_cons]; omega)
          simpa [strcpy] using this
      simp [read_cstr, hc, hc0, htail]

/-- The host loop writes at or after `hostnqn` only. -/
theorem write_hosts_frame (L : Layout) (hs : List host) (m : Mem) (q c i : Nat)
    (h : i < q) : (write_hosts L m q c hs).1 i = m i := by
  induction hs generalizing m q c with
  | nil => rfl
  | cons x xs ih =>
    simp only [write_hosts]
    rw [ih _ _ _ (by omega)]
    exact strcpy_frame _ _ _ _ (Or.inl h)

/-- The host fields written by the host loop are read back from any buffer
that agrees with the result on those fields. -/
theorem read_hosts_write_hosts (L : Layout) (hs : List host) (m m' : Mem) (q c : Nat)
    (hfit : ∀ h ∈ hs, cstr_ok h.nqn ∧ h.nqn.length < L.NVMF_NQN_FIELD_LEN)
    (hagree : ∀ i, q ≤ i → i < q + hs.length * L.NVMF_NQN_FIELD_LEN →
      m' i = (write_hosts L m q c hs).1 i) :
    read_hosts L m' q hs.length = hs.map host.nqn := by
  induction hs generalizing m q c with
  | nil => rfl
  | cons x xs ih =>
    have hx := hfit x (List.mem_cons_self _ _)
    have hmul : q + (xs.length + 1) * L.NVMF_NQN_FIELD_LEN =
        q + L.NVMF_NQN_FIELD_LEN + xs.length * L.NVMF_NQN_FIELD_LEN := by
      rw [Nat.add_mul]; omega
    simp only [List.length_cons] at hagree
    have hhead : read_cstr m' q L.NVMF_NQN_FIELD_LEN = x.nqn := by
      apply read_cstr_strcpy x.nqn m m' q _ hx.1 hx.2
      intro i h1 h2
      rw [hagree i h1 (by rw [hmul]; omega)]
      simp only [write_hosts]
      exact write_hosts_frame _ _ _ _ _ _ (by omega)
    have htail : read_hosts L m' (q + L.NVMF_NQN_FIELD_LEN) xs.length = xs.map host.nqn := by
      apply ih (strcpy m q x.nqn) (q + L.NVMF_NQN_FIELD_LEN) (c + 1)
      · intro h hh
        exact hfit h (List.mem_cons_of_mem _ hh)
      · intro i h1 h2
        have := hagree i (by omega) (by rw [hmul]; exact h2)
        simpa [write_hosts] using this
    simp [read_hosts, hhead, htail]

/-- One round of the write pass, with the cursor made explicit. -/
theorem write_subsys_cons (L : Layout) (m : Mem) (p : Nat) (s : subsystem)
    (ss : List subsystem) :
    write_subsys L m p (s :: ss) =
      write_subsys L
        ((write_hosts L
            (strcpy ((m.set (p + L.se_status) 0).set (p + L.se_allowallhosts)
              (s.access % L.num_mod)) (p + L.se_subnqn) s.nqn)
            (p + L.se_data) 0 s.host_list).1.set (p + L.se_numhosts)
              (s.host_list.length % L.num_mod))
        (p + L.se_data + s.host_list.length * L.NVMF_NQN_FIELD_LEN) ss := by
  simp [write_subsys, write_hosts_cursor]

/-- The write pass writes at or after `entry` only. -/
theorem write_subsys_frame (L : Layout) (ss : List subsystem) (m : Mem) (p i : Nat)
    (h : i < p) : (write_subsys L m p ss).1 i = m i := by
  induction ss generalizing m p with
  | nil => rfl
  | cons s ss ih =>
    rw [write_subsys_cons, ih _ _ (by omega)]
    rw [Mem.set_other _ _ _ _ (by omega), write_hosts_frame _ _ _ _ _ _ (by omega),
      strcpy_frame _ _ _ _ (Or.inl (by omega)), Mem.set_other _ _ _ _ (by omega),
      Mem.set_other _ _ _ _ (by omega)]

/-- The entries written by the write pass are read back from any buffer
that agrees with the result from `entry` on. -/
theorem read_entries_write_subsys (L : Layout) (hL : L.wf) (ss : List subsystem)
    (m m' : Mem) (p : Nat)
    (hfit : ∀ s ∈ ss, subsys_fits L s)
    (hagree : ∀ i, p ≤ i → m' i = (write_subsys L m p ss).1 i) :
    read_entries L m' p ss.length = ss.map subsys_record_of := by
  obtain ⟨hmod, hnqn, -, -, -, hst, hal, hnh, hsub, hsa, hsn, han, hst', hal', hnh'⟩ := hL
  induction ss generalizing m p with
  | nil => rfl
  | cons s ss ih =>
    obtain ⟨hok, hlen, hacc, hcnt, hhosts⟩ := hfit s (List.mem_cons_self _ _)
    rw [write_subsys_cons] at hagree
    -- the cells of this entry, as the rest of the pass leaves them
    have hcell : ∀ i, p ≤ i →
        i < p + L.se_data + s.host_list.length * L.NVMF_NQN_FIELD_LEN →
        m' i = ((write_hosts L
            (strcpy ((m.set (p + L.se_status) 0).set (p + L.se_allowallhosts)
              (s.access % L.num_mod)) (p + L.se_subnqn) s.nqn)
            (p + L.se_data) 0 s.host_list).1.set (p + L.se_numhosts)
              (s.host_list.length % L.num_mod)) i := by
      intro i h1 h2
      rw [hagree i h1, write_subsys_frame _ _ _ _ _ h2]
    have hk : m' (p + L.se_numhosts) = s.host_list.length := by
      rw [hcell _ (by omega) (by omega), Mem.set_same, Nat.mod_eq_of_lt hcnt]
    have hstatus : m' (p + L.se_status) = 0 := by
      rw [hcell _ (by omega) (by omega), Mem.set_other _ _ _ _ (by omega),
        write_hosts_frame _ _ _ _ _ _ (by omega),
        strcpy_frame _ _ _ _ (by omega), Mem.set_other _ _ _ _ (by omega), Mem.set_same]
    have hallow : m' (p + L.se_allowallhosts) = s.access := by
      rw [hcell _ (by omega) (by omega), Mem.set_other _ _ _ _ (by omega),
        write_hosts_frame _ _ _ _ _ _ (by omega),
        strcpy_frame _ _ _ _ (by omega), Mem.set_same, Nat.mod_eq_of_lt hacc]
    have hsubnqn : read_cstr m' (p + L.se_subnqn) L.NVMF_NQN_FIELD_LEN = s.nqn := by
      apply read_cstr_strcpy s.nqn _ m' _ _ hok hlen
      intro i h1 h2
      rw [hcell i (by omega) (by omega), Mem.set_other _ _ _ _ (by omega),
        write_hosts_frame _ _ _ _ _ _ (by omega)]
    have hhostsr : read_hosts L m' (p + L.se_data) s.host_list.length =
        s.host_list.map host.nqn := by
      apply read_hosts_write_hosts L s.host_list _ m' _ 0 hhosts
      intro i h1 h2
      rw [hcell i (by omega) (by omega), Mem.set_other _ _ _ _ (by omega)]
    have hrest : read_entries L m'
        (p + L.se_data + s.host_list.length * L.NVMF_NQN_FIELD_LEN) ss.length =
        ss.map subsys_record_of := by
      apply ih _ _ (fun x hx => hfit x (List.mem_cons_of_mem _ hx))
      intro i h1
      exact hagree i (by omega)
    simp [read_entries, hk, hstatus, hallow, hsubnqn, hhostsr, hrest, subsys_record_of]

/-- C3, amended: for a well-formed layout, a target with fewer subsystems
than the header's count member can hold, each subsystem with an access
flag and a number of hosts that fit their members and with NQNs (its own
and its hosts') that are C strings shorter than `NVMF_NQN_FIELD_LEN`:
whatever the fresh buffer held, decoding the page built by
`build_set_subsys_inb` recovers, in list order, for every subsystem status
`0`, the access flag, the NQN and the host NQNs in order. -/
theorem decode_build_set_subsys_inb (L : Layout) (hL : L.wf) (m0 : Mem) (t : target)
    (hcount : t.subsys_list.length < L.num_mod)
    (hfit : ∀ s ∈ t.subsys_list, subsys_fits L s) :
    ∃ m, (build_set_subsys_inb L (some m0) t).page = some m ∧
      decode_subsys_page L m = t.subsys_list.map subsys_record_of := by
  refine ⟨_, rfl, ?_⟩
  have hlt : L.sh_num_entries < L.sh_data := hL.2.2.2.1
  simp only [decode_subsys_page, len_subsys_eq, Nat.zero_add]
  rw [write_subsys_frame _ _ _ _ _ hlt, Mem.set_same, Nat.mod_eq_of_lt hcount]
  exact read_entries_write_subsys L hL _ _ _ _ hfit (fun i _ => rfl)

/-- C3 amended, at the byte-wide layout, a buffer of junk and a target with
two subsystems, the first with two hosts. -/
theorem decode_build_set_subsys_inb_witness :
    nvmeLayout.wf ∧ two_subsys_inb_target.subsys_list.length < nvmeLayout.num_mod ∧
    ∃ m, (build_set_subsys_inb nvmeLayout (some junk_mem) two_subsys_inb_target).page =
        some m ∧
      decode_subsys_page nvmeLayout m =
        [{ status := 0, allowallhosts := 1, subnqn := ascii "nqn1",
           hosts := [ascii "h1", ascii "h2"] },
         { status := 0, allowallhosts := 0, subnqn := ascii "nqn2", hosts := [] }] :=
  ⟨by decide, by decide,
   decode_build_set_subsys_inb nvmeLayout (by decide) junk_mem two_subsys_inb_target
     (by decide) (by decide)⟩

set_option maxRecDepth 100000 in
/-- C3 as stated fails for byte-wide count members: every NQN of
`crowded_target` is a C string shorter than `NVMF_NQN_FIELD_LEN`, yet the
subsystem's 256 hosts are counted as `256 mod 256 = 0` in `numhosts`, and
the decoder recovers a subsystem without hosts. -/
theorem decode_crowded_subsys :
    (∀ s ∈ crowded_target.subsys_list,
      cstr_ok s.nqn ∧ s.nqn.length < nvmeLayout.NVMF_NQN_FIELD_LEN ∧
      ∀ h ∈ s.host_list, cstr_ok h.nqn ∧ h.nqn.length < nvmeLayout.NVMF_NQN_FIELD_LEN) ∧
    ¬ (∃ m, (build_set_subsys_inb nvmeLayout (some junk_mem) crowded_target).page = some m ∧
        decode_subsys_page nvmeLayout m = crowded_target.subsys_list.map subsys_record_of) := by
  refine ⟨by decide, ?_⟩
  rintro ⟨m, hm, hdec⟩
  have hpage : (build_set_subsys_inb nvmeLayout (some junk_mem) crowded_target).page =
      some (write_subsys nvmeLayout (junk_mem.set 0 1) 1 [crowded_subsys]).1 := rfl
  rw [hpage] at hm
  cases hm
  have hlen := congrArg (fun l => l.map (fun r => r.hosts.length)) hdec
  revert hlen
  decide

/-! ## Transport reconciliation: when the scan of one entry stops -/

/-- On an exact match the body of the inner loop leaves through `goto
found` exactly when the reported address family differs from
`NVMF_TRTYPE_RDMA`; the matched transport type plays no part. -/
theorem xport_body_exact_match (K : Consts) (hK : K.wf) (x : transports_rsp_page_entry)
    (p : port_id) (rf : Bool) (h1 : xport_rule1 K x p = true) :
    (xport_body K x p rf).2.2 = !decide (x.adrfam = K.NVMF_TRTYPE_RDMA) := by
  have hne : K.NVMF_TRTYPE_RDMA ≠ K.NVMF_TRTYPE_TCP := hK.1.2.1
  have h2 : xport_rule2 K x p = false := by
    simp only [xport_rule1, Bool.and_eq_true, decide_eq_true_eq] at h1
    simp only [xport_rule2, Bool.and_eq_false_iff, decide_eq_false_iff_not]
    by_cases hx : x.trtype = K.NVMF_TRTYPE_RDMA
    · right; right
      intro ht
      exact hne (by rw [← hx, h1.2, ht])
    · right; left; exact hx
  by_cases ha : x.adrfam = K.NVMF_TRTYPE_RDMA <;> simp [xport_body, h1, h2, ha]

/-- C11 on the code, with the NVMe-over-Fabrics codes (IPv4 and RDMA are
both `1`): a reported TCP/IPv4 entry that exactly matches the first of two
configured TCP ports does not stop the scan, the second port is confirmed
as well; a reported RDMA/IPv6 entry that exactly matches the first of two
configured RDMA ports stops the scan, the second port is not looked at. -/
theorem scan_continues_on_address_family :
    scan_port_ids nvmeConsts tcp_ipv4_entry false [tcp_port, tcp_port2] =
      ([{ tcp_port with valid := true }, { tcp_port2 with valid := true }], true, false) ∧
    scan_port_ids nvmeConsts rdma_ipv6_entry false [rdma6_port 1, rdma6_port 2] =
      ([{ rdma6_port 1 with valid := true }, rdma6_port 2], false, true) := by
  decide

/-! ## Device reconciliation: the label of a missing device -/

/-- C16 on the code: the `nullb0` test of the "Nsdev not on" diagnostic
reads the entry cursor of the finished scan, one past the last reported
entry.  With the same one-entry report, the configured device (255, 0) is
labelled by its ids when a zero follows the report, and the configured
device (3, 1) is labelled `nullb0` when a 255 follows it. -/
theorem missing_nsdev_label_reads_past_report :
    (get_inb_nsdevs nullb0_target 0 (one_nsdev_page { dev_id := 0, ns_id := 0 })).2.2 =
      [diag.new_nsdev (ascii "t1") 1 1, diag.nsdev_not_on (ascii "t1") 255 0] ∧
    (get_inb_nsdevs dev3_target 0 (one_nsdev_page { dev_id := 255, ns_id := 0 })).2.2 =
      [diag.new_nsdev (ascii "t1") 1 1, diag.nsdev_not_on_nullb0 (ascii "t1")] ∧
    (get_inb_nsdevs dev3_target 0 (one_nsdev_page { dev_id := 0, ns_id := 0 })).2.2 =
      [diag.new_nsdev (ascii "t1") 1 1, diag.nsdev_not_on (ascii "t1") 3 1] := by
  decide


/-! ## The reconciliation passes write the `valid` flags only -/

theorem clear_nsdev_valid_match (e : ns_devices_rsp_page_entry) (ds : List nsdev) :
    clear_nsdev_valid (match_nsdev e ds).1 = clear_nsdev_valid ds := by
  induction ds with
  | nil => rfl
  | cons d ds ih =>
    by_cases h : d.nsdev = e.dev_id ∧ d.nsid = e.ns_id
    · simp [match_nsdev, h, clear_nsdev_valid]
    · simp [match_nsdev, h, clear_nsdev_valid, ih]

theorem clear_nsdev_valid_scan (al : CStr) (data : Nat → ns_devices_rsp_page_entry)
    (n idx : Nat) (ds : List nsdev) (log : List diag) :
    clear_nsdev_valid (scan_nsdevs al data idx n ds log).1 = clear_nsdev_valid ds := by
  induction n generalizing idx ds log with
  | zero => rfl
  | succ n ih => simp only [scan_nsdevs]; rw [ih, clear_nsdev_valid_match]

theorem clear_nsdev_valid_idem (ds : List nsdev) :
    clear_nsdev_valid (clear_nsdev_valid ds) = clear_nsdev_valid ds := by
  induction ds with
  | nil => rfl
  | cons d ds ih => simp [clear_nsdev_valid, ih]

theorem xport_body_clear (K : Consts) (x : transports_rsp_page_entry) (p : port_id)
    (rf : Bool) : { (xport_body K x p rf).1 with valid := false } = { p with valid := false } := by
  unfold xport_body
  cases xport_rule1 K x p <;> cases xport_rule2 K x p <;> cases rf <;>
    by_cases ha : x.adrfam = K.NVMF_TRTYPE_RDMA <;> simp [ha]

theorem clear_port_valid_scan_port_ids (K : Consts) (x : transports_rsp_page_entry)
    (ps : List port_id) (rf : Bool) :
    clear_port_valid (scan_port_ids K x rf ps).1 = clear_port_valid ps := by
  induction ps generalizing rf with
  | nil => rfl
  | cons p ps ih =>
    simp only [scan_port_ids]
    split
    · simp only [clear_port_valid, xport_body_clear]
    · simp only [clear_port_valid, xport_body_clear, ih]

theorem clear_port_valid_scan_xports (K : Consts) (al : CStr)
    (data : Nat → transports_rsp_page_entry) (n idx : Nat) (ps : List port_id)
    (log : List diag) :
    clear_port_valid (scan_xports K al data idx n ps log).1 = clear_port_valid ps := by
  induction n generalizing idx ps log with
  | zero => rfl
  | succ n ih =>
    simp only [scan_xports]
    rw [ih]
    exact clear_port_valid_scan_port_ids K _ _ _

theorem clear_port_valid_idem (ps : List port_id) :
    clear_port_valid (clear_port_valid ps) = clear_port_valid ps := by
  induction ps with
  | nil => rfl
  | cons p ps ih => simp [clear_port_valid, ih]

/-- C17: for every target, fetch result and response page, the target
after `get_inb_nsdevs` has the alias, mode, interface, `port_id`s and
subsystems it had, and its device list is the old one up to the `valid`
flags; the target after `get_inb_xports` has the alias, mode, interface,
subsystems and devices it had, and its `port_id` list is the old one up to
the `valid` flags; and when the fetch fails or the report has no entry the
target is left exactly as it was. -/
theorem reconciliation_writes_valid_only (K : Consts) (t : target) (ret : Int)
    (npage : ns_devices_rsp_page) (xpage : transports_rsp_page) :
    ((get_inb_nsdevs t ret npage).2.1.alias_ = t.alias_ ∧
      (get_inb_nsdevs t ret npage).2.1.mgmt_mode = t.mgmt_mode ∧
      (get_inb_nsdevs t ret npage).2.1.oob_iface = t.oob_iface ∧
      (get_inb_nsdevs t ret npage).2.1.portid_list = t.portid_list ∧
      (get_inb_nsdevs t ret npage).2.1.subsys_list = t.subsys_list ∧
      clear_nsdev_valid (get_inb_nsdevs t ret npage).2.1.device_list =
        clear_nsdev_valid t.device_list) ∧
    ((get_inb_xports K t ret xpage).2.1.alias_ = t.alias_ ∧
      (get_inb_xports K t ret xpage).2.1.mgmt_mode = t.mgmt_mode ∧
      (get_inb_xports K t ret xpage).2.1.oob_iface = t.oob_iface ∧
      (get_inb_xports K t ret xpage).2.1.device_list = t.device_list ∧
      (get_inb_xports K t ret xpage).2.1.subsys_list = t.subsys_list ∧
      clear_port_valid (get_inb_xports K t ret xpage).2.1.portid_list =
        clear_port_valid t.portid_list) ∧
    (ret ≠ 0 ∨ npage.num_entries = 0 → (get_inb_nsdevs t ret npage).2.1 = t) ∧
    (ret ≠ 0 ∨ xpage.num_entries = 0 → (get_inb_xports K t ret xpage).2.1 = t) := by
  refine ⟨?_, ?_, ?_, ?_⟩
  · unfold get_inb_nsdevs
    by_cases hr : ret ≠ 0
    · simp [hr]
    · by_cases hn : npage.num_entries = 0
      · simp [hr, hn]
      · simp only [hr, hn, if_false]
        refine ⟨by trivial, by trivial, by trivial, by trivial, by trivial, ?_⟩
        rw [clear_nsdev_valid_scan, clear_nsdev_valid_idem]
  · unfold get_inb_xports
    by_cases hr : ret ≠ 0
    · simp [hr]
    · by_cases hn : xpage.num_entries = 0
      · simp [hr, hn]
      · simp only [hr, hn, if_false]
        refine ⟨by trivial, by trivial, by trivial, by trivial, by trivial, ?_⟩
        rw [clear_port_valid_scan_xports, clear_port_valid_idem]
  · intro h
    unfold get_inb_nsdevs
    by_cases hr : ret ≠ 0
    · simp [hr]
    · rcases h with h | h
      · exact absurd h hr
      · simp [hr, h]
  · intro h
    unfold get_inb_xports
    by_cases hr : ret ≠ 0
    · simp [hr]
    · rcases h with h | h
      · exact absurd h hr
      · simp [hr, h]

/-- C17 at the report of an RDMA and a TCP entry for the target with one
TCP port, and at a failed fetch. -/
theorem reconciliation_writes_valid_only_witness :
    clear_port_valid (get_inb_xports nvmeConsts tcp_target 0 rdma_tcp_page).2.1.portid_list =
      clear_port_valid tcp_target.portid_list ∧
    (get_inb_nsdevs nullb0_target (-5) empty_nsdev_page).2.1 = nullb0_target :=
  ⟨(reconciliation_writes_valid_only nvmeConsts tcp_target 0 empty_nsdev_page
      rdma_tcp_page).2.1.2.2.2.2.2,
   (reconciliation_writes_valid_only nvmeConsts nullb0_target (-5) empty_nsdev_page
      rdma_tcp_page).2.2.1 (Or.inl (by decide))⟩


/-! ## Device reconciliation: which devices are confirmed -/

theorem nsdev_hit_set_valid (e : ns_devices_rsp_page_entry) (d : nsdev) (b : Bool) :
    nsdev_hit e { d with valid := b } = nsdev_hit e d := rfl

/-- With pairwise distinct id pairs the inner loop marks every device that
has the ids of the entry (there is at most one). -/
theorem match_nsdev_nodup (e : ns_devices_rsp_page_entry) (ds : List nsdev)
    (hd : (ds.map (fun d => (d.nsdev, d.nsid))).Nodup) :
    match_nsdev e ds =
      (ds.map (fun d => { d with valid := d.valid || nsdev_hit e d }),
       ds.any (nsdev_hit e)) := by
  induction ds with
  | nil => rfl
  | cons d ds ih =>
    rw [List.map_cons, List.nodup_cons] at hd
    by_cases h : d.nsdev = e.dev_id ∧ d.nsid = e.ns_id
    · have hrest : ∀ y ∈ ds, nsdev_hit e y = false := by
        intro y hy
        simp only [nsdev_hit, decide_eq_false_iff_not]
        intro hyq
        apply hd.1
        rw [List.mem_map]
        exact ⟨y, hy, by rw [hyq.1, hyq.2, h.1, h.2]⟩
      have hmap : ds.map (fun d => { d with valid := d.valid || nsdev_hit e d }) = ds := by
        conv_rhs => rw [← List.map_id ds]
        apply List.map_congr_left
        intro y hy
        simp [hrest y hy]
      have hh : nsdev_hit e d = true := by simp [nsdev_hit, h]
      simp [match_nsdev, h, hmap, hh]
    · have hh : nsdev_hit e d = false := by simp [nsdev_hit, h]
      simp [match_nsdev, h, ih hd.2, hh]

theorem scan_nsdevs_nodup (al : CStr) (data : Nat → ns_devices_rsp_page_entry) (n idx : Nat)
    (ds : List nsdev) (log : List diag)
    (hd : (ds.map (fun d => (d.nsdev, d.nsid))).Nodup) :
    scan_nsdevs al data idx n ds log =
      (ds.map (fun d => { d with valid :=
          (d.valid || (List.range' idx n).any (fun i => nsdev_hit (data i) d)) }),
       log ++ ((List.range' idx n).filter
          (fun i => ds.all (fun d => !nsdev_hit (data i) d))).map
            (fun i => new_nsdev_diag al (data i))) := by
  induction n generalizing idx ds log with
  | zero => simp [scan_nsdevs]
  | succ n ih =>
    have hkeys : ((ds.map (fun d => { d with valid := d.valid || nsdev_hit (data idx) d })).map
        (fun d => (d.nsdev, d.nsid))) = ds.map (fun d => (d.nsdev, d.nsid)) := by
      simp [List.map_map, Function.comp_def]
    simp only [scan_nsdevs, match_nsdev_nodup _ _ hd]
    rw [ih _ _ _ (by rw [hkeys]; exact hd)]
    have hall : ∀ i,
        (ds.map (fun d => { d with valid := (d.valid || nsdev_hit (data idx) d) })).all
          (fun d => !nsdev_hit (data i) d) =
        ds.all (fun d => !nsdev_hit (data i) d) := by
      intro i
      simp [List.all_map, Function.comp_def, nsdev_hit_set_valid]
    simp only [hall, List.map_map, Function.comp_def, nsdev_hit_set_valid,
      List.range'_succ, List.any_cons, List.filter_cons]
    refine Prod.ext ?_ ?_
    · apply List.map_congr_left
      intro d _
      simp [Bool.or_assoc]
    · by_cases hf : ds.any (nsdev_hit (data idx)) = true
      · have hna : ds.all (fun d => !nsdev_hit (data idx) d) = false := by
          rw [List.any_eq_true] at hf
          obtain ⟨y, hy, hyh⟩ := hf
          rw [List.all_eq_false]
          exact ⟨y, hy, by simp [hyh]⟩
        simp [hf, hna]
      · have hna : ds.all (fun d => !nsdev_hit (data idx) d) = true := by
          rw [List.all_eq_true]
          intro y hy
          rw [List.any_eq_true] at hf
          cases hyh : nsdev_hit (data idx) y
          · rfl
          · exact absurd ⟨y, hy, hyh⟩ hf
        simp [hf, hna]

theorem clear_nsdev_valid_eq_map (ds : List nsdev) :
    clear_nsdev_valid ds = ds.map (fun d => { d with valid := false }) := by
  induction ds with
  | nil => rfl
  | cons d ds ih => simp [clear_nsdev_valid, ih]

/-- C13: for a successful fetch with a non-empty report and configured
devices with pairwise distinct (device id, namespace id) pairs, after
`get_inb_nsdevs` every configured device is in place with `valid` set if
and only if some reported entry has its device id and namespace id; and
the diagnostics are one "New nsdev" per reported entry that matches no
configured device, in report order, labelled `nullb0` when the reported
device id is 255 and by the reported ids otherwise, followed by what the
last loop prints. -/
theorem get_inb_nsdevs_confirms_reported (t : target) (page : ns_devices_rsp_page)
    (hn : page.num_entries ≠ 0)
    (hd : (t.device_list.map (fun d => (d.nsdev, d.nsid))).Nodup) :
    (get_inb_nsdevs t 0 page).2.1.device_list =
      t.device_list.map (fun d => { d with valid := nsdev_reported page d }) ∧
    (∀ d ∈ (get_inb_nsdevs t 0 page).2.1.device_list,
      d.valid = true ↔
        ∃ i, i < page.num_entries ∧ (page.data i).dev_id = d.nsdev ∧
          (page.data i).ns_id = d.nsid) ∧
    (get_inb_nsdevs t 0 page).2.2 =
      (unknown_nsdevs page t.device_list).map (fun i =>
        if (page.data i).dev_id = 255 then diag.new_nsdev_nullb0 t.alias_
        else diag.new_nsdev t.alias_ (page.data i).dev_id (page.data i).ns_id) ++
      missing_nsdevs t.alias_ (page.data page.num_entries)
        (get_inb_nsdevs t 0 page).2.1.device_list := by
  have hkeys : ((clear_nsdev_valid t.device_list).map (fun d => (d.nsdev, d.nsid))) =
      t.device_list.map (fun d => (d.nsdev, d.nsid)) := by
    simp [clear_nsdev_valid_eq_map, List.map_map, Function.comp_def]
  have hscan := scan_nsdevs_nodup t.alias_ page.data page.num_entries 0
    (clear_nsdev_valid t.device_list) [] (by rw [hkeys]; exact hd)
  have hlist : (get_inb_nsdevs t 0 page).2.1.device_list =
      t.device_list.map (fun d => { d with valid := nsdev_reported page d }) := by
    simp only [get_inb_nsdevs, hn, ne_eq, not_true_eq_false, if_false, hscan]
    simp [clear_nsdev_valid_eq_map, List.map_map, Function.comp_def, nsdev_reported,
      List.range_eq_range', nsdev_hit]
  refine ⟨hlist, ?_, ?_⟩
  · rw [hlist]
    intro d hdm
    rw [List.mem_map] at hdm
    obtain ⟨d0, -, rfl⟩ := hdm
    simp only [nsdev_reported, nsdev_hit, List.any_eq_true, List.mem_range,
      decide_eq_true_eq]
    constructor
    · rintro ⟨i, hi, h1, h2⟩
      exact ⟨i, hi, h1.symm, h2.symm⟩
    · rintro ⟨i, hi, h1, h2⟩
      exact ⟨i, hi, h1.symm, h2.symm⟩
  · simp only [get_inb_nsdevs, hn, ne_eq, not_true_eq_false, if_false, hscan]
    simp [clear_nsdev_valid_eq_map, List.all_map, Function.comp_def, unknown_nsdevs,
      List.range_eq_range', nsdev_hit, new_nsdev_diag]

/-- C13 at a report of three entries for the configured devices (3, 1) and
(4, 1): (3, 1) is confirmed, (4, 1) is not, and the entries (255, 0) and
(7, 1) are new. -/
theorem get_inb_nsdevs_confirms_reported_witness :
    three_nsdev_page.num_entries ≠ 0 ∧
    (get_inb_nsdevs two_dev_target 0 three_nsdev_page).2.1.device_list =
      [{ nsdev := 3, nsid := 1, valid := true }, { nsdev := 4, nsid := 1, valid := false }] ∧
    (get_inb_nsdevs two_dev_target 0 three_nsdev_page).2.2 =
      [diag.new_nsdev_nullb0 (ascii "t1"), diag.new_nsdev (ascii "t1") 7 1,
       diag.nsdev_not_on (ascii "t1") 4 1] :=
  ⟨by decide,
   (get_inb_nsdevs_confirms_reported two_dev_target three_nsdev_page (by decide)
      (by decide)).1.trans (by decide),
   by decide⟩


/-! ## Transport reconciliation: which diagnostics are printed -/

theorem xport_match_set_valid (K : Consts) (x : transports_rsp_page_entry) (p : port_id)
    (b : Bool) : xport_match K x { p with valid := b } = xport_match K x p := rfl

theorem xport_body_set_valid (K : Consts) (x : transports_rsp_page_entry) (p : port_id)
    (rf : Bool) :
    (xport_body K x p rf).2 = (xport_body K x { p with valid := false } rf).2 ∧
    (xport_body K x p rf).1.valid =
      (p.valid || (xport_body K x { p with valid := false } rf).1.valid) := by
  have e1 : xport_rule1 K x { p with valid := false } = xport_rule1 K x p := rfl
  have e2 : xport_rule2 K x { p with valid := false } = xport_rule2 K x p := rfl
  unfold xport_body
  rw [e1, e2]
  cases xport_rule1 K x p <;> cases xport_rule2 K x p <;> cases rf <;>
    by_cases ha : x.adrfam = K.NVMF_TRTYPE_RDMA <;> simp [ha]

theorem clear_port_valid_flags (ps : List port_id) (j : Nat) :
    ((clear_port_valid ps).map port_id.valid).getD j false = false := by
  induction ps generalizing j with
  | nil => simp [clear_port_valid]
  | cons p ps ih =>
    cases j with
    | zero => simp [clear_port_valid]
    | succ j => simpa [clear_port_valid] using ih j

/-- The inner loop reads no `valid` flag: its two results are those of the
run on the cleared list, and the flags it leaves are the old flags or-ed
with those the run on the cleared list sets. -/
theorem scan_port_ids_flags (K : Consts) (x : transports_rsp_page_entry) (ps : List port_id)
    (rf : Bool) :
    (scan_port_ids K x rf ps).2 = (scan_port_ids K x rf (clear_port_valid ps)).2 ∧
    ∀ j, ((scan_port_ids K x rf ps).1.map port_id.valid).getD j false =
      ((ps.map port_id.valid).getD j false ||
        ((scan_port_ids K x rf (clear_port_valid ps)).1.map port_id.valid).getD j false) := by
  induction ps generalizing rf with
  | nil => simp [scan_port_ids, clear_port_valid]
  | cons p ps ih =>
    have hb := xport_body_set_valid K x p rf
    simp only [scan_port_ids, clear_port_valid]
    rw [← hb.1]
    cases hf : (xport_body K x p rf).2.2
    · simp only [Bool.false_eq_true, if_false]
      refine ⟨?_, ?_⟩
      · rw [(ih _).1]
      · intro j
        cases j with
        | zero => simp [hb.2]
        | succ j => simpa using (ih _).2 j
    · simp only [if_true]
      refine ⟨by trivial, ?_⟩
      intro j
      cases j with
      | zero => simp [hb.2]
      | succ j =>
        simp only [List.map_cons, List.getD_cons_succ]
        rw [clear_port_valid_flags]
        simp

/-- The "New transport" test after the inner loop is that `rdma_found` was
clear at the start and no list member matches under either rule. -/
theorem scan_port_ids_no_match (K : Consts) (x : transports_rsp_page_entry)
    (ps : List port_id) (rf : Bool) :
    (!(scan_port_ids K x rf ps).2.2 && !(scan_port_ids K x rf ps).2.1) =
      (!rf && ps.all (fun p => !xport_match K x p)) := by
  induction ps generalizing rf with
  | nil => simp [scan_port_ids]
  | cons p ps ih =>
    simp only [scan_port_ids, List.all_cons, xport_match]
    unfold xport_body
    cases h1 : xport_rule1 K x p <;> cases h2 : xport_rule2 K x p <;> cases rf <;>
      by_cases ha : x.adrfam = K.NVMF_TRTYPE_RDMA <;> simp [ha, ih, xport_match]

theorem all_no_match_clear (K : Consts) (x : transports_rsp_page_entry) (ps : List port_id) :
    (clear_port_valid ps).all (fun p => !xport_match K x p) =
      ps.all (fun p => !xport_match K x p) := by
  induction ps with
  | nil => rfl
  | cons p ps ih => simp [clear_port_valid, xport_match_set_valid, ih]

theorem all_no_match_of_clear_eq (K : Consts) (x : transports_rsp_page_entry)
    (ps qs : List port_id) (h : clear_port_valid ps = clear_port_valid qs) :
    ps.all (fun p => !xport_match K x p) = qs.all (fun p => !xport_match K x p) := by
  rw [← all_no_match_clear K x ps, ← all_no_match_clear K x qs, h]

theorem confirmed_by_of_clear_eq (K : Consts) (x : transports_rsp_page_entry)
    (ps qs : List port_id) (h : clear_port_valid ps = clear_port_valid qs) :
    confirmed_by K x ps = confirmed_by K x qs := by
  unfold confirmed_by
  rw [h]

theorem scan_xports_log (K : Consts) (al : CStr) (data : Nat → transports_rsp_page_entry)
    (n idx : Nat) (ps : List port_id) (log : List diag) :
    (scan_xports K al data idx n ps log).2 =
      log ++ ((List.range' idx n).filter
          (fun i => ps.all (fun p => !xport_match K (data i) p))).map
        (fun i => diag.new_transport al (trtype_str K (data i).trtype)
          (adrfam_str K (data i).adrfam) (data i).traddr) := by
  induction n generalizing idx ps log with
  | zero => simp [scan_xports]
  | succ n ih =>
    simp only [scan_xports]
    rw [ih]
    have hall : ∀ i, (scan_xport K al (data idx) ps).1.all
          (fun p => !xport_match K (data i) p) =
        ps.all (fun p => !xport_match K (data i) p) := by
      intro i
      apply all_no_match_of_clear_eq
      exact clear_port_valid_scan_port_ids K _ _ _
    have hcond := scan_port_ids_no_match K (data idx) ps false
    simp only [Bool.not_false, Bool.true_and] at hcond
    simp only [hall, List.range'_succ, List.filter_cons]
    simp only [scan_xport, hcond]
    cases ps.all (fun p => !xport_match K (data idx) p) <;> simp

theorem scan_xports_flags (K : Consts) (al : CStr) (data : Nat → transports_rsp_page_entry)
    (n idx : Nat) (ps : List port_id) (log : List diag) (j : Nat) :
    ((scan_xports K al data idx n ps log).1.map port_id.valid).getD j false =
      ((ps.map port_id.valid).getD j false ||
        (List.range' idx n).any (fun i => (confirmed_by K (data i) ps).getD j false)) := by
  induction n generalizing idx ps log with
  | zero => simp [scan_xports]
  | succ n ih =>
    simp only [scan_xports]
    rw [ih]
    have hconf : ∀ i, confirmed_by K (data i) (scan_xport K al (data idx) ps).1 =
        confirmed_by K (data i) ps := by
      intro i
      apply confirmed_by_of_clear_eq
      exact clear_port_valid_scan_port_ids K _ _ _
    have hstep := (scan_port_ids_flags K (data idx) ps false).2 j
    simp only [hconf, List.range'_succ, List.any_cons]
    simp only [scan_xport, hstep, confirmed_by, Bool.or_assoc]

theorem missing_xports_eq (al : CStr) (ps : List port_id) :
    missing_xports al ps =
      (ps.filter (fun p => !p.valid)).map
        (fun p => diag.transport_not_on al p.type p.family p.address) := by
  induction ps with
  | nil => rfl
  | cons p ps ih => cases hv : p.valid <;> simp [missing_xports, hv, ih]

/-- C12: for a successful fetch with a non-empty report, the diagnostics
of `get_inb_xports` are one "New transport" per reported entry that no
configured `port_id` matches under rule 1 or rule 2, in report order,
followed by one "Transport not on" per `port_id` whose `valid` flag is
clear after the pass, in list order; the `port_id`s after the pass are the
configured ones up to `valid`, and the flag at a position is set after
the pass if and only if the scan of some reported entry sets it. -/
theorem get_inb_xports_diagnostics (K : Consts) (t : target) (page : transports_rsp_page)
    (hn : page.num_entries ≠ 0) :
    (get_inb_xports K t 0 page).2.2 =
      (unknown_xports K page t.portid_list).map (fun i =>
        diag.new_transport t.alias_ (trtype_str K (page.data i).trtype)
          (adrfam_str K (page.data i).adrfam) (page.data i).traddr) ++
      ((get_inb_xports K t 0 page).2.1.portid_list.filter (fun p => !p.valid)).map
        (fun p => diag.transport_not_on t.alias_ p.type p.family p.address) ∧
    clear_port_valid (get_inb_xports K t 0 page).2.1.portid_list =
      clear_port_valid t.portid_list ∧
    ∀ j, ((get_inb_xports K t 0 page).2.1.portid_list.map port_id.valid).getD j false = true ↔
      ∃ i, i < page.num_entries ∧
        (confirmed_by K (page.data i) t.portid_list).getD j false = true := by
  have hclr : clear_port_valid (clear_port_valid t.portid_list) =
      clear_port_valid t.portid_list := clear_port_valid_idem _
  refine ⟨?_, ?_, ?_⟩
  · simp only [get_inb_xports, hn, ne_eq, not_true_eq_false, if_false, scan_xports_log,
      missing_xports_eq, List.nil_append, unknown_xports, List.range_eq_range']
    congr 2
    apply List.filter_congr
    intro i _
    exact all_no_match_clear K _ _
  · simp only [get_inb_xports, hn, ne_eq, not_true_eq_false, if_false]
    rw [clear_port_valid_scan_xports, hclr]
  · intro j
    simp only [get_inb_xports, hn, ne_eq, not_true_eq_false, if_false]
    rw [scan_xports_flags, clear_port_valid_flags, Bool.false_or, List.any_eq_true]
    constructor
    · rintro ⟨i, hi, h⟩
      rw [List.mem_range'_1] at hi
      refine ⟨i, by omega, ?_⟩
      rw [← confirmed_by_of_clear_eq K _ _ _ hclr]
      exact h
    · rintro ⟨i, hi, h⟩
      refine ⟨i, by rw [List.mem_range'_1]; omega, ?_⟩
      rw [confirmed_by_of_clear_eq K _ _ _ hclr]
      exact h

/-- C12 at a report of a TCP entry and an FC entry for the target with two
TCP ports and an RDMA/IPv6 port: the FC entry is new, the RDMA port is
missing. -/
theorem get_inb_xports_diagnostics_witness :
    tcp_fc_page.num_entries ≠ 0 ∧
    (get_inb_xports nvmeConsts three_port_target 0 tcp_fc_page).2.2 =
      [diag.new_transport (ascii "t1") (ascii "fc") (ascii "fc") (ascii "nn-1"),
       diag.transport_not_on (ascii "t1") (ascii "rdma") (ascii "ipv6") (ascii "fe80::1")] :=
  ⟨by decide,
   (get_inb_xports_diagnostics nvmeConsts three_port_target tcp_fc_page
      (by decide)).1.trans (by decide)⟩


/-! ## Delete paths: what is sent -/

/-- With the store accepting and the entity found, `del_ns`, `del_subsys`,
`del_portid` and `del_target` on an out-of-band target whose URI fits
`uri[128]` add to the trace the store call and one `exec_delete`, at
`http://<address>:<port>/` followed by
`URI_SUBSYSTEM/<nqn>/URI_NAMESPACE/<nsid>`, `URI_SUBSYSTEM/<nqn>`,
`URI_PORTID/<id>` and `URI_TARGET/<alias>`; on an in-band target they add
the store call and the call of the in-band placeholder, which sends
nothing. -/
theorem del_trace_of_fits (K : Consts) (O : Oracle) (tl : List target) (tr : List event)
    (al : CStr) (t : target) (ht : lookup_target tl al = some t) :
    (∀ nqn nsid s n, O tr (event.del_json_ns al nqn nsid) = 0 →
      lookup_subsys t nqn = some s → lookup_ns s nsid = some n →
      (t.mgmt_mode = mgmt_mode_t.OUT_OF_BAND_MGMT →
        fits_uri_buf (uri_del_ns K t s n) = true →
        (del_ns K O tl al nqn nsid tr).map (fun r => r.2.2) =
          some (tr ++ [event.del_json_ns al nqn nsid,
            event.exec_delete del_op.ns
              (ascii "http://" ++ t.oob_iface.address ++ ascii ":" ++ fmt_d t.oob_iface.port ++
                ascii "/" ++ K.URI_SUBSYSTEM ++ ascii "/" ++ nqn ++ ascii "/" ++
                K.URI_NAMESPACE ++ ascii "/" ++ fmt_d nsid)])) ∧
      (t.mgmt_mode = mgmt_mode_t.IN_BAND_MGMT →
        (del_ns K O tl al nqn nsid tr).map (fun r => r.2.2) =
          some (tr ++ [event.del_json_ns al nqn nsid, event.send_del_inb del_op.ns]))) ∧
    (∀ nqn s, O tr (event.del_json_subsys al nqn) = 0 → lookup_subsys t nqn = some s →
      (t.mgmt_mode = mgmt_mode_t.OUT_OF_BAND_MGMT →
        fits_uri_buf (uri_del_subsys K t s) = true →
        (del_subsys K O tl al nqn tr).map (fun r => r.2.2) =
          some (tr ++ [event.del_json_subsys al nqn,
            event.exec_delete del_op.subsys
              (ascii "http://" ++ t.oob_iface.address ++ ascii ":" ++ fmt_d t.oob_iface.port ++
                ascii "/" ++ K.URI_SUBSYSTEM ++ ascii "/" ++ nqn)])) ∧
      (t.mgmt_mode = mgmt_mode_t.IN_BAND_MGMT →
        (del_subsys K O tl al nqn tr).map (fun r => r.2.2) =
          some (tr ++ [event.del_json_subsys al nqn, event.send_del_inb del_op.subsys]))) ∧
    (∀ id p, O tr (event.del_json_portid al id) = 0 → lookup_portid t id = some p →
      (t.mgmt_mode = mgmt_mode_t.OUT_OF_BAND_MGMT →
        fits_uri_buf (uri_del_portid K t p) = true →
        (del_portid K O tl al id tr).map (fun r => r.2.2) =
          some (tr ++ [event.del_json_portid al id,
            event.exec_delete del_op.portid
              (ascii "http://" ++ t.oob_iface.address ++ ascii ":" ++ fmt_d t.oob_iface.port ++
                ascii "/" ++ K.URI_PORTID ++ ascii "/" ++ fmt_d id)])) ∧
      (t.mgmt_mode = mgmt_mode_t.IN_BAND_MGMT →
        (del_portid K O tl al id tr).map (fun r => r.2.2) =
          some (tr ++ [event.del_json_portid al id, event.send_del_inb del_op.portid]))) ∧
    (O tr (event.del_json_target al) = 0 →
      (t.mgmt_mode = mgmt_mode_t.OUT_OF_BAND_MGMT →
        fits_uri_buf (uri_del_target K t) = true →
        (del_target K O tl al tr).map (fun r => r.2.2) =
          some (tr ++ [event.del_json_target al,
            event.exec_delete del_op.target
              (ascii "http://" ++ t.oob_iface.address ++ ascii ":" ++ fmt_d t.oob_iface.port ++
                ascii "/" ++ K.URI_TARGET ++ ascii "/" ++ al)])) ∧
      (t.mgmt_mode = mgmt_mode_t.IN_BAND_MGMT →
        (del_target K O tl al tr).map (fun r => r.2.2) =
          some (tr ++ [event.del_json_target al, event.send_del_inb del_op.target]))) := by
  have hal : t.alias_ = al := by
    have := List.find?_some (p := fun t : target => decide (t.alias_ = al)) ht
    simpa using this
  refine ⟨?_, ?_, ?_, ?_⟩
  · intro nqn nsid s n h0 hs hns
    have hsq : s.nqn = nqn := by
      have := List.find?_some (p := fun s : subsystem => decide (s.nqn = nqn)) hs
      simpa using this
    have hnq : n.nsid = nsid := by
      have := List.find?_some (p := fun n : ns => decide (n.nsid = nsid)) hns
      simpa using this
    constructor
    · intro hm hfit
      rw [del_ns_of_found K O tl tr al nqn nsid t s n h0 ht hs hns
        (by simp [oob_fits, hm, hfit])]
      simp [dispatch_del, hm, uri_del_ns, uri_root, path_del_ns, hsq, hnq]
    · intro hm
      rw [del_ns_of_found K O tl tr al nqn nsid t s n h0 ht hs hns (by simp [oob_fits, hm])]
      simp [dispatch_del, hm]
  · intro nqn s h0 hs
    have hsq : s.nqn = nqn := by
      have := List.find?_some (p := fun s : subsystem => decide (s.nqn = nqn)) hs
      simpa using this
    constructor
    · intro hm hfit
      rw [del_subsys_of_found K O tl tr al nqn t s h0 ht hs (by simp [oob_fits, hm, hfit])]
      simp [dispatch_del, hm, uri_del_subsys, uri_root, path_del_subsys, hsq]
    · intro hm
      rw [del_subsys_of_found K O tl tr al nqn t s h0 ht hs (by simp [oob_fits, hm])]
      simp [dispatch_del, hm]
  · intro id p h0 hp
    have hpq : p.portid = id := by
      have := List.find?_some (p := fun p : port_id => decide (p.portid = id)) hp
      simpa using this
    constructor
    · intro hm hfit
      rw [del_portid_of_found K O tl tr al id t p h0 ht hp (by simp [oob_fits, hm, hfit])]
      simp [dispatch_del, hm, uri_del_portid, uri_root, path_del_portid, hpq]
    · intro hm
      rw [del_portid_of_found K O tl tr al id t p h0 ht hp (by simp [oob_fits, hm])]
      simp [dispatch_del, hm]
  · intro h0
    constructor
    · intro hm hfit
      rw [del_target_of_found K O tl tr al t h0 ht (by simp [oob_fits, hm, hfit])]
      simp [dispatch_del, hm, uri_del_target, uri_root, path_del_target, hal]
    · intro hm
      rw [del_target_of_found K O tl tr al t h0 ht (by simp [oob_fits, hm])]
      simp [dispatch_del, hm]

set_option maxRecDepth 100000 in
/-- C15 on the code: the out-of-band delete functions compose the URI with
`sprintf` into `uri[128]` before `exec_delete` is called.  For the
out-of-band target `t1` at `10.0.0.9:22345` whose subsystem has an NQN of
200 bytes (which fits its 256-byte field) the store accepts, the lookups
find the subsystem and its namespace 1, the URI of the claim,
`http://10.0.0.9:22345/subsystem/<nqn>/namespace/1`, has 244 bytes (232
for the subsystem), and `del_ns` and `del_subsys` write past the buffer:
the run has no result, and no DELETE at that URI is established.  At the
target `t1` with the short NQN `nqn1` the same operations add the store
call and one `exec_delete` at the URI of the claim, and on an in-band
target the store call and the in-band placeholder only. -/
theorem del_overruns_uri_before_delete :
    accepting_all [] (event.del_json_ns (ascii "t1") long_nqn_subsys.nqn 1) = 0 ∧
    lookup_target [long_nqn_target] (ascii "t1") = some long_nqn_target ∧
    lookup_subsys long_nqn_target long_nqn_subsys.nqn = some long_nqn_subsys ∧
    lookup_ns long_nqn_subsys 1 = some { nsid := 1, devid := 0, devns := 1 } ∧
    long_nqn_target.mgmt_mode = mgmt_mode_t.OUT_OF_BAND_MGMT ∧
    long_nqn_subsys.nqn.length = 200 ∧ 200 < nvmeLayout.NVMF_NQN_FIELD_LEN ∧
    uri_del_ns nvmeConsts long_nqn_target long_nqn_subsys { nsid := 1, devid := 0, devns := 1 } =
      ascii "http://10.0.0.9:22345/subsystem/" ++ long_nqn_subsys.nqn ++
        ascii "/namespace/1" ∧
    (uri_del_ns nvmeConsts long_nqn_target long_nqn_subsys
      { nsid := 1, devid := 0, devns := 1 }).length = 244 ∧
    (uri_del_subsys nvmeConsts long_nqn_target long_nqn_subsys).length = 232 ∧
    URI_BUF_SIZE = 128 ∧
    compose_uri long_nqn_target
      (path_del_ns nvmeConsts long_nqn_subsys { nsid := 1, devid := 0, devns := 1 }) = none ∧
    compose_uri long_nqn_target (path_del_subsys nvmeConsts long_nqn_subsys) = none ∧
    del_ns nvmeConsts accepting_all [long_nqn_target] (ascii "t1") long_nqn_subsys.nqn 1
      [] = none ∧
    del_subsys nvmeConsts accepting_all [long_nqn_target] (ascii "t1") long_nqn_subsys.nqn
      [] = none ∧
    (del_ns nvmeConsts accepting_all [oob_target] (ascii "t1") (ascii "nqn1") 1 []).map
        (fun r => r.2.2) =
      some [event.del_json_ns (ascii "t1") (ascii "nqn1") 1,
        event.exec_delete del_op.ns
          (ascii "http://10.0.0.9:22345/subsystem/nqn1/namespace/1")] ∧
    (del_target nvmeConsts accepting_all [oob_target] (ascii "t1") []).map
        (fun r => r.2.2) =
      some [event.del_json_target (ascii "t1"),
        event.exec_delete del_op.target (ascii "http://10.0.0.9:22345/target/t1")] ∧
    (del_portid nvmeConsts accepting_all [oob_target] (ascii "t1") 1 []).map
        (fun r => r.2.2) =
      some [event.del_json_portid (ascii "t1") 1,
        event.exec_delete del_op.portid (ascii "http://10.0.0.9:22345/portid/1")] ∧
    (del_subsys nvmeConsts accepting_all [dup_host_target] (ascii "t1") (ascii "nqn1") []).map
        (fun r => r.2.2) =
      some [event.del_json_subsys (ascii "t1") (ascii "nqn1"),
        event.send_del_inb del_op.subsys] := by
  refine ⟨by decide, by decide, by decide, by decide, by decide, by decide, by decide, ?_⟩
  refine ⟨by decide, by decide, by decide, by decide, by decide, by decide, ?_⟩
  exact ⟨by decide, by decide, by decide, by decide, by decide, by decide⟩

/-! ## Delete paths: the URI buffer -/

set_option maxRecDepth 100000 in
/-- C20 on the code: the URI `send_del_acl_oob` composes is at least 11
bytes longer than the two NQNs together, so NQNs that fit their 256-byte
fields need not fit `uri[128]`.  For an out-of-band target at
`10.0.0.9:22345` and subsystem and host NQNs of 200 bytes the strings
composed by `send_del_acl_oob`, `send_del_subsys_oob`, `send_del_ns_oob`
and `send_del_host_oob` have 438, 232, 244 and 227 bytes. -/
theorem uri_buffer_too_small :
    (∀ (K : Consts) (t : target) (s : subsystem) (h : host),
      s.nqn.length + h.nqn.length + 11 ≤ (uri_del_acl K t s h).length) ∧
    long_nqn_subsys.nqn.length = 200 ∧ long_nqn_host.nqn.length = 200 ∧
    200 < nvmeLayout.NVMF_NQN_FIELD_LEN ∧
    (uri_del_acl nvmeConsts long_nqn_target long_nqn_subsys long_nqn_host).length = 438 ∧
    (uri_del_subsys nvmeConsts long_nqn_target long_nqn_subsys).length = 232 ∧
    (uri_del_ns nvmeConsts long_nqn_target long_nqn_subsys
      { nsid := 1, devid := 0, devns := 1 }).length = 244 ∧
    (uri_del_host nvmeConsts long_nqn_target long_nqn_host.nqn).length = 227 ∧
    fits_uri_buf (uri_del_acl nvmeConsts long_nqn_target long_nqn_subsys long_nqn_host) =
      false ∧
    fits_uri_buf (uri_del_subsys nvmeConsts long_nqn_target long_nqn_subsys) = false ∧
    fits_uri_buf (uri_del_ns nvmeConsts long_nqn_target long_nqn_subsys
      { nsid := 1, devid := 0, devns := 1 }) = false ∧
    fits_uri_buf (uri_del_host nvmeConsts long_nqn_target long_nqn_host.nqn) = false := by
  refine ⟨?_, by decide, by decide, by decide, by decide, by decide, by decide, by decide,
    by decide, by decide, by decide, by decide⟩
  intro K t s h
  have h7 : (ascii "http://").length = 7 := by decide
  have h1 : (ascii ":").length = 1 := by decide
  have h2 : (ascii "/").length = 1 := by decide
  simp only [uri_del_acl, uri_root, path_del_acl, List.length_append, h7, h1, h2]
  omega


/-! ## In-band configuration push -/

/-- When the allocation of the port table fails nothing is sent for the
port table, when the allocation of the subsystem table fails nothing is
sent for the subsystem table; when both fail the two build diagnostics are
printed and the result is `0`; and whenever the result is not `0` it is
what a send that was performed returned. -/
theorem config_target_inb_alloc_failure (K : Consts) (L : Layout) (port_alloc_ok : Bool)
    (subsys_alloc : Option Mem) (send_port : Nat → Option port_config_page → Int)
    (send_subsys : Nat → Option Mem → Int) (t : target) :
    (port_alloc_ok = false →
      ∀ e ∈ (config_target_inb K L port_alloc_ok subsys_alloc send_port send_subsys t).2,
        e.is_port_send = false) ∧
    (subsys_alloc = none →
      ∀ e ∈ (config_target_inb K L port_alloc_ok subsys_alloc send_port send_subsys t).2,
        e.is_subsys_send = false) ∧
    (port_alloc_ok = false → subsys_alloc = none →
      config_target_inb K L port_alloc_ok subsys_alloc send_port send_subsys t =
        (0, [inb_event.build_port_failed t.alias_,
             inb_event.build_subsys_failed t.alias_])) ∧
    ((config_target_inb K L port_alloc_ok subsys_alloc send_port send_subsys t).1 ≠ 0 →
      (∃ len, inb_event.send_set_port_config len ∈
          (config_target_inb K L port_alloc_ok subsys_alloc send_port send_subsys t).2 ∧
        (config_target_inb K L port_alloc_ok subsys_alloc send_port send_subsys t).1 =
          send_port len (build_set_port_inb K L port_alloc_ok t).2) ∨
      (∃ len, inb_event.send_set_subsys_config len ∈
          (config_target_inb K L port_alloc_ok subsys_alloc send_port send_subsys t).2 ∧
        (config_target_inb K L port_alloc_ok subsys_alloc send_port send_subsys t).1 =
          send_subsys len (build_set_subsys_inb L subsys_alloc t).page)) := by
  refine ⟨?_, ?_, ?_, ?_⟩
  · intro hp e he
    have hall : (config_target_inb K L port_alloc_ok subsys_alloc send_port send_subsys t).2.all
        (fun e => !e.is_port_send) = true := by
      subst hp
      by_cases h2 : (build_set_subsys_inb L subsys_alloc t).len = 0
      · simp [config_target_inb, build_set_port_inb, h2, inb_event.is_port_send]
      · by_cases h4 : send_subsys (build_set_subsys_inb L subsys_alloc t).len
            (build_set_subsys_inb L subsys_alloc t).page = 0
        · simp [config_target_inb, build_set_port_inb, h2, h4, inb_event.is_port_send]
        · simp [config_target_inb, build_set_port_inb, h2, h4, inb_event.is_port_send]
    have := List.all_eq_true.mp hall e he
    simpa using this
  · intro hs e he
    have hall : (config_target_inb K L port_alloc_ok subsys_alloc send_port send_subsys t).2.all
        (fun e => !e.is_subsys_send) = true := by
      subst hs
      by_cases h1 : (build_set_port_inb K L port_alloc_ok t).1 = 0
      · simp [config_target_inb, build_set_subsys_inb, h1, inb_event.is_subsys_send]
      · by_cases h3 : send_port (build_set_port_inb K L port_alloc_ok t).1
            (build_set_port_inb K L port_alloc_ok t).2 = 0
        · simp [config_target_inb, build_set_subsys_inb, h1, h3, inb_event.is_subsys_send]
        · simp [config_target_inb, build_set_subsys_inb, h1, h3, inb_event.is_subsys_send]
    have := List.all_eq_true.mp hall e he
    simpa using this
  · intro hp hs
    subst hp hs
    simp [config_target_inb, build_set_port_inb, build_set_subsys_inb]
  · intro hne
    by_cases h1 : (build_set_port_inb K L port_alloc_ok t).1 = 0
    · by_cases h2 : (build_set_subsys_inb L subsys_alloc t).len = 0
      · simp [config_target_inb, h1, h2] at hne
      · right
        refine ⟨(build_set_subsys_inb L subsys_alloc t).len, ?_, ?_⟩
        · simp [config_target_inb, h1, h2]
        · simp [config_target_inb, h1, h2]
    · by_cases h3 : send_port (build_set_port_inb K L port_alloc_ok t).1
          (build_set_port_inb K L port_alloc_ok t).2 = 0
      · by_cases h2 : (build_set_subsys_inb L subsys_alloc t).len = 0
        · simp [config_target_inb, h1, h2, h3] at hne
        · right
          refine ⟨(build_set_subsys_inb L subsys_alloc t).len, ?_, ?_⟩
          · simp [config_target_inb, h1, h2, h3]
          · simp [config_target_inb, h1, h2, h3]
      · left
        refine ⟨(build_set_port_inb K L port_alloc_ok t).1, ?_, ?_⟩
        · simp [config_target_inb, h1, h3]
        · simp [config_target_inb, h1, h3]

/-- C14 on the code: with both allocations failing `config_target_inb`
prints the two build diagnostics, sends nothing and returns `0`; with the
port allocation failing and the subsystem table built and sent it returns
the result of that send, `0`. -/
theorem config_target_inb_swallows_alloc_failure :
    config_target_inb nvmeConsts nvmeLayout false none (fun _ _ => 0) (fun _ _ => 0)
        stale_port_target =
      (0, [inb_event.build_port_failed (ascii "t1"),
           inb_event.build_subsys_failed (ascii "t1")]) ∧
    config_target_inb nvmeConsts nvmeLayout false (some junk_mem) (fun _ _ => 0)
        (fun _ _ => 0) stale_port_target =
      (0, [inb_event.build_port_failed (ascii "t1"), inb_event.send_set_subsys_config 7]) := by
  decide

/-! ## Out-of-band configuration push -/

theorem send_post_of_fits (O : PostOracle) (e : post_event) (tr : List post_event)
    (h : fits_uri_buf e.uri = true) : send_post O e tr = some (O tr e, tr ++ [e]) := by
  cases e
  simp_all [send_post, sprintf_uri]

theorem send_post_overrun (O : PostOracle) (e : post_event) (tr : List post_event)
    (h : fits_uri_buf e.uri = false) : send_post O e tr = none := by
  simp [send_post, sprintf_uri, h]

theorem gates_accepted_append (O : PostOracle) (tr l1 l2 : List post_event)
    (h : gates_accepted O tr (l1 ++ l2)) :
    gates_accepted O tr l1 ∧ gates_accepted O (tr ++ l1) l2 := by
  constructor
  · intro pre e suf hl hg
    exact h pre e (suf ++ l2) (by rw [hl]; simp) hg
  · intro pre e suf hl hg
    have := h (l1 ++ pre) e suf (by rw [hl]; simp) hg
    simpa using this

theorem gates_accepted_head (O : PostOracle) (tr : List post_event) (e : post_event)
    (l : List post_event) (h : gates_accepted O tr (e :: l))
    (hg : e.step = oob_step.set_subsys ∨ e.step = oob_step.set_host) : O tr e = 0 := by
  have := h [] e l rfl hg
  simpa using this

theorem gates_accepted_tail (O : PostOracle) (tr : List post_event) (e : post_event)
    (l : List post_event) (h : gates_accepted O tr (e :: l)) :
    gates_accepted O (tr ++ [e]) l :=
  (gates_accepted_append O tr [e] l h).2

theorem post_each_eq {α : Type} (O : PostOracle) (mk : α → post_event) (l : List α)
    (tr : List post_event) (hfit : ∀ x ∈ l, fits_uri_buf (mk x).uri = true) :
    post_each O mk l tr = some (tr ++ l.map mk) := by
  induction l generalizing tr with
  | nil => simp [post_each]
  | cons x xs ih =>
    simp [post_each, send_post_of_fits O (mk x) tr (hfit x (List.mem_cons_self _ _)),
      ih _ (fun y hy => hfit y (List.mem_cons_of_mem _ hy))]

theorem oob_set_hosts_steps (K : Consts) (F : Fragments) (O : PostOracle) (t : target)
    (s : subsystem) (hs : List host) (tr : List post_event)
    (hfit : ∀ e ∈ fan_out_hosts K F t s hs, fits_uri_buf e.uri = true) :
    ∃ evs, oob_set_hosts K F O t s hs tr = some (tr ++ evs) ∧
      ∀ e ∈ evs, e.step = oob_step.set_host ∨ e.step = oob_step.set_acl := by
  induction hs generalizing tr with
  | nil => exact ⟨[], by simp [oob_set_hosts], by simp⟩
  | cons h hs ih =>
    have hh : fits_uri_buf (host_post K F t h).uri = true :=
      hfit _ (by simp [fan_out_hosts])
    have ha : fits_uri_buf (acl_post K F t s h).uri = true :=
      hfit _ (by simp [fan_out_hosts])
    have hrest : ∀ e ∈ fan_out_hosts K F t s hs, fits_uri_buf e.uri = true :=
      fun e he => hfit e (by simp [fan_out_hosts, he])
    simp only [oob_set_hosts, send_post_of_fits O _ _ hh]
    split
    · obtain ⟨evs, he, hst⟩ := ih (tr ++ [host_post K F t h]) hrest
      refine ⟨host_post K F t h :: evs, by rw [he]; simp, ?_⟩
      intro e hm
      rcases List.mem_cons.mp hm with rfl | hm
      · exact Or.inl rfl
      · exact hst e hm
    · simp only [send_post_of_fits O _ _ ha]
      obtain ⟨evs, he, hst⟩ := ih (tr ++ [host_post K F t h] ++ [acl_post K F t s h]) hrest
      refine ⟨host_post K F t h :: acl_post K F t s h :: evs, by rw [he]; simp, ?_⟩
      intro e hm
      rcases List.mem_cons.mp hm with rfl | hm
      · exact Or.inl rfl
      · rcases List.mem_cons.mp hm with rfl | hm
        · exact Or.inr rfl
        · exact hst e hm

theorem oob_set_hosts_full (K : Consts) (F : Fragments) (O : PostOracle) (t : target)
    (s : subsystem) (hs : List host) (tr : List post_event)
    (hfit : ∀ e ∈ fan_out_hosts K F t s hs, fits_uri_buf e.uri = true)
    (hok : gates_accepted O tr (fan_out_hosts K F t s hs)) :
    oob_set_hosts K F O t s hs tr = some (tr ++ fan_out_hosts K F t s hs) := by
  induction hs generalizing tr with
  | nil => simp [oob_set_hosts, fan_out_hosts]
  | cons h hs ih =>
    have hh : fits_uri_buf (host_post K F t h).uri = true :=
      hfit _ (by simp [fan_out_hosts])
    have ha : fits_uri_buf (acl_post K F t s h).uri = true :=
      hfit _ (by simp [fan_out_hosts])
    have hrest : ∀ e ∈ fan_out_hosts K F t s hs, fits_uri_buf e.uri = true :=
      fun e he => hfit e (by simp [fan_out_hosts, he])
    have h0 : O tr (host_post K F t h) = 0 :=
      gates_accepted_head O tr _ _ hok (Or.inr rfl)
    have hok2 : gates_accepted O (tr ++ [host_post K F t h] ++ [acl_post K F t s h])
        (fan_out_hosts K F t s hs) :=
      gates_accepted_tail O _ _ _ (gates_accepted_tail O tr _ _ hok)
    simp only [oob_set_hosts, send_post_of_fits O _ _ hh, send_post_of_fits O _ _ ha, h0,
      ne_eq, not_true_eq_false, if_false]
    rw [ih _ hrest hok2]
    simp [fan_out_hosts]

theorem config_subsys_oob_steps (K : Consts) (F : Fragments) (O : PostOracle) (t : target)
    (s : subsystem) (tr : List post_event)
    (hfit : ∀ e ∈ fan_out_subsys K F t s, fits_uri_buf e.uri = true) :
    ∃ evs, config_subsys_oob K F O t s tr = some (tr ++ subsys_post K F t s :: evs) ∧
      ∀ e ∈ evs, e.step ≠ oob_step.set_port ∧ e.step ≠ oob_step.set_subsys := by
  have hsub : fits_uri_buf (subsys_post K F t s).uri = true :=
    hfit _ (by simp [fan_out_subsys])
  have hns : ∀ n ∈ s.ns_list, fits_uri_buf (ns_post K F t s n).uri = true :=
    fun n hn => hfit _ (by
      simp only [fan_out_subsys, List.mem_cons, List.mem_append, List.mem_map]
      exact Or.inr (Or.inl (Or.inl ⟨n, hn, rfl⟩)))
  have hhosts : ∀ e ∈ fan_out_hosts K F t s s.host_list, fits_uri_buf e.uri = true :=
    fun e he => hfit e (by
      simp only [fan_out_subsys, List.mem_cons, List.mem_append]
      exact Or.inr (Or.inl (Or.inr he)))
  have hpid : ∀ p ∈ t.portid_list, fits_uri_buf (portid_post K F t s p).uri = true :=
    fun p hp => hfit _ (by
      simp only [fan_out_subsys, List.mem_cons, List.mem_append, List.mem_map]
      exact Or.inr (Or.inr ⟨p, hp, rfl⟩))
  simp only [config_subsys_oob, send_post_of_fits O _ _ hsub]
  split
  · exact ⟨[], by simp, by simp⟩
  · rw [post_each_eq O _ _ _ hns]
    obtain ⟨evs, he, hst⟩ := oob_set_hosts_steps K F O t s s.host_list
      (tr ++ [subsys_post K F t s] ++ s.ns_list.map (ns_post K F t s)) hhosts
    simp only [he]
    rw [post_each_eq O _ _ _ hpid]
    refine ⟨s.ns_list.map (ns_post K F t s) ++ evs ++ t.portid_list.map (portid_post K F t s),
      by simp, ?_⟩
    intro e hm
    simp only [List.mem_append, List.mem_map] at hm
    rcases hm with (⟨n, -, rfl⟩ | hm) | ⟨p, -, rfl⟩
    · exact ⟨by simp [ns_post], by simp [ns_post]⟩
    · rcases hst e hm with h | h <;> simp [h]
    · exact ⟨by simp [portid_post], by simp [portid_post]⟩

theorem config_subsys_oob_full (K : Consts) (F : Fragments) (O : PostOracle) (t : target)
    (s : subsystem) (tr : List post_event)
    (hfit : ∀ e ∈ fan_out_subsys K F t s, fits_uri_buf e.uri = true)
    (hok : gates_accepted O tr (fan_out_subsys K F t s)) :
    config_subsys_oob K F O t s tr = some (tr ++ fan_out_subsys K F t s) := by
  have hsub : fits_uri_buf (subsys_post K F t s).uri = true :=
    hfit _ (by simp [fan_out_subsys])
  have hns : ∀ n ∈ s.ns_list, fits_uri_buf (ns_post K F t s n).uri = true :=
    fun n hn => hfit _ (by
      simp only [fan_out_subsys, List.mem_cons, List.mem_append, List.mem_map]
      exact Or.inr (Or.inl (Or.inl ⟨n, hn, rfl⟩)))
  have hhosts : ∀ e ∈ fan_out_hosts K F t s s.host_list, fits_uri_buf e.uri = true :=
    fun e he => hfit e (by
      simp only [fan_out_subsys, List.mem_cons, List.mem_append]
      exact Or.inr (Or.inl (Or.inr he)))
  have hpid : ∀ p ∈ t.portid_list, fits_uri_buf (portid_post K F t s p).uri = true :=
    fun p hp => hfit _ (by
      simp only [fan_out_subsys, List.mem_cons, List.mem_append, List.mem_map]
      exact Or.inr (Or.inr ⟨p, hp, rfl⟩))
  have h0 : O tr (subsys_post K F t s) = 0 := by
    unfold fan_out_subsys at hok
    exact gates_accepted_head O tr _ _ hok (Or.inl rfl)
  have hok2 : gates_accepted O (tr ++ [subsys_post K F t s] ++ s.ns_list.map (ns_post K F t s))
      (fan_out_hosts K F t s s.host_list) := by
    unfold fan_out_subsys at hok
    have h1 := gates_accepted_tail O tr _ _ hok
    rw [List.append_assoc] at h1
    have h2 := (gates_accepted_append O _ _ _ h1).2
    exact (gates_accepted_append O _ _ _ h2).1
  simp only [config_subsys_oob, send_post_of_fits O _ _ hsub, h0, ne_eq, not_true_eq_false,
    if_false]
  rw [post_each_eq O _ _ _ hns]
  simp only [oob_set_hosts_full K F O t s s.host_list _ hhosts hok2]
  rw [post_each_eq O _ _ _ hpid]
  simp [fan_out_subsys]

theorem oob_subsystems_steps (K : Consts) (F : Fragments) (O : PostOracle) (t : target)
    (ss : List subsystem) (tr : List post_event)
    (hfit : ∀ e ∈ fan_out_subsystems K F t ss, fits_uri_buf e.uri = true) :
    ∃ evs, oob_subsystems K F O t ss tr = some (tr ++ evs) ∧
      evs.filter (fun e => decide (e.step = oob_step.set_port)) = [] ∧
      evs.filter (fun e => decide (e.step = oob_step.set_subsys)) =
        ss.map (subsys_post K F t) := by
  induction ss generalizing tr with
  | nil => exact ⟨[], by simp [oob_subsystems], by simp, by simp⟩
  | cons s ss ih =>
    have hf1 : ∀ e ∈ fan_out_subsys K F t s, fits_uri_buf e.uri = true :=
      fun e he => hfit e (by simp only [fan_out_subsystems, List.mem_append]; exact Or.inl he)
    have hf2 : ∀ e ∈ fan_out_subsystems K F t ss, fits_uri_buf e.uri = true :=
      fun e he => hfit e (by simp only [fan_out_subsystems, List.mem_append]; exact Or.inr he)
    obtain ⟨e1, h1, hst⟩ := config_subsys_oob_steps K F O t s tr hf1
    obtain ⟨e2, h2, hp, hs⟩ := ih (tr ++ subsys_post K F t s :: e1) hf2
    have hg1 : e1.filter (fun e => decide (e.step = oob_step.set_port)) = [] := by
      rw [List.filter_eq_nil_iff]
      intro e he
      simp [(hst e he).1]
    have hg2 : e1.filter (fun e => decide (e.step = oob_step.set_subsys)) = [] := by
      rw [List.filter_eq_nil_iff]
      intro e he
      simp [(hst e he).2]
    refine ⟨subsys_post K F t s :: e1 ++ e2, ?_, ?_, ?_⟩
    · simp only [oob_subsystems, h1, h2]
      simp
    · simp [List.filter_cons, subsys_post, hg1, hp]
    · simp [List.filter_cons, subsys_post, hg2, hs]

theorem oob_subsystems_full (K : Consts) (F : Fragments) (O : PostOracle) (t : target)
    (ss : List subsystem) (tr : List post_event)
    (hfit : ∀ e ∈ fan_out_subsystems K F t ss, fits_uri_buf e.uri = true)
    (hok : gates_accepted O tr (fan_out_subsystems K F t ss)) :
    oob_subsystems K F O t ss tr = some (tr ++ fan_out_subsystems K F t ss) := by
  induction ss generalizing tr with
  | nil => simp [oob_subsystems, fan_out_subsystems]
  | cons s ss ih =>
    have hf1 : ∀ e ∈ fan_out_subsys K F t s, fits_uri_buf e.uri = true :=
      fun e he => hfit e (by simp only [fan_out_subsystems, List.mem_append]; exact Or.inl he)
    have hf2 : ∀ e ∈ fan_out_subsystems K F t ss, fits_uri_buf e.uri = true :=
      fun e he => hfit e (by simp only [fan_out_subsystems, List.mem_append]; exact Or.inr he)
    unfold fan_out_subsystems at hok
    have hk := gates_accepted_append O _ _ _ hok
    simp only [oob_subsystems, config_subsys_oob_full K F O t s tr hf1 hk.1,
      ih _ hf2 hk.2]
    simp [fan_out_subsystems]

/-- C18, amended: when the URI of every POST of the fan-out fits
`uri[128]`, then whatever the POSTs return `config_target_oob` returns `0`
and issues one set-port POST per `port_id` and one subsystem POST per
subsystem, in list order; when the remote accepts every subsystem POST and
every host POST it is sent, the whole fan-out is issued, whatever the other
POSTs return; a failed subsystem POST ends that subsystem's steps, and a
failed host POST leaves out that host's ACL POST. -/
theorem config_target_oob_fan_out (K : Consts) (F : Fragments) (O : PostOracle) (t : target)
    (tr : List post_event) (hfit : fan_out_fits K F t = true) :
    (∃ evs, config_target_oob K F O t tr = some (0, tr ++ evs) ∧
      evs.filter (fun e => decide (e.step = oob_step.set_port)) =
        t.portid_list.map (port_post K F t) ∧
      evs.filter (fun e => decide (e.step = oob_step.set_subsys)) =
        t.subsys_list.map (subsys_post K F t)) ∧
    (gates_accepted O tr (fan_out K F t) →
      config_target_oob K F O t tr = some (0, tr ++ fan_out K F t)) ∧
    (∀ s tr1, fits_uri_buf (subsys_post K F t s).uri = true →
      O tr1 (subsys_post K F t s) ≠ 0 →
      config_subsys_oob K F O t s tr1 = some (tr1 ++ [subsys_post K F t s])) ∧
    (∀ s h hs tr1, fits_uri_buf (host_post K F t h).uri = true →
      O tr1 (host_post K F t h) ≠ 0 →
      oob_set_hosts K F O t s (h :: hs) tr1 =
        oob_set_hosts K F O t s hs (tr1 ++ [host_post K F t h])) := by
  have hall : ∀ e ∈ fan_out K F t, fits_uri_buf e.uri = true := by
    unfold fan_out_fits at hfit
    rw [List.all_eq_true] at hfit
    exact hfit
  have hports : ∀ p ∈ t.portid_list, fits_uri_buf (port_post K F t p).uri = true :=
    fun p hp => hall _ (by
      simp only [fan_out, List.mem_append, List.mem_map]
      exact Or.inl ⟨p, hp, rfl⟩)
  have hsubs : ∀ e ∈ fan_out_subsystems K F t t.subsys_list, fits_uri_buf e.uri = true :=
    fun e he => hall e (by simp only [fan_out, List.mem_append]; exact Or.inr he)
  refine ⟨?_, ?_, ?_, ?_⟩
  · obtain ⟨evs, he, hp, hs⟩ := oob_subsystems_steps K F O t t.subsys_list
      (tr ++ t.portid_list.map (port_post K F t)) hsubs
    have hf1 : (t.portid_list.map (port_post K F t)).filter
        (fun e => decide (e.step = oob_step.set_port)) =
        t.portid_list.map (port_post K F t) := by
      rw [List.filter_eq_self]
      intro e hm
      rw [List.mem_map] at hm
      obtain ⟨p, -, rfl⟩ := hm
      simp [port_post]
    have hf2 : (t.portid_list.map (port_post K F t)).filter
        (fun e => decide (e.step = oob_step.set_subsys)) = [] := by
      rw [List.filter_eq_nil_iff]
      intro e hm
      rw [List.mem_map] at hm
      obtain ⟨p, -, rfl⟩ := hm
      simp [port_post]
    refine ⟨t.portid_list.map (port_post K F t) ++ evs, ?_, ?_, ?_⟩
    · simp only [config_target_oob, post_each_eq O _ _ _ hports, he]
      simp
    · rw [List.filter_append, hf1, hp, List.append_nil]
    · rw [List.filter_append, hf2, hs, List.nil_append]
  · intro hok
    unfold fan_out at hok
    have hk := gates_accepted_append O _ _ _ hok
    simp only [config_target_oob, post_each_eq O _ _ _ hports,
      oob_subsystems_full K F O t t.subsys_list _ hsubs hk.2]
    simp [fan_out]
  · intro s tr1 hf hne
    simp [config_subsys_oob, send_post_of_fits O _ _ hf, hne]
  · intro s h hs tr1 hf hne
    simp [oob_set_hosts, send_post_of_fits O _ _ hf, hne]

/-- C18 amended, at the out-of-band target `t1` with subsystem and host
POSTs accepted and every other POST failing: the URIs fit and the whole
fan-out of eight POSTs is issued. -/
theorem config_target_oob_fan_out_witness :
    fan_out_fits nvmeConsts keyFragments oob_target = true ∧
    gates_accepted picky_posts [] (fan_out nvmeConsts keyFragments oob_target) ∧
    config_target_oob nvmeConsts keyFragments picky_posts oob_target [] =
      some (0, [] ++ fan_out nvmeConsts keyFragments oob_target) ∧
    (fan_out nvmeConsts keyFragments oob_target).length = 8 :=
  ⟨by decide,
   fun pre e suf _ he => by simp [picky_posts, he],
   (config_target_oob_fan_out nvmeConsts keyFragments picky_posts oob_target []
      (by decide)).2.1 (fun pre e suf _ he => by simp [picky_posts, he]),
   by decide⟩

/-- C18 as stated fails: with every POST failing, `config_target_oob` on
the target `t1` (one port, one subsystem with a namespace and two hosts;
every URI of the fan-out fits) returns `0` and issues the set-port POST and
the subsystem POST only, two of the eight steps of the fan-out. -/
theorem config_target_oob_skips_after_failure :
    fan_out_fits nvmeConsts keyFragments oob_target = true ∧
    (config_target_oob nvmeConsts keyFragments failing_posts oob_target []).map
        (fun r => (r.1, r.2.map post_event.step)) =
      some (0, [oob_step.set_port, oob_step.set_subsys]) ∧
    (fan_out nvmeConsts keyFragments oob_target).map post_event.step =
      [oob_step.set_port, oob_step.set_subsys, oob_step.set_ns, oob_step.set_host,
       oob_step.set_acl, oob_step.set_host, oob_step.set_acl, oob_step.set_portid] ∧
    ¬ (config_target_oob nvmeConsts keyFragments failing_posts oob_target [] =
        some (0, fan_out nvmeConsts keyFragments oob_target)) := by
  decide

/-! ## Delete paths: single removal and the uniqueness invariants -/

theorem find?_eraseP_of_nodup {α κ : Type} [DecidableEq κ] (key : α → κ) (k : κ)
    (l : List α) (h : (l.map key).Nodup) :
    (l.eraseP (fun x => decide (key x = k))).find? (fun x => decide (key x = k)) = none := by
  induction l with
  | nil => rfl
  | cons x xs ih =>
    rw [List.map_cons, List.nodup_cons] at h
    by_cases hx : key x = k
    · have he : (x :: xs).eraseP (fun x => decide (key x = k)) = xs := by
        simp [List.eraseP_cons, hx]
      rw [he, List.find?_eq_none]
      intro y hy hyk
      apply h.1
      rw [List.mem_map]
      exact ⟨y, hy, by rw [hx]; simpa using hyk⟩
    · have he : (x :: xs).eraseP (fun x => decide (key x = k)) =
          x :: xs.eraseP (fun x => decide (key x = k)) := by
        simp [List.eraseP_cons, hx]
      rw [he, List.find?_cons]
      simp [hx, ih h.2]

theorem find?_update_first {α : Type} (p : α → Bool) (g : α → α) (hg : ∀ x, p (g x) = p x)
    (l : List α) : (update_first p g l).find? p = (l.find? p).map g := by
  induction l with
  | nil => rfl
  | cons x xs ih =>
    cases hp : p x
    · simp [update_first, hp, List.find?_cons, ih]
    · simp [update_first, hp, List.find?_cons, hg]

theorem map_update_first {α κ : Type} (key : α → κ) (p : α → Bool) (g : α → α)
    (hg : ∀ x, key (g x) = key x) (l : List α) :
    (update_first p g l).map key = l.map key := by
  induction l with
  | nil => rfl
  | cons x xs ih =>
    cases hp : p x <;> simp [update_first, hp, hg, ih]

theorem mem_update_first {α : Type} (p : α → Bool) (g : α → α) (l : List α) (y : α)
    (h : y ∈ update_first p g l) : y ∈ l ∨ ∃ x ∈ l, y = g x := by
  induction l with
  | nil => simp [update_first] at h
  | cons x xs ih =>
    cases hp : p x
    · simp only [update_first, hp, Bool.false_eq_true, if_false, List.mem_cons] at h
      rcases h with rfl | h
      · exact Or.inl (List.mem_cons_self _ _)
      · rcases ih h with h1 | ⟨z, hz, rfl⟩
        · exact Or.inl (List.mem_cons_of_mem _ h1)
        · exact Or.inr ⟨z, List.mem_cons_of_mem _ hz, rfl⟩
    · simp only [update_first, hp, if_true, List.mem_cons] at h
      rcases h with rfl | h
      · exact Or.inr ⟨x, List.mem_cons_self _ _, rfl⟩
      · exact Or.inl (List.mem_cons_of_mem _ h)

theorem nodup_map_eraseP {α κ : Type} (key : α → κ) (p : α → Bool) (l : List α)
    (h : (l.map key).Nodup) : ((l.eraseP p).map key).Nodup :=
  List.Nodup.sublist (List.Sublist.map key (List.eraseP_sublist l)) h

/-- The per-target part of the uniqueness invariants. -/
theorem uniqueness_update_first (p : target → Bool) (g : target → target) (tl : List target)
    (hg : ∀ t, ((t.subsys_list.map subsystem.nqn).Nodup ∧
        (t.portid_list.map port_id.portid).Nodup ∧
        ∀ s ∈ t.subsys_list, (s.ns_list.map ns.nsid).Nodup) →
      ((g t).subsys_list.map subsystem.nqn).Nodup ∧
        ((g t).portid_list.map port_id.portid).Nodup ∧
        ∀ s ∈ (g t).subsys_list, (s.ns_list.map ns.nsid).Nodup)
    (h : uniqueness_invariants tl) : uniqueness_invariants (update_first p g tl) := by
  intro t ht
  rcases mem_update_first p g tl t ht with h1 | ⟨x, hx, rfl⟩
  · exact h t h1
  · exact hg x (h x hx)

theorem del_target_model (K : Consts) (O : Oracle) (tl : List target) (tr : List event)
    (al : CStr) (h0 : O tr (event.del_json_target al) = 0)
    (hf : del_target_fits K tl al = true) :
    ∃ ret tr1, del_target K O tl al tr =
      some (ret, tl.eraseP (fun t => decide (t.alias_ = al)), tr1) := by
  unfold del_target_fits at hf
  cases ht : lookup_target tl al with
  | none =>
    refine ⟨0, tr ++ [event.del_json_target al], ?_⟩
    rw [del_target_eq K O tl tr al h0, ht]
    rfl
  | some t =>
    rw [ht] at hf
    exact ⟨_, _, del_target_of_found K O tl tr al t h0 ht hf⟩

theorem del_subsys_model (K : Consts) (O : Oracle) (tl : List target) (tr : List event)
    (al nqn : CStr) (h0 : O tr (event.del_json_subsys al nqn) = 0)
    (hf : del_subsys_fits K tl al nqn = true) :
    ∃ ret tr1, del_subsys K O tl al nqn tr =
      some (ret,
        update_first (fun t => decide (t.alias_ = al))
          (fun t => { t with subsys_list :=
            (t.subsys_list.eraseP (fun s => decide (s.nqn = nqn))) }) tl, tr1) := by
  unfold del_subsys_fits at hf
  cases ht : lookup_target tl al with
  | none =>
    refine ⟨0, tr ++ [event.del_json_subsys al nqn], ?_⟩
    rw [del_subsys_eq K O tl tr al nqn h0, ht]
    rfl
  | some t =>
    rw [ht] at hf
    cases hs : lookup_subsys t nqn with
    | none =>
      refine ⟨0, tr ++ [event.del_json_subsys al nqn], ?_⟩
      rw [del_subsys_eq K O tl tr al nqn h0, ht]
      simp only [hs]
      rfl
    | some s =>
      simp only [hs] at hf
      exact ⟨_, _, del_subsys_of_found K O tl tr al nqn t s h0 ht hs hf⟩

theorem del_portid_model (K : Consts) (O : Oracle) (tl : List target) (tr : List event)
    (al : CStr) (id : Int) (h0 : O tr (event.del_json_portid al id) = 0)
    (hf : del_portid_fits K tl al id = true) :
    ∃ ret tr1, del_portid K O tl al id tr =
      some (ret,
        update_first (fun t => decide (t.alias_ = al))
          (fun t => { t with portid_list :=
            (t.portid_list.eraseP (fun p => decide (p.portid = id))) }) tl, tr1) := by
  unfold del_portid_fits at hf
  cases ht : lookup_target tl al with
  | none =>
    refine ⟨0, tr ++ [event.del_json_portid al id], ?_⟩
    rw [del_portid_eq K O tl tr al id h0, ht]
    rfl
  | some t =>
    rw [ht] at hf
    cases hp : lookup_portid t id with
    | none =>
      refine ⟨0, tr ++ [event.del_json_portid al id], ?_⟩
      rw [del_portid_eq K O tl tr al id h0, ht]
      simp only [hp]
      rfl
    | some p =>
      simp only [hp] at hf
      exact ⟨_, _, del_portid_of_found K O tl tr al id t p h0 ht hp hf⟩

theorem del_ns_model (K : Consts) (O : Oracle) (tl : List target) (tr : List event)
    (al nqn : CStr) (nsid : Int) (h0 : O tr (event.del_json_ns al nqn nsid) = 0)
    (hf : del_ns_fits K tl al nqn nsid = true) :
    ∃ ret tr1, del_ns K O tl al nqn nsid tr =
      some (ret,
        update_first (fun t => decide (t.alias_ = al))
          (fun t => { t with subsys_list :=
            (update_first (fun s => decide (s.nqn = nqn))
              (fun s => { s with ns_list :=
                (s.ns_list.eraseP (fun n => decide (n.nsid = nsid))) })
              t.subsys_list) }) tl, tr1) := by
  unfold del_ns_fits at hf
  cases ht : lookup_target tl al with
  | none =>
    refine ⟨0, tr ++ [event.del_json_ns al nqn nsid], ?_⟩
    rw [del_ns_eq K O tl tr al nqn nsid h0, ht]
    rfl
  | some t =>
    rw [ht] at hf
    cases hs : lookup_subsys t nqn with
    | none =>
      refine ⟨0, tr ++ [event.del_json_ns al nqn nsid], ?_⟩
      rw [del_ns_eq K O tl tr al nqn nsid h0, ht]
      simp only [hs]
      rfl
    | some s =>
      simp only [hs] at hf
      cases hn : lookup_ns s nsid with
      | none =>
        refine ⟨0, tr ++ [event.del_json_ns al nqn nsid], ?_⟩
        rw [del_ns_eq K O tl tr al nqn nsid h0, ht]
        simp only [hs, hn]
        rfl
      | some n =>
        simp only [hn] at hf
        exact ⟨_, _, del_ns_of_found K O tl tr al nqn nsid t s n h0 ht hs hn hf⟩

theorem del_acl_model (K : Consts) (O : Oracle) (tl : List target) (tr : List event)
    (al nqn hostnqn : CStr) (h0 : O tr (event.del_json_acl al nqn hostnqn) = 0)
    (hf : del_acl_fits K tl al nqn hostnqn = true) :
    ∃ tr1, del_acl K O tl al nqn hostnqn tr =
      some (0,
        update_first (fun t => decide (t.alias_ = al))
          (fun t => { t with subsys_list :=
            (update_first (fun s => decide (s.nqn = nqn))
              (fun s => { s with host_list :=
                (s.host_list.eraseP (fun h => decide (h.nqn = hostnqn))) })
              t.subsys_list) }) tl, tr1) := by
  unfold del_acl_fits at hf
  cases ht : lookup_target tl al with
  | none =>
    refine ⟨tr ++ [event.del_json_acl al nqn hostnqn], ?_⟩
    rw [del_acl_eq K O tl tr al nqn hostnqn h0, ht]
    rfl
  | some t =>
    rw [ht] at hf
    cases hs : lookup_subsys t nqn with
    | none =>
      refine ⟨tr ++ [event.del_json_acl al nqn hostnqn], ?_⟩
      rw [del_acl_eq K O tl tr al nqn hostnqn h0, ht]
      simp only [hs]
      rfl
    | some s =>
      simp only [hs, acl_fits] at hf
      cases hh : lookup_host s hostnqn with
      | none =>
        refine ⟨tr ++ [event.del_json_acl al nqn hostnqn], ?_⟩
        rw [del_acl_eq K O tl tr al nqn hostnqn h0, ht]
        simp only [hs, hh]
        rfl
      | some h =>
        simp only [hh] at hf
        exact ⟨_, del_acl_of_found K O tl tr al nqn hostnqn t s h h0 ht hs hh hf⟩

/-- C19, amended: when the store accepts the deletion and the URI composed
for an out-of-band target fits `uri[128]`, each operation returns, and the
model after `del_target` is `target_list` without its first member of that
alias, and after `del_subsys`, `del_portid`, `del_ns` and `del_acl` it is
`target_list` with, in its first member of that alias, the first subsystem
of that NQN or the first `port_id` of that id removed, or in the first
subsystem of that NQN the first namespace of that id or the first host
record of that NQN removed; everything else is in place, in order and
unchanged.  The uniqueness invariants (subsystem NQNs and port ids per
target, namespace ids per subsystem) carry over to the new model, and under
them the removed subsystem, `port_id` or namespace is no longer found by
the lookup of its keys; the same holds for a target when aliases are
pairwise distinct and for a host record when no subsystem lists a host NQN
twice. -/
theorem del_single_removal (K : Consts) (O : Oracle) (tl : List target) (tr : List event)
    (al nqn hostnqn : CStr) (id nsid : Int) :
    (O tr (event.del_json_target al) = 0 → del_target_fits K tl al = true →
      ∃ ret tl1 tr1, del_target K O tl al tr = some (ret, tl1, tr1) ∧
        tl1 = tl.eraseP (fun t => decide (t.alias_ = al)) ∧
        (uniqueness_invariants tl → uniqueness_invariants tl1) ∧
        ((tl.map target.alias_).Nodup → lookup_target tl1 al = none)) ∧
    (O tr (event.del_json_subsys al nqn) = 0 → del_subsys_fits K tl al nqn = true →
      ∃ ret tl1 tr1, del_subsys K O tl al nqn tr = some (ret, tl1, tr1) ∧
        tl1 = update_first (fun t => decide (t.alias_ = al))
          (fun t => { t with subsys_list :=
            (t.subsys_list.eraseP (fun s => decide (s.nqn = nqn))) }) tl ∧
        (uniqueness_invariants tl →
          uniqueness_invariants tl1 ∧
          ∀ t, lookup_target tl1 al = some t → lookup_subsys t nqn = none)) ∧
    (O tr (event.del_json_portid al id) = 0 → del_portid_fits K tl al id = true →
      ∃ ret tl1 tr1, del_portid K O tl al id tr = some (ret, tl1, tr1) ∧
        tl1 = update_first (fun t => decide (t.alias_ = al))
          (fun t => { t with portid_list :=
            (t.portid_list.eraseP (fun p => decide (p.portid = id))) }) tl ∧
        (uniqueness_invariants tl →
          uniqueness_invariants tl1 ∧
          ∀ t, lookup_target tl1 al = some t → lookup_portid t id = none)) ∧
    (O tr (event.del_json_ns al nqn nsid) = 0 → del_ns_fits K tl al nqn nsid = true →
      ∃ ret tl1 tr1, del_ns K O tl al nqn nsid tr = some (ret, tl1, tr1) ∧
        tl1 = update_first (fun t => decide (t.alias_ = al))
          (fun t => { t with subsys_list :=
            (update_first (fun s => decide (s.nqn = nqn))
              (fun s => { s with ns_list :=
                (s.ns_list.eraseP (fun n => decide (n.nsid = nsid))) })
              t.subsys_list) }) tl ∧
        (uniqueness_invariants tl →
          uniqueness_invariants tl1 ∧
          ∀ t s, lookup_target tl1 al = some t →
            lookup_subsys t nqn = some s → lookup_ns s nsid = none)) ∧
    (O tr (event.del_json_acl al nqn hostnqn) = 0 →
      del_acl_fits K tl al nqn hostnqn = true →
      ∃ ret tl1 tr1, del_acl K O tl al nqn hostnqn tr = some (ret, tl1, tr1) ∧
        tl1 = update_first (fun t => decide (t.alias_ = al))
          (fun t => { t with subsys_list :=
            (update_first (fun s => decide (s.nqn = nqn))
              (fun s => { s with host_list :=
                (s.host_list.eraseP (fun h => decide (h.nqn = hostnqn))) })
              t.subsys_list) }) tl ∧
        (uniqueness_invariants tl → uniqueness_invariants tl1) ∧
        ((∀ t ∈ tl, ∀ s ∈ t.subsys_list, (s.host_list.map host.nqn).Nodup) →
          ∀ t s, lookup_target tl1 al = some t →
            lookup_subsys t nqn = some s → lookup_host s hostnqn = none)) := by
  refine ⟨?_, ?_, ?_, ?_, ?_⟩
  · intro h0 hf
    obtain ⟨ret, tr1, hr⟩ := del_target_model K O tl tr al h0 hf
    refine ⟨ret, _, tr1, hr, rfl, ?_, ?_⟩
    · intro hu t ht
      exact hu t (List.mem_of_mem_eraseP ht)
    · intro hnd
      exact find?_eraseP_of_nodup target.alias_ al tl hnd
  · intro h0 hf
    obtain ⟨ret, tr1, hr⟩ := del_subsys_model K O tl tr al nqn h0 hf
    refine ⟨ret, _, tr1, hr, rfl, ?_⟩
    intro hu
    refine ⟨?_, ?_⟩
    · apply uniqueness_update_first _ _ _ _ hu
      intro t ⟨h1, h2, h3⟩
      exact ⟨nodup_map_eraseP _ _ _ h1, h2, fun s hs => h3 s (List.mem_of_mem_eraseP hs)⟩
    · intro t ht
      unfold lookup_target at ht
      rw [find?_update_first _ _ ?_] at ht
      swap
      · intro x; rfl
      cases hfd : tl.find? (fun t => decide (t.alias_ = al)) with
      | none => rw [hfd] at ht; cases ht
      | some t0 =>
        rw [hfd] at ht
        cases ht
        exact find?_eraseP_of_nodup subsystem.nqn nqn t0.subsys_list
          (hu t0 (List.mem_of_find?_eq_some hfd)).1
  · intro h0 hf
    obtain ⟨ret, tr1, hr⟩ := del_portid_model K O tl tr al id h0 hf
    refine ⟨ret, _, tr1, hr, rfl, ?_⟩
    intro hu
    refine ⟨?_, ?_⟩
    · apply uniqueness_update_first _ _ _ _ hu
      intro t ⟨h1, h2, h3⟩
      exact ⟨h1, nodup_map_eraseP _ _ _ h2, h3⟩
    · intro t ht
      unfold lookup_target at ht
      rw [find?_update_first _ _ ?_] at ht
      swap
      · intro x; rfl
      cases hfd : tl.find? (fun t => decide (t.alias_ = al)) with
      | none => rw [hfd] at ht; cases ht
      | some t0 =>
        rw [hfd] at ht
        cases ht
        exact find?_eraseP_of_nodup port_id.portid id t0.portid_list
          (hu t0 (List.mem_of_find?_eq_some hfd)).2.1
  · intro h0 hf
    obtain ⟨ret, tr1, hr⟩ := del_ns_model K O tl tr al nqn nsid h0 hf
    refine ⟨ret, _, tr1, hr, rfl, ?_⟩
    intro hu
    refine ⟨?_, ?_⟩
    · apply uniqueness_update_first _ _ _ _ hu
      intro t ⟨h1, h2, h3⟩
      refine ⟨?_, h2, ?_⟩
      · show ((update_first _ _ t.subsys_list).map subsystem.nqn).Nodup
        rw [map_update_first subsystem.nqn _ _ ?_]
        · exact h1
        · intro x; rfl
      · intro s hs
        rcases mem_update_first _ _ _ s hs with hs1 | ⟨s0, hs0, rfl⟩
        · exact h3 s hs1
        · exact nodup_map_eraseP _ _ _ (h3 s0 hs0)
    · intro t s ht hs
      unfold lookup_target at ht
      rw [find?_update_first _ _ ?_] at ht
      swap
      · intro x; rfl
      cases hfd : tl.find? (fun t => decide (t.alias_ = al)) with
      | none => rw [hfd] at ht; cases ht
      | some t0 =>
        rw [hfd] at ht
        cases ht
        unfold lookup_subsys at hs
        simp only [] at hs
        rw [find?_update_first _ _ ?_] at hs
        swap
        · intro x; rfl
        cases hg : t0.subsys_list.find? (fun s => decide (s.nqn = nqn)) with
        | none => rw [hg] at hs; cases hs
        | some s0 =>
          rw [hg] at hs
          cases hs
          exact find?_eraseP_of_nodup ns.nsid nsid s0.ns_list
            ((hu t0 (List.mem_of_find?_eq_some hfd)).2.2 s0 (List.mem_of_find?_eq_some hg))
  · intro h0 hf
    obtain ⟨tr1, hr⟩ := del_acl_model K O tl tr al nqn hostnqn h0 hf
    refine ⟨0, _, tr1, hr, rfl, ?_, ?_⟩
    · intro hu
      apply uniqueness_update_first _ _ _ _ hu
      intro t ⟨h1, h2, h3⟩
      refine ⟨?_, h2, ?_⟩
      · show ((update_first _ _ t.subsys_list).map subsystem.nqn).Nodup
        rw [map_update_first subsystem.nqn _ _ ?_]
        · exact h1
        · intro x; rfl
      · intro s hs
        rcases mem_update_first _ _ _ s hs with hs1 | ⟨s0, hs0, rfl⟩
        · exact h3 s hs1
        · exact h3 s0 hs0
    · intro hh t s ht hs
      unfold lookup_target at ht
      rw [find?_update_first _ _ ?_] at ht
      swap
      · intro x; rfl
      cases hfd : tl.find? (fun t => decide (t.alias_ = al)) with
      | none => rw [hfd] at ht; cases ht
      | some t0 =>
        rw [hfd] at ht
        cases ht
        unfold lookup_subsys at hs
        simp only [] at hs
        rw [find?_update_first _ _ ?_] at hs
        swap
        · intro x; rfl
        cases hg : t0.subsys_list.find? (fun s => decide (s.nqn = nqn)) with
        | none => rw [hg] at hs; cases hs
        | some s0 =>
          rw [hg] at hs
          cases hs
          exact find?_eraseP_of_nodup host.nqn hostnqn s0.host_list
            (hh t0 (List.mem_of_find?_eq_some hfd) s0 (List.mem_of_find?_eq_some hg))

/-- C19 amended, for `del_ns` of namespace 1 of `nqn1` on the out-of-band
target `t1`, every remote call failing: the URI fits, the operation
returns, and the invariants hold afterwards. -/
theorem del_single_removal_witness :
    failing_remote [] (event.del_json_ns (ascii "t1") (ascii "nqn1") 1) = 0 ∧
    del_ns_fits nvmeConsts [oob_target] (ascii "t1") (ascii "nqn1") 1 = true ∧
    uniqueness_invariants [oob_target] ∧
    ∃ ret tl1 tr1,
      del_ns nvmeConsts failing_remote [oob_target] (ascii "t1") (ascii "nqn1") 1 [] =
        some (ret, tl1, tr1) ∧
      uniqueness_invariants tl1 := by
  refine ⟨by decide, by decide, by decide, ?_⟩
  obtain ⟨ret, tl1, tr1, h1, -, h3⟩ :=
    (del_single_removal nvmeConsts failing_remote [oob_target] [] (ascii "t1") (ascii "nqn1")
      [] 0 1).2.2.2.1 (by decide) (by decide)
  exact ⟨ret, tl1, tr1, h1, (h3 (by decide)).1⟩

/-- C19 as stated fails: the model satisfies the three uniqueness
invariants, the store accepts, no URI is composed (the target is in-band),
`del_acl(t1, nqn1, h1)` returns `0`, and in the model it leaves the lookup
of the host `h1` in the subsystem `nqn1` of `t1` still finds a record. -/
theorem del_acl_leaves_duplicate :
    uniqueness_invariants [dup_host_target] ∧
    accepting_all [] (event.del_json_acl (ascii "t1") (ascii "nqn1") (ascii "h1")) = 0 ∧
    del_acl nvmeConsts accepting_all [dup_host_target] (ascii "t1") (ascii "nqn1")
        (ascii "h1") [] =
      some (0,
        [{ dup_host_target with
            subsys_list := [{ nqn := ascii "nqn1", access := 0,
                              host_list := [{ nqn := ascii "h1" }], ns_list := [] }] }],
        [event.del_json_acl (ascii "t1") (ascii "nqn1") (ascii "h1"),
         event.send_del_inb del_op.acl]) ∧
    ((lookup_target
        [{ dup_host_target with
            subsys_list := [{ nqn := ascii "nqn1", access := 0,
                              host_list := [{ nqn := ascii "h1" }], ns_list := [] }] }]
        (ascii "t1")).bind
      (fun t => (lookup_subsys t (ascii "nqn1")).bind
        (fun s => lookup_host s (ascii "h1")))) = some { nqn := ascii "h1" } := by
  decide


end NvmeDem
